import Mathlib

/-!
# bank-vaults: the operator's reconcile handler, the unseal worker and the OSS key store

A shallow embedding of

* `operator/pkg/stub/handler.go`  (`Handler.Handle` and the object fabricators),
* `cmd/bank-vaults/unseal.go`     (the `unseal` command's attempt loop),
* `pkg/kv/alibabaoss/oss.go`      (`ossStorage.Set` / `ossStorage.Get`),

followed by theorems about them.

Conventions of the embedding.

* A Go `error` result is an `Option` (`none` is `nil`) or the error side of an `Except`.
* A Go slice that may be `nil` is `GoSlice α := Option (List α)`, `none` being the nil slice;
  `reflect.DeepEqual` on two such slices of strings is then equality of the two values.
* A Go `map[string]string` is an association list; reading a missing key yields `""`. Where
  the nil map matters (the data of a config map), the map is an `Option`, `none` being nil.
* A run-time panic is an outcome of its own: a fabricator that can panic returns an
  `Outcome`, and the result of `Handle` says whether it ended by returning or by panicking.
  The panics of the handler are the unchecked assertion `storage["address"].(string)` (lines
  313 and 484), the dereference `*dep.Spec.Replicas` (line 110) and the assignment into
  `cm.Data` (line 165).
* Everything the handler asks of the operator SDK (`action.Create`, `query.Get`,
  `action.Update`, `query.List`) goes through an `Sdk σ` record over an arbitrary store
  state `σ`; every call is appended to a trace together with its call site and its answer.
* What comes from packages of the repository that are not among the translated files
  (`v1alpha1`, `pkg/tls`, `pkg/vault`, `pkg/kv`, `pkg/kv/k8s`) is a field of the descriptor
  or of `Env`.
-/

set_option autoImplicit false

namespace BankVaults


/-! ## Go values -/

/-- A Go slice: `none` is the nil slice, `some xs` a non-nil slice with elements `xs`. -/
abbrev GoSlice (α : Type) := Option (List α)

/-- Go's `append(s, x)`: the result is never nil. -/
def GoSlice.append {α : Type} (s : GoSlice α) (x : α) : GoSlice α :=
  some (s.getD [] ++ [x])

/-- The entries of a Go `map[string]string`. -/
abbrev StrMap := List (String × String)

/-- How a call of a Go function with results `(T, error)` ends: it returns a value and a nil
error, it returns a non-nil error, or a run-time panic unwinds it (nothing in the handler
recovers from a panic, so the caller returns nothing either). -/
inductive Outcome (α : Type) where
  | ok (a : α)
  | error (err : String)
  | panic (value : String)
  deriving DecidableEq, Repr

/-- A value of type `interface{}` as the handler tells such values apart: a string, or a
value of another dynamic type, given by the name under which a failed type assertion reports
it (`nil` for the nil interface, which is what a map read yields for a missing key). -/
inductive Value where
  | string (s : String)
  | other (typeName : String)
  deriving DecidableEq, Repr

/-- The unchecked type assertion `x.(string)`: the string, or the value of the run-time panic
it raises. -/
def Value.assertString : Value → Except String String
  | .string s => .ok s
  | .other typeName =>
    .error ("interface conversion: interface {} is " ++ typeName ++ ", not string")

/-- Reading `m[k]`: the zero value `""` when the key is missing. -/
def StrMap.get (m : StrMap) (k : String) : String :=
  match m.find? (fun p => p.1 == k) with
  | some p => p.2
  | none => ""

/-- The assignment `m[k] = v`. -/
def StrMap.set : StrMap → String → String → StrMap
  | [], k, v => [(k, v)]
  | (k', v') :: rest, k, v =>
    if k' == k then (k, v) :: rest else (k', v') :: StrMap.set rest k v

/-! ## Kubernetes objects (the fields the handler reads or writes) -/

/-- The type `metav1.OwnerReference`. -/
structure OwnerReference where
  APIVersion : String
  Kind : String
  Name : String
  UID : String
  Controller : Option Bool
  deriving DecidableEq, Repr

/-- The type `metav1.TypeMeta`. -/
structure TypeMeta where
  APIVersion : String := ""
  Kind : String := ""
  deriving DecidableEq, Repr

/-- The type `metav1.ObjectMeta`. -/
structure ObjectMeta where
  Name : String := ""
  Namespace : String := ""
  Labels : StrMap := []
  OwnerReferences : List OwnerReference := []
  deriving DecidableEq, Repr

/-- The type `v1.Secret`. -/
structure Secret where
  type : TypeMeta
  meta : ObjectMeta
  StringData : StrMap
  deriving DecidableEq, Repr

/-- The type `etcdV1beta2.EtcdCluster` with its `ClusterSpec` and static TLS policy inlined. -/
structure EtcdCluster where
  type : TypeMeta
  meta : ObjectMeta
  Size : Int
  Version : String
  OperatorSecret : String
  ServerSecret : String
  PeerSecret : String
  deriving DecidableEq, Repr

/-- The type `v1.VolumeSource`, restricted to the three sources the handler uses. -/
inductive VolumeSource where
  | EmptyDir
  | Secret (SecretName : String)
  | ConfigMap (Name : String)
  deriving DecidableEq, Repr

/-- The type `v1.Volume`. -/
structure Volume where
  Name : String
  VolumeSource : VolumeSource
  deriving DecidableEq, Repr

/-- The type `v1.VolumeMount`. -/
structure VolumeMount where
  Name : String
  MountPath : String
  SubPath : String := ""
  deriving DecidableEq, Repr

/-- The type `v1.EnvVar`. -/
structure EnvVar where
  Name : String
  Value : String
  deriving DecidableEq, Repr

/-- The type `v1.ContainerPort`. -/
structure ContainerPort where
  Port : Int
  Name : String
  deriving DecidableEq, Repr

/-- An HTTP GET probe (`v1.Probe` with an `HTTPGetAction`). -/
structure Probe where
  Scheme : String
  Port : String
  Path : String
  deriving DecidableEq, Repr

/-- The type `v1.Container`. -/
structure Container where
  Image : String
  ImagePullPolicy : String
  Name : String
  Command : List String := []
  Args : List String := []
  Ports : List ContainerPort := []
  Env : List EnvVar := []
  CapabilitiesAdd : List String := []
  LivenessProbe : Option Probe := none
  ReadinessProbe : Option Probe := none
  VolumeMounts : List VolumeMount := []
  WorkingDir : String := ""
  deriving DecidableEq, Repr

/-- The type `appsv1.Deployment`; `Replicas` is the `*int32` of the deployment spec. -/
structure Deployment where
  type : TypeMeta
  meta : ObjectMeta
  Replicas : Option Int
  Selector : StrMap
  TemplateLabels : StrMap
  Containers : List Container
  Volumes : List Volume
  deriving DecidableEq, Repr

/-- The type `v1.ServicePort`. -/
structure ServicePort where
  Name : String
  Port : Int
  deriving DecidableEq, Repr

/-- The type `v1.Service`. -/
structure Service where
  type : TypeMeta
  meta : ObjectMeta
  ServiceType : String
  Selector : StrMap
  Ports : List ServicePort
  deriving DecidableEq, Repr

/-- The type `v1.ConfigMap`. The field `Data` is a map, `none` being the nil map (a config
map without data): reading a key of the nil map yields `""`, assigning to one panics. -/
structure ConfigMap where
  type : TypeMeta
  meta : ObjectMeta
  Data : Option StrMap
  deriving DecidableEq, Repr

/-- The type `v1.Pod`, as far as listing looks at it. -/
structure Pod where
  Name : String
  Namespace : String := ""
  Labels : StrMap := []
  deriving DecidableEq, Repr

/-! ## The descriptor (`v1alpha1.Vault`)

The package `v1alpha1` is not among the translated files. The accessors of `VaultSpec`
that the handler calls are therefore fields here: `GetStorageType()`, `HasHAStorage()`,
the value `GetStorage()["address"]`, `ConfigJSON()`, `ExternalConfigJSON()`,
`GetBankVaultsImage()` and `UnsealConfig.ToArgs(v)`. The map `GetStorage()` returns is taken
to be non-nil, so that the three assignments of lines 307-309 go through. -/

/-- The credentials part of the spec (`Spec.CredentialsConfig`). -/
structure CredentialsConfig where
  Env : String := ""
  Path : String := ""
  SecretName : String := ""
  deriving DecidableEq, Repr

/-- The type `v1alpha1.VaultSpec`, through the accessors the handler uses. -/
structure VaultSpec where
  /-- The field `Size`, the desired replica count (an `int32`). -/
  Size : Int
  Image : String := ""
  /-- Result of `GetStorageType()`. -/
  GetStorageType : String := ""
  /-- Result of `HasHAStorage()`. -/
  HasHAStorage : Bool := false
  /-- The value `GetStorage()["address"]`, which the handler asserts to be a string
  (`storage["address"].(string)`, lines 313 and 484); the nil interface when the stanza has no
  address. -/
  StorageAddress : Value := .other "nil"
  /-- Result of `ConfigJSON()`, as a function of the entries the handler has written into the
  storage stanza beforehand (none unless the storage type is etcd). -/
  ConfigJSON : StrMap → String := fun _ => ""
  /-- Result of `ExternalConfigJSON()`. -/
  ExternalConfigJSON : String := ""
  /-- Result of `GetBankVaultsImage()`. -/
  GetBankVaultsImage : String := ""
  /-- Result of `UnsealConfig.ToArgs(v)`. -/
  UnsealArgs : List String := []
  CredentialsConfig : CredentialsConfig := {}

/-- The type `v1alpha1.VaultStatus`. -/
structure VaultStatus where
  Nodes : GoSlice String := none
  deriving DecidableEq, Repr

/-- The type `v1alpha1.Vault`. -/
structure Vault where
  APIVersion : String := ""
  Kind : String := ""
  Name : String
  Namespace : String := ""
  UID : String := ""
  Spec : VaultSpec
  Status : VaultStatus := {}

/-- Any object the SDK can be handed (`sdkTypes.Object`). -/
inductive Object where
  | secret (o : Secret)
  | etcdCluster (o : EtcdCluster)
  | deployment (o : Deployment)
  | service (o : Service)
  | configMap (o : ConfigMap)
  | vault (o : Vault)

/-! ## What the handler takes from other packages -/

/-- The certificate chain returned by `tls.GenerateTLS` (package `pkg/tls`). -/
structure CertificateChain where
  CACert : String
  ServerCert : String
  ServerKey : String
  ClientCert : String
  ClientKey : String
  PeerCert : String
  PeerKey : String
  deriving DecidableEq, Repr

/-- Functions and constants the handler imports: `tls.GenerateTLS hosts validity`,
`url.Parse` followed by `Hostname()`, `json.Marshal` of an owner reference, and the constants
`vault.DefaultConfigFile` and `k8s.EnvK8SOwnerReference`. -/
structure Env where
  GenerateTLS : String → String → Except String CertificateChain
  ParseHostname : String → Except String String
  MarshalOwner : OwnerReference → Except String String
  DefaultConfigFile : String
  EnvK8SOwnerReference : String

/-- Constant `etcdutil.CliCAFile` of the etcd operator. -/
def CliCAFile : String := "etcd-client-ca.crt"
/-- Constant `etcdutil.CliCertFile` of the etcd operator. -/
def CliCertFile : String := "etcd-client.crt"
/-- Constant `etcdutil.CliKeyFile` of the etcd operator. -/
def CliKeyFile : String := "etcd-client.key"
/-- Constant `api.EnvVaultCACert` of the Vault client. -/
def EnvVaultCACert : String := "VAULT_CACERT"
/-- Constant `api.EnvVaultAddress` of the Vault client. -/
def EnvVaultAddress : String := "VAULT_ADDR"

/-! ## The fabricators of `handler.go` -/

/-- The function `labelsForVault`. -/
def labelsForVault (name : String) : StrMap :=
  [("app", "vault"), ("vault_cr", name)]

/-- The function `labelsForVaultConfigurer`. -/
def labelsForVaultConfigurer (name : String) : StrMap :=
  [("app", "vault-configurator"), ("vault_cr", name)]

/-- The function `asOwner`. -/
def asOwner (v : Vault) : OwnerReference :=
  { APIVersion := v.APIVersion, Kind := v.Kind, Name := v.Name, UID := v.UID,
    Controller := some true }

/-- The function `addOwnerRefToObject`, on the object's metadata:
`obj.SetOwnerReferences(append(obj.GetOwnerReferences(), ownerRef))`. -/
def addOwnerRefToObject (m : ObjectMeta) (ownerRef : OwnerReference) : ObjectMeta :=
  { m with OwnerReferences := m.OwnerReferences ++ [ownerRef] }

/-- The function `secretForEtcd`. -/
def secretForEtcd (env : Env) (e : EtcdCluster) : Except String Secret :=
  let hosts := [
    e.meta.Name,
    e.meta.Name ++ "." ++ e.meta.Namespace,
    "*." ++ e.meta.Name ++ "." ++ e.meta.Namespace ++ ".svc",
    e.meta.Name ++ "-client." ++ e.meta.Namespace ++ ".svc",
    "localhost"]
  match env.GenerateTLS (String.intercalate "," hosts) "8760h" with
  | .error err => .error err
  | .ok chain =>
    let data : StrMap := []
    let data := data.set CliCAFile chain.CACert
    let data := data.set CliCertFile chain.ClientCert
    let data := data.set CliKeyFile chain.ClientKey
    let data := data.set "peer-ca.crt" chain.CACert
    let data := data.set "peer.crt" chain.PeerCert
    let data := data.set "peer.key" chain.PeerKey
    let data := data.set "server-ca.crt" chain.CACert
    let data := data.set "server.crt" chain.ServerCert
    let data := data.set "server.key" chain.ServerKey
    .ok { type := { APIVersion := "v1", Kind := "Secret" },
          meta := { Name := e.meta.Name ++ "-tls", Namespace := e.meta.Namespace,
                    Labels := labelsForVault e.meta.Name },
          StringData := data }

/-- The function `secretForVault`. -/
def secretForVault (env : Env) (om : Vault) : Except String Secret :=
  let hostsAndIPs := om.Name ++ "." ++ om.Namespace ++ ",127.0.0.1"
  match env.GenerateTLS hostsAndIPs "8760h" with
  | .error err => .error err
  | .ok chain =>
    let data : StrMap := []
    let data := data.set "ca.crt" chain.CACert
    let data := data.set "server.crt" chain.ServerCert
    let data := data.set "server.key" chain.ServerKey
    .ok { type := { APIVersion := "v1", Kind := "Secret" },
          meta := { Name := om.Name ++ "-tls", Namespace := om.Namespace,
                    Labels := labelsForVault om.Name },
          StringData := data }

/-- The function `withCredentialsEnv`. -/
def withCredentialsEnv (v : Vault) (envs : List EnvVar) : List EnvVar :=
  let env := v.Spec.CredentialsConfig.Env
  let path := v.Spec.CredentialsConfig.Path
  if env != "" then envs ++ [{ Name := env, Value := path }] else envs

/-- The function `withCredentialsVolume`. -/
def withCredentialsVolume (v : Vault) (volumes : List Volume) : List Volume :=
  let secretName := v.Spec.CredentialsConfig.SecretName
  if secretName != "" then
    volumes ++ [{ Name := secretName, VolumeSource := .Secret secretName }]
  else volumes

/-- The file part of `filepath.Split(path)`: what follows the last slash. -/
def splitFile (path : String) : String :=
  String.mk (path.toList.foldl (fun acc c => if c = '/' then [] else acc ++ [c]) [])

/-- The function `withCredentialsVolumeMount`. -/
def withCredentialsVolumeMount (v : Vault) (volumeMounts : List VolumeMount) :
    List VolumeMount :=
  let secretName := v.Spec.CredentialsConfig.SecretName
  let path := v.Spec.CredentialsConfig.Path
  if secretName != "" then
    volumeMounts ++ [{ Name := secretName, MountPath := path, SubPath := splitFile path }]
  else volumeMounts

/-- The error text of the validation in `deploymentForVault`. -/
def haValidationError : String :=
  "More than 1 replicas are not supported without HA storage backend"

/-- The function `deploymentForVault`. The validation of the replica count comes first; the
etcd branch then writes three TLS entries into the storage stanza, asserts the address to be
a string (line 313, a panic otherwise) and mounts the etcd secret. -/
def deploymentForVault (env : Env) (v : Vault) : Outcome Deployment :=
  let ls := labelsForVault v.Name
  let replicas := v.Spec.Size
  -- validate configuration
  if replicas > 1 && !v.Spec.HasHAStorage then
    .error haValidationError
  else
  let volumes := withCredentialsVolume v [
    { Name := "vault-config", VolumeSource := .EmptyDir },
    { Name := "vault-file", VolumeSource := .EmptyDir },
    { Name := "vault-tls", VolumeSource := .Secret (v.Name ++ "-tls") }]
  let volumeMounts := withCredentialsVolumeMount v [
    { Name := "vault-config", MountPath := "/vault/config" },
    { Name := "vault-file", MountPath := "/vault/file" },
    { Name := "vault-tls", MountPath := "/vault/tls" }]
  let etcdPart : Outcome (List Volume × List VolumeMount × StrMap) :=
    if v.Spec.GetStorageType == "etcd" then
      let etcdStorage : StrMap := [
        ("tls_ca_file", "/etcd/tls/" ++ CliCAFile),
        ("tls_cert_file", "/etcd/tls/" ++ CliCertFile),
        ("tls_key_file", "/etcd/tls/" ++ CliKeyFile)]
      match v.Spec.StorageAddress.assertString with
      | .error value => .panic value
      | .ok etcdAddress =>
        match env.ParseHostname etcdAddress with
        | .error err => .error err
        | .ok etcdName =>
          .ok (volumes ++ [{ Name := "etcd-tls", VolumeSource := .Secret (etcdName ++ "-tls") }],
               volumeMounts ++ [{ Name := "etcd-tls", MountPath := "/etcd/tls" }],
               etcdStorage)
    else .ok (volumes, volumeMounts, [])
  match etcdPart with
  | .panic value => .panic value
  | .error err => .error err
  | .ok (volumes, volumeMounts, storageWrites) =>
  let configJSON := v.Spec.ConfigJSON storageWrites
  let owner := asOwner v
  match env.MarshalOwner owner with
  | .error err => .error err
  | .ok ownerJSON =>
  let vaultProbe (path : String) : Probe := { Scheme := "HTTPS", Port := "vault", Path := path }
  let dep : Deployment :=
    { type := { APIVersion := "apps/v1", Kind := "Deployment" },
      meta := { Name := v.Name, Namespace := v.Namespace },
      Replicas := some replicas,
      Selector := ls,
      TemplateLabels := ls,
      Containers := [
        { Image := v.Spec.Image,
          ImagePullPolicy := "IfNotPresent",
          Name := "vault",
          Args := ["server", "-log-level=debug"],
          Ports := [{ Port := 8200, Name := "vault" }],
          Env := withCredentialsEnv v [
            { Name := "VAULT_LOCAL_CONFIG", Value := configJSON },
            { Name := EnvVaultCACert, Value := "/vault/tls/ca.crt" }],
          CapabilitiesAdd := ["IPC_LOCK"],
          LivenessProbe := some (vaultProbe "/v1/sys/init"),
          ReadinessProbe := some (vaultProbe "/v1/sys/health"),
          VolumeMounts := volumeMounts },
        { Image := v.Spec.GetBankVaultsImage,
          ImagePullPolicy := "IfNotPresent",
          Name := "bank-vaults",
          Command := ["bank-vaults", "unseal", "--init"],
          Args := v.Spec.UnsealArgs,
          Env := withCredentialsEnv v [
            { Name := env.EnvK8SOwnerReference, Value := ownerJSON },
            { Name := EnvVaultCACert, Value := "/vault/tls/ca.crt" }],
          VolumeMounts := withCredentialsVolumeMount v [
            { Name := "vault-tls", MountPath := "/vault/tls" }] }],
      Volumes := volumes }
  .ok { dep with meta := addOwnerRefToObject dep.meta owner }

/-- The function `etcdForVault`. It starts with the unchecked assertion
`storage["address"].(string)` (line 484), which panics when the address is not a string. -/
def etcdForVault (env : Env) (v : Vault) : Outcome EtcdCluster :=
  match v.Spec.StorageAddress.assertString with
  | .error value => .panic value
  | .ok etcdAddress =>
    match env.ParseHostname etcdAddress with
    | .error err => .error err
    | .ok etcdName =>
      let etcdCluster : EtcdCluster :=
        { type := { APIVersion := "etcd.database.coreos.com/v1beta2", Kind := "EtcdCluster" },
          meta := { Name := etcdName, Namespace := v.Namespace,
                    Labels := labelsForVault v.Name },
          Size := 3,
          Version := "3.1.15",
          OperatorSecret := etcdName ++ "-tls",
          ServerSecret := etcdName ++ "-tls",
          PeerSecret := etcdName ++ "-tls" }
      .ok { etcdCluster with meta := addOwnerRefToObject etcdCluster.meta (asOwner v) }

/-- The function `serviceForVault`. -/
def serviceForVault (v : Vault) : Service :=
  let ls := labelsForVault v.Name
  let service : Service :=
    { type := { APIVersion := "v1", Kind := "Service" },
      meta := { Name := v.Name, Namespace := v.Namespace },
      ServiceType := "NodePort",
      Selector := ls,
      Ports := [{ Name := "vault", Port := 8200 }] }
  { service with meta := addOwnerRefToObject service.meta (asOwner v) }

/-- The function `deploymentForConfigurer`. -/
def deploymentForConfigurer (v : Vault) : Deployment :=
  let ls := labelsForVaultConfigurer v.Name
  let dep : Deployment :=
    { type := { APIVersion := "apps/v1", Kind := "Deployment" },
      meta := { Name := v.Name ++ "-configurer", Namespace := v.Namespace },
      Replicas := none,
      Selector := ls,
      TemplateLabels := ls,
      Containers := [
        { Image := v.Spec.GetBankVaultsImage,
          ImagePullPolicy := "IfNotPresent",
          Name := "bank-vaults",
          Command := ["bank-vaults", "configure"],
          Args := v.Spec.UnsealArgs,
          Env := withCredentialsEnv v [
            { Name := EnvVaultAddress,
              Value := "https://" ++ v.Name ++ "." ++ v.Namespace ++ ":8200" },
            { Name := EnvVaultCACert, Value := "/vault/tls/ca.crt" }],
          VolumeMounts := withCredentialsVolumeMount v [
            { Name := "config", MountPath := "/config" },
            { Name := "vault-tls", MountPath := "/vault/tls" }],
          WorkingDir := "/config" }],
      Volumes := withCredentialsVolume v [
        { Name := "config", VolumeSource := .ConfigMap (v.Name ++ "-configurer") },
        { Name := "vault-tls", VolumeSource := .Secret (v.Name ++ "-tls") }] }
  { dep with meta := addOwnerRefToObject dep.meta (asOwner v) }

/-- The function `configMapForConfigurer`. -/
def configMapForConfigurer (env : Env) (v : Vault) : ConfigMap :=
  let ls := labelsForVaultConfigurer v.Name
  let cm : ConfigMap :=
    { type := { APIVersion := "v1", Kind := "ConfigMap" },
      meta := { Name := v.Name ++ "-configurer", Namespace := v.Namespace, Labels := ls },
      Data := some [(env.DefaultConfigFile, v.Spec.ExternalConfigJSON)] }
  { cm with meta := addOwnerRefToObject cm.meta (asOwner v) }

/-- The function `getPodNames`: starts from the nil slice and appends each pod's name. -/
def getPodNames (pods : List Pod) : GoSlice String :=
  pods.foldl (fun podNames pod => GoSlice.append podNames pod.Name) none

/-- The function `validation.IsValidLabelValue` of apimachinery, as a test: a label value has
at most 63 characters and is empty or made of alphanumerics, `-`, `_` and `.`, the first and
the last character being alphanumeric. -/
def IsValidLabelValue (value : String) : Bool :=
  value.toList.length ≤ 63 &&
    value.toList.all (fun c => c.isAlphanum || c == '-' || c == '_' || c == '.') &&
    value.toList.head?.all Char.isAlphanum &&
    value.toList.getLast?.all Char.isAlphanum

/-- The label selector string `labels.SelectorFromSet(labelsForVault(name)).String()`:
the requirements `key=value` in key order, joined by commas. When a value is not a valid
label value, `SelectorFromSet` gives up all requirements and yields the empty selector, which
prints as the empty string (and selects every pod). -/
def labelSelectorForVault (name : String) : String :=
  if (labelsForVault name).all (fun p => IsValidLabelValue p.2) then
    String.intercalate "," ((labelsForVault name).map (fun p => p.1 ++ "=" ++ p.2))
  else ""

/-! ## The operator SDK, as the handler sees it -/

/-- The reason carried by an API error (`metav1.StatusReason`); `Unknown` for an error that
is not an API status. -/
inductive StatusReason where
  | AlreadyExists
  | NotFound
  | Conflict
  | Unknown
  deriving DecidableEq, Repr

/-- A non-nil Go `error` returned by the SDK: its reason and its `Error()` text. -/
structure ApiError where
  Reason : StatusReason
  Message : String
  deriving DecidableEq, Repr

/-- The function `apierrors.IsAlreadyExists`. -/
def IsAlreadyExists (err : ApiError) : Bool :=
  err.Reason == StatusReason.AlreadyExists

/-- The guard `err != nil && !apierrors.IsAlreadyExists(err)` after each create: the error the
handler reports, if any. -/
def createError (err : Option ApiError) : Option ApiError :=
  match err with
  | some e => if !IsAlreadyExists e then some e else none
  | none => none

/-- The SDK over a store state `σ`: `action.Create`, `query.Get` (at its two uses),
`action.Update` and `query.List` with a namespace and a label selector. `GetDeployment` and
`GetConfigMap` answer with the object as it stands after the call. -/
structure Sdk (σ : Type) where
  Create : Object → σ → Option ApiError × σ
  GetDeployment : Deployment → σ → Except ApiError Deployment × σ
  GetConfigMap : ConfigMap → σ → Except ApiError ConfigMap × σ
  Update : Object → σ → Option ApiError × σ
  List : String → String → σ → Except ApiError (List Pod) × σ

/-- The thirteen places in `Handle` where the SDK is called. -/
inductive Site where
  | createEtcdSecret
  | createEtcdCluster
  | createVaultSecret
  | createDeployment
  | getDeployment
  | updateDeployment
  | listPods
  | updateStatus
  | createService
  | createConfigurerDeployment
  | createConfigMap
  | getConfigMap
  | updateConfigMap
  deriving DecidableEq, Repr, Fintype

/-- The line of `handler.go` on which the call stands. -/
def Site.line : Site → Nat
  | .createEtcdSecret => 69
  | .createEtcdCluster => 74
  | .createVaultSecret => 88
  | .createDeployment => 98
  | .getDeployment => 105
  | .updateDeployment => 112
  | .listPods => 122
  | .updateStatus => 129
  | .createService => 137
  | .createConfigurerDeployment => 144
  | .createConfigMap => 152
  | .getConfigMap => 158
  | .updateConfigMap => 166

/-- A call made to the SDK. -/
inductive Call where
  | Create (o : Object)
  | Get (o : Object)
  | Update (o : Object)
  | List (ns : String) (labelSelector : String)

/-- One entry of the trace: where the call was made, the call, and the error it returned. -/
structure Entry where
  site : Site
  call : Call
  err : Option ApiError

/-- The state after a block of `Handle`: what ended the pass (`none` while the pass goes
on), the store, the calls made, the descriptor `v` (a pointer in the source, so the status
written into it is seen by whoever holds the event), and how the pass ended: with
`panicked = false` the value `err` is the error `Handle` returned, with `panicked = true` it
is the value of a run-time panic, and `Handle` returned nothing. -/
structure Step (σ : Type) where
  err : Option String
  store : σ
  trace : List Entry
  v : Vault
  panicked : Bool

/-- Sequencing of two blocks: a block that returned an error, or panicked, ends the pass. -/
def Step.andThen {σ : Type} (r : Step σ) (f : Vault → σ → Step σ) : Step σ :=
  match r.err with
  | some _ => r
  | none =>
    let r' := f r.v r.store
    { err := r'.err, store := r'.store, trace := r.trace ++ r'.trace, v := r'.v,
      panicked := r'.panicked }

/-- The value of the panic of a nil pointer dereference. -/
def nilDereference : String :=
  "runtime error: invalid memory address or nil pointer dereference"

/-- The value of the panic of an assignment into a nil map. -/
def nilMapAssignment : String := "assignment to entry in nil map"

/-! ## `Handler.Handle`, block by block -/

section Handle
variable {σ : Type}

/-- Lines 53-78: the etcd cluster and its secret, when the storage type is etcd. -/
def handleEtcd (env : Env) (sdk : Sdk σ) (v : Vault) (s : σ) : Step σ :=
  if v.Spec.GetStorageType == "etcd" then
    match etcdForVault env v with
    | .panic value => ⟨some value, s, [], v, true⟩
    | .error err => ⟨some ("failed to fabricate etcd cluster: " ++ err), s, [], v, false⟩
    | .ok etcdCluster =>
      match secretForEtcd env etcdCluster with
      | .error err => ⟨some ("failed to fabricate secret for etcd: " ++ err), s, [], v, false⟩
      | .ok sec =>
        let sec := { sec with meta := addOwnerRefToObject sec.meta (asOwner v) }
        let r1 := sdk.Create (.secret sec) s
        let t1 : List Entry := [⟨.createEtcdSecret, .Create (.secret sec), r1.1⟩]
        match createError r1.1 with
        | some err =>
          ⟨some ("failed to create secret for etcd: " ++ err.Message), r1.2, t1, v, false⟩
        | none =>
          let r2 := sdk.Create (.etcdCluster etcdCluster) r1.2
          let t2 : List Entry :=
            t1 ++ [⟨.createEtcdCluster, .Create (.etcdCluster etcdCluster), r2.1⟩]
          match createError r2.1 with
          | some err =>
            ⟨some ("failed to create etcd cluster: " ++ err.Message), r2.2, t2, v, false⟩
          | none => ⟨none, r2.2, t2, v, false⟩
  else ⟨none, s, [], v, false⟩

/-- Lines 80-91: the TLS secret of Vault. -/
def handleVaultSecret (env : Env) (sdk : Sdk σ) (v : Vault) (s : σ) : Step σ :=
  match secretForVault env v with
  | .error err => ⟨some ("failed to fabricate secret for vault: " ++ err), s, [], v, false⟩
  | .ok sec =>
    let sec := { sec with meta := addOwnerRefToObject sec.meta (asOwner v) }
    let r1 := sdk.Create (.secret sec) s
    let t1 : List Entry := [⟨.createVaultSecret, .Create (.secret sec), r1.1⟩]
    match createError r1.1 with
    | some err =>
      ⟨some ("failed to create secret for vault: " ++ err.Message), r1.2, t1, v, false⟩
    | none => ⟨none, r1.2, t1, v, false⟩

/-- Lines 93-116: the Vault deployment, then its replica count brought to `v.Spec.Size`.
(`logDeployment` only prints, and its result is dropped.) The comparison of line 110
dereferences the `Replicas` pointer of the deployment read back, a panic when it is nil. -/
def handleDeployment (env : Env) (sdk : Sdk σ) (v : Vault) (s : σ) : Step σ :=
  match deploymentForVault env v with
  | .panic value => ⟨some value, s, [], v, true⟩
  | .error err => ⟨some ("failed to fabricate deployment: " ++ err), s, [], v, false⟩
  | .ok dep =>
    let r1 := sdk.Create (.deployment dep) s
    let t1 : List Entry := [⟨.createDeployment, .Create (.deployment dep), r1.1⟩]
    match createError r1.1 with
    | some err => ⟨some ("failed to create deployment: " ++ err.Message), r1.2, t1, v, false⟩
    | none =>
      -- Ensure the deployment size is the same as the spec
      let r2 := sdk.GetDeployment dep r1.2
      match r2.1 with
      | .error err =>
        ⟨some ("failed to get deployment: " ++ err.Message), r2.2,
          t1 ++ [⟨.getDeployment, .Get (.deployment dep), some err⟩], v, false⟩
      | .ok dep =>
        let t2 : List Entry := t1 ++ [⟨.getDeployment, .Get (.deployment dep), none⟩]
        let size := v.Spec.Size
        match dep.Replicas with
        | none => ⟨some nilDereference, r2.2, t2, v, true⟩
        | some replicas =>
          if replicas != size then
            let dep := { dep with Replicas := some size }
            let r3 := sdk.Update (.deployment dep) r2.2
            let t3 : List Entry :=
              t2 ++ [⟨.updateDeployment, .Update (.deployment dep), r3.1⟩]
            match r3.1 with
            | some err =>
              ⟨some ("failed to update deployment: " ++ err.Message), r3.2, t3, v, false⟩
            | none => ⟨none, r3.2, t3, v, false⟩
          else ⟨none, r2.2, t2, v, false⟩

/-- Lines 118-133: the pod names written into the status of `v` when they differ from the
recorded ones (`reflect.DeepEqual`). The assignment to `v.Status.Nodes` precedes the update
call and stays whether or not the call succeeds. -/
def handleStatus (sdk : Sdk σ) (v : Vault) (s : σ) : Step σ :=
  let labelSelector := labelSelectorForVault v.Name
  let r1 := sdk.List v.Namespace labelSelector s
  match r1.1 with
  | .error err =>
    ⟨some ("failed to list pods: " ++ err.Message), r1.2,
      [⟨.listPods, .List v.Namespace labelSelector, some err⟩], v, false⟩
  | .ok items =>
    let t1 : List Entry := [⟨.listPods, .List v.Namespace labelSelector, none⟩]
    let podNames := getPodNames items
    if podNames ≠ v.Status.Nodes then
      let v := { v with Status := { v.Status with Nodes := podNames } }
      let r2 := sdk.Update (.vault v) r1.2
      let t2 : List Entry := t1 ++ [⟨.updateStatus, .Update (.vault v), r2.1⟩]
      match r2.1 with
      | some err =>
        ⟨some ("failed to update vault status: " ++ err.Message), r2.2, t2, v, false⟩
      | none => ⟨none, r2.2, t2, v, false⟩
    else ⟨none, r1.2, t1, v, false⟩

/-- Lines 135-140: the service. -/
def handleService (sdk : Sdk σ) (v : Vault) (s : σ) : Step σ :=
  let ser := serviceForVault v
  let r1 := sdk.Create (.service ser) s
  let t1 : List Entry := [⟨.createService, .Create (.service ser), r1.1⟩]
  match createError r1.1 with
  | some err => ⟨some ("failed to create service: " ++ err.Message), r1.2, t1, v, false⟩
  | none => ⟨none, r1.2, t1, v, false⟩

/-- Lines 142-170: the configurer deployment, its config map, and the config map's payload
brought to the external configuration of `v`. The assignment of line 165 panics when the
config map read back has the nil map as its data. -/
def handleConfigurer (env : Env) (sdk : Sdk σ) (v : Vault) (s : σ) : Step σ :=
  let dep := deploymentForConfigurer v
  let r1 := sdk.Create (.deployment dep) s
  let t1 : List Entry := [⟨.createConfigurerDeployment, .Create (.deployment dep), r1.1⟩]
  match createError r1.1 with
  | some err =>
    ⟨some ("failed to create configurer deployment: " ++ err.Message), r1.2, t1, v, false⟩
  | none =>
    let cm := configMapForConfigurer env v
    let r2 := sdk.Create (.configMap cm) r1.2
    let t2 : List Entry := t1 ++ [⟨.createConfigMap, .Create (.configMap cm), r2.1⟩]
    match createError r2.1 with
    | some err =>
      ⟨some ("failed to create configurer configmap: " ++ err.Message), r2.2, t2, v, false⟩
    | none =>
      -- Ensure the configmap is the same as the spec
      let r3 := sdk.GetConfigMap cm r2.2
      match r3.1 with
      | .error err =>
        ⟨some ("failed to get deployment: " ++ err.Message), r3.2,
          t2 ++ [⟨.getConfigMap, .Get (.configMap cm), some err⟩], v, false⟩
      | .ok cm =>
        let t3 : List Entry := t2 ++ [⟨.getConfigMap, .Get (.configMap cm), none⟩]
        let externalConfig := v.Spec.ExternalConfigJSON
        if (cm.Data.getD []).get env.DefaultConfigFile != externalConfig then
          match cm.Data with
          | none => ⟨some nilMapAssignment, r3.2, t3, v, true⟩
          | some data =>
            let cm := { cm with Data := some (data.set env.DefaultConfigFile externalConfig) }
            let r4 := sdk.Update (.configMap cm) r3.2
            let t4 : List Entry := t3 ++ [⟨.updateConfigMap, .Update (.configMap cm), r4.1⟩]
            match r4.1 with
            | some err =>
              ⟨some ("failed to update configurer configmap: " ++ err.Message), r4.2, t4, v,
                false⟩
            | none => ⟨none, r4.2, t4, v, false⟩
        else ⟨none, r3.2, t3, v, false⟩

/-- The object of an event: a `*v1alpha1.Vault`, or anything else (no case of the type
switch). -/
inductive EventObject where
  | vault (v : Vault)
  | other

/-- The type `types.Event`. -/
structure Event where
  Object : EventObject
  Deleted : Bool

/-- What a call of `Handle` leaves: what ended it (`none` when it returned nil), the store,
the calls made, the event's object (whose status `Handle` may have rewritten), and how it
ended: with `panicked = false` the value `err` is the error `Handle` returned, with
`panicked = true` it is the value of the run-time panic that unwound `Handle`, which then
returned nothing. -/
structure Result (σ : Type) where
  err : Option String
  store : σ
  trace : List Entry
  Object : EventObject
  panicked : Bool

/-- The body of the `*v1alpha1.Vault` case for an event that is not a delete: the six blocks
in source order. -/
def reconcile (env : Env) (sdk : Sdk σ) (v : Vault) (s : σ) : Step σ :=
  (((((handleEtcd env sdk v s).andThen
    (handleVaultSecret env sdk)).andThen
    (handleDeployment env sdk)).andThen
    (handleStatus sdk)).andThen
    (handleService sdk)).andThen
    (handleConfigurer env sdk)

/-- The method `Handler.Handle`. -/
def Handle (env : Env) (sdk : Sdk σ) (event : Event) (s : σ) : Result σ :=
  match event.Object with
  | .vault v =>
    -- Ignore the delete event
    if event.Deleted then ⟨none, s, [], .vault v, false⟩
    else
      let r := reconcile env sdk v s
      ⟨r.err, r.store, r.trace, .vault r.v, r.panicked⟩
  | .other => ⟨none, s, [], .other, false⟩

end Handle

/-! ## An object store for the SDK

The store the idempotence statement is about: objects live under their kind, namespace and
name; a create of a key that is taken answers `AlreadyExists` and changes nothing, a get or
update of a missing key answers `NotFound`, an update replaces the stored object, and the
pods are what `List` filters. No call deletes anything. -/

/-- The kind of an object, as the store keys it. -/
inductive ObjectKind where
  | Secret
  | EtcdCluster
  | Deployment
  | Service
  | ConfigMap
  | Vault
  deriving DecidableEq, Repr

/-- The key of an object in the store: kind, namespace, name. -/
def Object.key : Object → ObjectKind × String × String
  | .secret o => (.Secret, o.meta.Namespace, o.meta.Name)
  | .etcdCluster o => (.EtcdCluster, o.meta.Namespace, o.meta.Name)
  | .deployment o => (.Deployment, o.meta.Namespace, o.meta.Name)
  | .service o => (.Service, o.meta.Namespace, o.meta.Name)
  | .configMap o => (.ConfigMap, o.meta.Namespace, o.meta.Name)
  | .vault o => (.Vault, o.Namespace, o.Name)

/-- The state of the store: the stored objects and the live pods. -/
structure Cluster where
  objects : List Object
  pods : List Pod

/-- The stored object under a key, if any. -/
def Cluster.lookup (c : Cluster) (k : ObjectKind × String × String) : Option Object :=
  c.objects.find? (fun o => o.key == k)

/-- Create on the store. -/
def Cluster.Create (o : Object) (c : Cluster) : Option ApiError × Cluster :=
  if (c.lookup o.key).isSome then
    (some ⟨.AlreadyExists, "already exists"⟩, c)
  else
    (none, { c with objects := c.objects ++ [o] })

/-- Update on the store. -/
def Cluster.Update (o : Object) (c : Cluster) : Option ApiError × Cluster :=
  if (c.lookup o.key).isSome then
    (none, { c with objects := c.objects.map (fun o' => if o'.key == o.key then o else o') })
  else
    (some ⟨.NotFound, "not found"⟩, c)

/-- Get of a deployment on the store. -/
def Cluster.GetDeployment (dep : Deployment) (c : Cluster) :
    Except ApiError Deployment × Cluster :=
  match c.lookup (Object.deployment dep).key with
  | some (.deployment d) => (.ok d, c)
  | _ => (.error ⟨.NotFound, "not found"⟩, c)

/-- Get of a config map on the store. -/
def Cluster.GetConfigMap (cm : ConfigMap) (c : Cluster) :
    Except ApiError ConfigMap × Cluster :=
  match c.lookup (Object.configMap cm).key with
  | some (.configMap d) => (.ok d, c)
  | _ => (.error ⟨.NotFound, "not found"⟩, c)

/-- List of the pods of a namespace that a label selector selects; `selects` is the API
server's evaluation of a selector string on a pod. -/
def Cluster.List (selects : String → Pod → Bool) (ns : String) (labelSelector : String)
    (c : Cluster) : Except ApiError (List Pod) × Cluster :=
  (.ok (c.pods.filter (fun p => p.Namespace == ns && selects labelSelector p)), c)

/-- The SDK over the store. -/
def kube (selects : String → Pod → Bool) : Sdk Cluster :=
  { Create := Cluster.Create
    GetDeployment := Cluster.GetDeployment
    GetConfigMap := Cluster.GetConfigMap
    Update := Cluster.Update
    List := Cluster.List selects }

/-! ## The unseal command (`cmd/bank-vaults/unseal.go`)

The Vault helper `v` of package `pkg/vault` is a record of its three methods over a state
`σ` (the server and the key store together). The process ends by `os.Exit`; a run of the
command is its exit status together with the calls it made. -/

/-- The methods of the Vault helper that the command calls: `v.Init()`, `v.Sealed()` and
`v.Unseal()`. -/
structure VaultHelper (σ : Type) where
  Init : σ → Option String × σ
  Sealed : σ → Except String Bool × σ
  Unseal : σ → Option String × σ

/-- The type `unsealCfg`; the period is a `time.Duration`. -/
structure unsealCfg where
  unsealPeriod : Int
  proceedInit : Bool
  deriving DecidableEq, Repr

/-- What a run does that can be seen from outside. -/
inductive WorkerEvent where
  | Init (err : Option String)
  | Sealed (answer : Except String Bool)
  | Unseal (err : Option String)
  | Sleep (d : Int)

/-- A `v.Sealed()` call. -/
def WorkerEvent.isSealed : WorkerEvent → Bool
  | .Sealed _ => true
  | _ => false

/-- A `v.Unseal()` call. -/
def WorkerEvent.isUnseal : WorkerEvent → Bool
  | .Unseal _ => true
  | _ => false

/-- A `v.Init()` call. -/
def WorkerEvent.isInit : WorkerEvent → Bool
  | .Init _ => true
  | _ => false

/-- A `time.Sleep` call. -/
def WorkerEvent.isSleep : WorkerEvent → Bool
  | .Sleep _ => true
  | _ => false

/-- The state after one run of the loop body (lines 64-95): `exit` is the status when the
body ended the process, `none` when it returned. -/
structure Attempt (σ : Type) where
  exit : Option Int
  proceedInit : Bool
  state : σ
  trace : List WorkerEvent

section Unseal
variable {σ : Type}

/-- The body of the loop, lines 64-95. `logrus.Fatalf` ends the process with status 1. -/
def attempt (v : VaultHelper σ) (proceedInit : Bool) (s : σ) : Attempt σ :=
  -- lines 65-73
  let afterInit : Attempt σ :=
    if proceedInit then
      let r := v.Init s
      match r.1 with
      | some err => ⟨some 1, proceedInit, r.2, [.Init (some err)]⟩
      | none => ⟨none, false, r.2, [.Init none]⟩
    else ⟨none, proceedInit, s, []⟩
  match afterInit.exit with
  | some code => ⟨some code, afterInit.proceedInit, afterInit.state, afterInit.trace⟩
  | none =>
    -- lines 75-80
    let r := v.Sealed afterInit.state
    let t := afterInit.trace ++ [.Sealed r.1]
    match r.1 with
    | .error _ => ⟨some 1, afterInit.proceedInit, r.2, t⟩
    | .ok sealed =>
      -- lines 84-87
      if !sealed then ⟨some 0, afterInit.proceedInit, r.2, t⟩
      else
        -- lines 89-92
        let u := v.Unseal r.2
        match u.1 with
        | some err => ⟨some 1, afterInit.proceedInit, u.2, t ++ [.Unseal (some err)]⟩
        | none => ⟨none, afterInit.proceedInit, u.2, t ++ [.Unseal none]⟩

/-- The outcome of the command: the exit status, the number of loop bodies entered, the calls
made in order, and the final state. -/
structure Run (σ : Type) where
  exitCode : Int
  attempts : Nat
  trace : List WorkerEvent
  state : σ

/-- The loop `for i := 0; i <= 3; i++` (lines 63-98) with `remaining = 4 - i` bodies to go,
followed by `os.Exit(0)` (line 99). -/
def unsealLoop (v : VaultHelper σ) (unsealPeriod : Int) :
    Nat → Bool → σ → Run σ
  | 0, _, s => ⟨0, 0, [], s⟩
  | remaining + 1, proceedInit, s =>
    let a := attempt v proceedInit s
    match a.exit with
    | some code => ⟨code, 1, a.trace, a.state⟩
    | none =>
      -- wait unsealPeriod before trying again
      let r := unsealLoop v unsealPeriod remaining a.proceedInit a.state
      ⟨r.exitCode, r.attempts + 1, a.trace ++ WorkerEvent.Sleep unsealPeriod :: r.trace, r.state⟩

/-- The command's `Run` from line 63 on, with the configuration read and the helper built. -/
def unsealRun (v : VaultHelper σ) (unsealConfig : unsealCfg) (s : σ) : Run σ :=
  unsealLoop v unsealConfig.unsealPeriod 4 unsealConfig.proceedInit s

end Unseal

/-! ## The OSS key store (`pkg/kv/alibabaoss/oss.go`) -/

/-- A byte string. -/
abbrev Bytes := List UInt8

/-- An error of the OSS SDK: an `oss.ServiceError` with its status code and error code, or
any other error; `Text` is what `Error()` prints. -/
inductive SdkError where
  | ServiceError (StatusCode : Int) (Code : String) (Text : String)
  | Other (Text : String)
  deriving DecidableEq, Repr

/-- The method `Error()`. -/
def SdkError.Error : SdkError → String
  | .ServiceError _ _ t => t
  | .Other t => t

/-- The body returned by `GetObject`, an `io.ReadCloser`: what `ioutil.ReadAll` yields. -/
structure Body where
  content : Bytes
  readError : Option SdkError := none
  deriving DecidableEq, Repr

/-- The function `ioutil.ReadAll`. -/
def ReadAll (body : Body) : Except SdkError Bytes :=
  match body.readError with
  | some err => .error err
  | none => .ok body.content

/-- The OSS client over a service state `σ`: `client.Bucket(name)`, and `PutObject` and
`GetObject` of the bucket it returns. -/
structure OssClient (σ : Type) where
  Bucket : String → Option SdkError
  PutObject : String → String → Bytes → σ → Option SdkError × σ
  GetObject : String → String → σ → Except SdkError Body × σ

/-- The errors `Set` and `Get` return: an error of the SDK handed on unchanged, one built by
`fmt.Errorf`, or one built by `kv.NewNotFoundError` (package `pkg/kv`), the distinguished
not-found kind. -/
inductive KvError where
  | Sdk (err : SdkError)
  | Errorf (text : String)
  | NotFound (text : String)
  deriving DecidableEq, Repr

/-- The type `ossStorage`; `keyPrefix` is its field `prefix`. -/
structure ossStorage (σ : Type) where
  client : OssClient σ
  bucket : String
  keyPrefix : String

/-- The function `objectNameWithPrefix`: `fmt.Sprintf("%s%s", prefix, key)`. -/
def objectNameWithPrefix (keyPrefix key : String) : String :=
  keyPrefix ++ key

section Oss
variable {σ : Type}

/-- The method `ossStorage.Set`. -/
def ossStorage.Set (o : ossStorage σ) (key : String) (val : Bytes) (s : σ) :
    Option KvError × σ :=
  let objectKey := objectNameWithPrefix o.keyPrefix key
  match o.client.Bucket o.bucket with
  | some err => (some (.Sdk err), s)
  | none =>
    let r := o.client.PutObject o.bucket objectKey val s
    match r.1 with
    | some err =>
      (some (.Errorf ("error writing key '" ++ objectKey ++ "' to OSS bucket '" ++ o.bucket
        ++ "': '" ++ err.Error ++ "'")), r.2)
    | none => (none, r.2)

/-- The method `ossStorage.Get`. -/
def ossStorage.Get (o : ossStorage σ) (key : String) (s : σ) :
    Except KvError Bytes × σ :=
  let objectKey := objectNameWithPrefix o.keyPrefix key
  match o.client.Bucket o.bucket with
  | some err => (.error (.Sdk err), s)
  | none =>
    let r := o.client.GetObject o.bucket objectKey s
    match r.1 with
    | .error err =>
      let text := "error getting object for key '" ++ objectKey ++ "': " ++ err.Error
      match err with
      | .ServiceError statusCode code _ =>
        if statusCode == 404 && code == "NoSuchKey" then (.error (.NotFound text), r.2)
        else (.error (.Errorf text), r.2)
      | .Other _ => (.error (.Errorf text), r.2)
    | .ok body =>
      match ReadAll body with
      | .error err =>
        (.error (.Errorf ("error reading object with key '" ++ objectKey ++ "': "
          ++ err.Error)), r.2)
      | .ok b => (.ok b, r.2)

end Oss

/-- The OSS service with each bucket a map from object name to bytes: the state maps a
bucket name and an object name to the stored bytes. -/
abbrev OssService := String → String → Option Bytes

/-- A client of that service. `validName` is the SDK's check of a bucket name in
`client.Bucket`; `mayWrite` says which objects this client's credentials may write. A read of
a stored object yields its bytes, a read of a missing one the service error 404 `NoSuchKey`. -/
def mapClient (validName : String → Bool) (mayWrite : String → String → Bool) :
    OssClient OssService :=
  { Bucket := fun name =>
      if validName name then none else some (.Other "invalid bucket name")
    PutObject := fun bucket objectKey val s =>
      if mayWrite bucket objectKey then
        (none, fun b k => if b = bucket ∧ k = objectKey then some val else s b k)
      else (some (.ServiceError 403 "AccessDenied" "access denied"), s)
    GetObject := fun bucket objectKey s =>
      match s bucket objectKey with
      | some val => (.ok { content := val }, s)
      | none => (.error (.ServiceError 404 "NoSuchKey" "no such key"), s) }

/-! ## Vocabulary of the statements -/

/-- The four operations of the SDK. -/
inductive CallKind where
  | Create
  | Get
  | Update
  | List
  deriving DecidableEq, Repr

/-- The operation of a call. -/
def Call.kind : Call → CallKind
  | .Create _ => .Create
  | .Get _ => .Get
  | .Update _ => .Update
  | .List _ _ => .List

/-- The operation called at a site. -/
def Site.kind : Site → CallKind
  | .createEtcdSecret => .Create
  | .createEtcdCluster => .Create
  | .createVaultSecret => .Create
  | .createDeployment => .Create
  | .getDeployment => .Get
  | .updateDeployment => .Update
  | .listPods => .List
  | .updateStatus => .Update
  | .createService => .Create
  | .createConfigurerDeployment => .Create
  | .createConfigMap => .Create
  | .getConfigMap => .Get
  | .updateConfigMap => .Update

/-- The kind of an object. -/
def Object.kind (o : Object) : ObjectKind := o.key.1

/-- The call of an entry failed in the eyes of the handler: a create answered an error other
than `AlreadyExists`, any other call answered an error. -/
def Entry.failed (e : Entry) : Bool :=
  match e.call with
  | .Create _ => (createError e.err).isSome
  | _ => e.err.isSome

/-- The SDK that answers a create with success where `sdk` answers `AlreadyExists`, and is
`sdk` otherwise. -/
def Sdk.forgiving {σ : Type} (sdk : Sdk σ) : Sdk σ :=
  { sdk with Create := fun o s => (createError (sdk.Create o s).1, (sdk.Create o s).2) }

/-- What every block guarantees about its calls: they stand in source order between two
lines, each is the operation of its site, a call that failed is the last one and the block
then returns an error (it does not panic), a block that goes on had no failed call, and a
block that panicked does not go on. -/
structure Step.Good {σ : Type} (lo hi : Nat) (r : Step σ) : Prop where
  ordered : r.trace.Pairwise (fun a b => a.site.line < b.site.line)
  range : ∀ e ∈ r.trace, lo ≤ e.site.line ∧ e.site.line < hi
  kinds : ∀ e ∈ r.trace, e.call.kind = e.site.kind
  initOk : ∀ e ∈ r.trace.dropLast, e.failed = false
  lastFail : ∀ e, r.trace.getLast? = some e → e.failed = true →
    r.err.isSome = true ∧ r.panicked = false
  okClean : r.err = none → ∀ e ∈ r.trace, e.failed = false
  panicEnds : r.panicked = true → r.err.isSome = true


/-- An entry of a pass that changes nothing: not an update, and if a create then one that
was answered `AlreadyExists`. -/
def Entry.quiet (e : Entry) : Prop :=
  (∀ o, e.call ≠ .Update o) ∧
  (∀ o, e.call = .Create o → ∃ a, e.err = some a ∧ IsAlreadyExists a = true)

/-- The store `c'` holds an object under every key under which `c` holds one, and sees the
same pods. -/
def Cluster.Grows (c c' : Cluster) : Prop :=
  c'.pods = c.pods ∧ ∀ k, (c.lookup k).isSome = true → (c'.lookup k).isSome = true

/-- Every deployment stored in `c` is stored unchanged in `c'`. -/
def Cluster.KeepsDeployments (c c' : Cluster) : Prop :=
  ∀ ns name x, c.lookup (.Deployment, ns, name) = some x →
    c'.lookup (.Deployment, ns, name) = some x

/-- A block that changed nothing: it returned no error, left the store `c` and the
descriptor `v` as they were, and all its calls were quiet. -/
def Step.Fixed {σ : Type} (c : σ) (v : Vault) (r : Step σ) : Prop :=
  r.err = none ∧ r.store = c ∧ r.v = v ∧ ∀ e ∈ r.trace, e.quiet

/-- Two blocks ran alike: same end (the same error returned, or the same panic), same store,
same descriptor, and the same calls at the same sites (the answers recorded in the trace
aside). -/
def Step.SameRun {σ : Type} (r r' : Step σ) : Prop :=
  r.err = r'.err ∧ r.store = r'.store ∧ r.v = r'.v ∧
  r.trace.map (fun e => (e.site, e.call)) = r'.trace.map (fun e => (e.site, e.call)) ∧
  r.panicked = r'.panicked

/-- One of the fabricators that can return an error does so on `v`: that of the etcd cluster
or of its secret (for etcd storage), of the Vault TLS secret, or of the Vault deployment. -/
def FabricationFails (env : Env) (v : Vault) : Prop :=
  (v.Spec.GetStorageType = "etcd" ∧
    ((∃ m, etcdForVault env v = .error m) ∨
      ∃ c m, etcdForVault env v = .ok c ∧ secretForEtcd env c = .error m)) ∨
  (∃ m, secretForVault env v = .error m) ∨
  (∃ m, deploymentForVault env v = .error m)

/-- The storage stanza of `v` holds a string under `address`, so that the assertions of lines
313 and 484 go through. -/
def Vault.hasAddress (v : Vault) : Prop :=
  ∃ address, v.Spec.StorageAddress = .string address

/-- The call site that follows a create site in the text of `Handle`: the site of the first
call of the next step. -/
def Site.afterCreate : Site → Option Site
  | .createEtcdSecret => some .createEtcdCluster
  | .createEtcdCluster => some .createVaultSecret
  | .createVaultSecret => some .createDeployment
  | .createDeployment => some .getDeployment
  | .createService => some .createConfigurerDeployment
  | .createConfigurerDeployment => some .createConfigMap
  | .createConfigMap => some .getConfigMap
  | _ => none

/-- Two consecutive entries of a trace: when the first stands at a create site, the second
stands at the site that follows it. -/
def NextSite (e e' : Entry) : Prop :=
  ∀ y, e.site.afterCreate = some y → e'.site = y

/-- Why a pass can end right after a create that did not fail, at the site `x`: the
fabricator of the next step returned an error, which `Handle` returns (the Vault TLS secret
after the etcd cluster, the Vault deployment after the Vault TLS secret), or the fabricator
of the Vault deployment panicked. -/
def FabricatorEnds (env : Env) (v : Vault) (x : Site) (err : Option String)
    (panicked : Bool) : Prop :=
  (x = .createEtcdCluster ∧ panicked = false ∧
    ∃ m, secretForVault env v = .error m ∧
      err = some ("failed to fabricate secret for vault: " ++ m)) ∨
  (x = .createVaultSecret ∧ panicked = false ∧
    ∃ m, deploymentForVault env v = .error m ∧
      err = some ("failed to fabricate deployment: " ++ m)) ∨
  (x = .createVaultSecret ∧ panicked = true ∧
    ∃ value, deploymentForVault env v = .panic value ∧ err = some value)

/-- After each create that did not fail the block goes on with the call at the next site:
consecutive entries stand at consecutive sites, and when such a create is the last call of
the block, the block went on to the line `hi` with the next site still ahead, or a
fabricator ended the pass. -/
def Step.Continues {σ : Type} (X : Site → Option String → Bool → Prop) (hi : Nat)
    (r : Step σ) : Prop :=
  r.trace.Chain' NextSite ∧
  ∀ e, r.trace.getLast? = some e → e.failed = false → ∀ y, e.site.afterCreate = some y →
    (r.err = none ∧ hi ≤ y.line) ∨ X e.site r.err r.panicked

/-- The sites a pass calls whenever it gets that far: every site except the three updates,
the two etcd sites being among them only for etcd storage. -/
def Site.required (etcd : Bool) : Site → Bool
  | .createEtcdSecret => etcd
  | .createEtcdCluster => etcd
  | .updateDeployment => false
  | .updateStatus => false
  | .updateConfigMap => false
  | _ => true

/-- No required site is skipped, stated on the sites called by a block between the lines
`lo` and `hi` and on whether the block returned an error: a call is preceded by the calls at
all required sites before it, a block that returns no error has called all its required
sites, and the etcd sites are called for etcd storage only. -/
def SitesComplete (etcd : Bool) (lo hi : Nat) (returnedError : Bool) (sites : List Site) :
    Prop :=
  (∀ y ∈ sites, ∀ x : Site, x.required etcd = true → lo ≤ x.line → x.line < y.line →
    x ∈ sites) ∧
  (returnedError = false → ∀ x : Site, x.required etcd = true → lo ≤ x.line → x.line < hi →
    x ∈ sites) ∧
  (∀ y ∈ sites, y = .createEtcdSecret ∨ y = .createEtcdCluster → etcd = true)

instance SitesComplete.decidable (etcd : Bool) (lo hi : Nat) (returnedError : Bool)
    (sites : List Site) : Decidable (SitesComplete etcd lo hi returnedError sites) := by
  show Decidable (_ ∧ _ ∧ _)
  exact instDecidableAnd

/-- No required site is skipped by a block. -/
def Step.Complete {σ : Type} (etcd : Bool) (lo hi : Nat) (r : Step σ) : Prop :=
  SitesComplete etcd lo hi r.err.isSome (r.trace.map (fun e => e.site))

/-- The owner references of an object (`GetOwnerReferences()`). The descriptor's own owner
references are not part of the model: the handler never creates a descriptor. -/
def Object.GetOwnerReferences : Object → List OwnerReference
  | .secret o => o.meta.OwnerReferences
  | .etcdCluster o => o.meta.OwnerReferences
  | .deployment o => o.meta.OwnerReferences
  | .service o => o.meta.OwnerReferences
  | .configMap o => o.meta.OwnerReferences
  | .vault _ => []

/-- Every object a block passed to a create is owned by `w` and by nothing else, and the
descriptor the block hands on still has `w` as its owner reference. -/
def Step.Owned {σ : Type} (w : OwnerReference) (r : Step σ) : Prop :=
  asOwner r.v = w ∧
  ∀ e ∈ r.trace, ∀ o, e.call = .Create o → o.GetOwnerReferences = [w]

/-- Lines 53-116 of `Handle`: the blocks that precede the status block. -/
def beforeStatus {σ : Type} (env : Env) (sdk : Sdk σ) (v : Vault) (s : σ) : Step σ :=
  ((handleEtcd env sdk v s).andThen (handleVaultSecret env sdk)).andThen
    (handleDeployment env sdk)

/-! ## Vocabulary of the statements on the unseal command -/

/-- The status with which the loop body ends the process right after a call, by the call's
answer: 1 after a failed `Init` (lines 67-69), a failed `Sealed` (lines 77-80) or a failed
`Unseal` (lines 89-92), 0 after a `Sealed` that answered `false` (lines 85-87); `none` when
the body goes on or returns. -/
def WorkerEvent.exits : WorkerEvent → Option Int
  | .Init (some _) => some 1
  | .Sealed (.error _) => some 1
  | .Sealed (.ok false) => some 0
  | .Unseal (some _) => some 1
  | _ => none

/-- An unseal call that succeeded: the last call of a loop body that returned (lines 89-94);
a body returns in no other way. -/
def WorkerEvent.returns : WorkerEvent → Bool
  | .Unseal none => true
  | _ => false

/-- Two consecutive events `a`, `b` of a run: `b` is a sleep exactly when `a` is an unseal
call that succeeded, which is the last call of a loop body that returned. -/
def SleepFollowsReturn (a b : WorkerEvent) : Prop :=
  a = .Unseal none ↔ b.isSleep = true

/-! ## Concrete inputs used to instantiate the statements -/

/-- An environment in which certificates can be generated and owner references marshalled.
Its `ParseHostname` is given on the one address the descriptors below use,
`https://etcd-cluster:2379`, whose host is `etcd-cluster`; every other address is answered
with the empty host, which is what `url.Parse` and `Hostname()` yield for an address that is
a bare path. -/
def sampleEnv : Env :=
  { GenerateTLS := fun _ _ => .ok ⟨"ca", "server-crt", "server-key", "client-crt",
      "client-key", "peer-crt", "peer-key"⟩
    ParseHostname := fun address =>
      if address = "https://etcd-cluster:2379" then .ok "etcd-cluster" else .ok ""
    MarshalOwner := fun owner => .ok owner.Name
    DefaultConfigFile := "vault-config.yml"
    EnvK8SOwnerReference := "K8S_OWNER_REFERENCE" }

/-- A descriptor asking for two replicas on file storage, which is not highly available. -/
def twoReplicasOnFile : Vault :=
  { APIVersion := "vault.banzaicloud.com/v1alpha1", Kind := "Vault", Name := "vault",
    Namespace := "default", UID := "uid-1",
    Spec := { Size := 2, GetStorageType := "file", HasHAStorage := false } }

/-- A descriptor asking for one replica on file storage. -/
def oneReplicaOnFile : Vault :=
  { APIVersion := "vault.banzaicloud.com/v1alpha1", Kind := "Vault", Name := "vault",
    Namespace := "default", UID := "uid-1",
    Spec := { Size := 1, GetStorageType := "file", HasHAStorage := false,
              ExternalConfigJSON := "{}" } }

/-- A store that holds nothing and sees no pod. -/
def emptyCluster : Cluster := { objects := [], pods := [] }

/-- A selector evaluation that selects every pod. -/
def selectAll : String → Pod → Bool := fun _ _ => true

/-- A descriptor asking for three replicas on etcd storage without the HA flag. -/
def threeReplicasOnEtcd : Vault :=
  { APIVersion := "vault.banzaicloud.com/v1alpha1", Kind := "Vault", Name := "vault",
    Namespace := "default", UID := "uid-1",
    Spec := { Size := 3, GetStorageType := "etcd", HasHAStorage := false,
              StorageAddress := .string "https://etcd-cluster:2379" } }

/-- A descriptor asking for three replicas on etcd storage without the HA flag, whose storage
stanza has no address: `GetStorage()["address"]` is the nil interface. -/
def etcdWithoutAddress : Vault :=
  { APIVersion := "vault.banzaicloud.com/v1alpha1", Kind := "Vault", Name := "vault",
    Namespace := "default", UID := "uid-1",
    Spec := { Size := 3, GetStorageType := "etcd", HasHAStorage := false,
              StorageAddress := .other "nil" } }


/-- A store that has drifted from `oneReplicaOnFile`: it holds the descriptor with no recorded
nodes and a Vault deployment scaled to three replicas, and sees one pod. -/
def driftedCluster : Cluster :=
  { objects := [
      .vault oneReplicaOnFile,
      .deployment { type := { APIVersion := "apps/v1", Kind := "Deployment" },
                    meta := { Name := "vault", Namespace := "default" },
                    Replicas := some 3, Selector := [], TemplateLabels := [],
                    Containers := [], Volumes := [] }],
    pods := [{ Name := "vault-0", Namespace := "default" }] }

/-- The descriptor `oneReplicaOnFile` with an empty, non-nil list of nodes recorded. -/
def emptyNodesRecorded : Vault :=
  { oneReplicaOnFile with Status := { Nodes := some [] } }

/-- A store that holds `emptyNodesRecorded` and sees no pod. -/
def holdsEmptyNodes : Cluster :=
  { objects := [.vault emptyNodesRecorded], pods := [] }

/-! ## Concrete helpers and configurations for the unseal command -/

/-- A helper whose seal-status query fails whenever it is made. -/
def sealedAlwaysFails : VaultHelper Unit :=
  { Init := fun s => (none, s)
    Sealed := fun s => (.error "connection refused", s)
    Unseal := fun s => (none, s) }

/-- A helper over a server that is already unsealed. -/
def alreadyUnsealed : VaultHelper Unit :=
  { Init := fun s => (none, s)
    Sealed := fun s => (.ok false, s)
    Unseal := fun s => (none, s) }

/-- A helper over a server that stays sealed although every unseal call succeeds. -/
def staysSealed : VaultHelper Unit :=
  { Init := fun s => (none, s)
    Sealed := fun s => (.ok true, s)
    Unseal := fun s => (none, s) }

/-- The default polling period, 30 seconds in nanoseconds, without auto-init. -/
def defaultUnsealCfg : unsealCfg := { unsealPeriod := 30000000000, proceedInit := false }

/-- The default polling period with auto-init. -/
def initUnsealCfg : unsealCfg := { unsealPeriod := 30000000000, proceedInit := true }

/-! ## Concrete clients of the OSS service -/

/-- The SDK's bucket name check, here: the name is not empty. -/
def nonEmptyName : String → Bool := fun name => name != ""

/-- Credentials that may write every object. -/
def writeAll : String → String → Bool := fun _ _ => true

/-- Credentials that may write nothing. -/
def writeNone : String → String → Bool := fun _ _ => false

/-- A service that stores nothing. -/
def emptyService : OssService := fun _ _ => none

/-- A writing client on bucket `bank-vaults` with key prefix `prod/`. -/
def writerStorage : ossStorage OssService :=
  { client := mapClient nonEmptyName writeAll, bucket := "bank-vaults", keyPrefix := "prod/" }

/-- Another client on the same bucket and prefix, with read-only credentials. -/
def readerStorage : ossStorage OssService :=
  { client := mapClient nonEmptyName writeNone, bucket := "bank-vaults", keyPrefix := "prod/" }

/-! ## A lemma on lists -/

/-- Two consecutive elements of a chain are related. -/
theorem chain_next {α : Type} {R : α → α → Prop} {pre post : List α} {a b : α}
    (h : (pre ++ a :: b :: post).Chain' R) : R a b := by
  rw [List.chain'_append] at h
  exact (List.chain'_cons.mp h.2.1).1

/-! ## Lemmas on the blocks of `Handle` -/

section HandleLemmas
variable {σ : Type}

theorem Step.andThen_err {r : Step σ} {e : String} (h : r.err = some e)
    (f : Vault → σ → Step σ) : r.andThen f = r := by
  simp [Step.andThen, h]

theorem Step.andThen_ok {r : Step σ} (h : r.err = none) (f : Vault → σ → Step σ) :
    r.andThen f =
      { err := (f r.v r.store).err, store := (f r.v r.store).store,
        trace := r.trace ++ (f r.v r.store).trace, v := (f r.v r.store).v,
        panicked := (f r.v r.store).panicked } := by
  simp [Step.andThen, h]

end HandleLemmas

/-! ### The blocks other than the status block do not look at the status of the descriptor -/

section StatusLemmas
variable {σ : Type}

theorem handleEtcd_status (env : Env) (sdk : Sdk σ) (v : Vault) (st : VaultStatus) (s : σ) :
    handleEtcd env sdk { v with Status := st } s
      = { handleEtcd env sdk v s with v := { v with Status := st } } := by
  have h1 : etcdForVault env { v with Status := st } = etcdForVault env v := rfl
  have h2 : asOwner { v with Status := st } = asOwner v := rfl
  unfold handleEtcd
  simp only [h1, h2]
  repeat' split
  all_goals rfl

theorem handleVaultSecret_status (env : Env) (sdk : Sdk σ) (v : Vault) (st : VaultStatus)
    (s : σ) :
    handleVaultSecret env sdk { v with Status := st } s
      = { handleVaultSecret env sdk v s with v := { v with Status := st } } := by
  have h1 : secretForVault env { v with Status := st } = secretForVault env v := rfl
  have h2 : asOwner { v with Status := st } = asOwner v := rfl
  unfold handleVaultSecret
  simp only [h1, h2]
  repeat' split
  all_goals rfl

theorem handleDeployment_status (env : Env) (sdk : Sdk σ) (v : Vault) (st : VaultStatus)
    (s : σ) :
    handleDeployment env sdk { v with Status := st } s
      = { handleDeployment env sdk v s with v := { v with Status := st } } := by
  have h1 : deploymentForVault env { v with Status := st } = deploymentForVault env v := rfl
  unfold handleDeployment
  simp only [h1]
  repeat' split
  all_goals rfl

theorem handleEtcd_v (env : Env) (sdk : Sdk σ) (v : Vault) (s : σ) :
    (handleEtcd env sdk v s).v = v := by
  unfold handleEtcd
  dsimp only
  repeat' split
  all_goals rfl

theorem handleVaultSecret_v (env : Env) (sdk : Sdk σ) (v : Vault) (s : σ) :
    (handleVaultSecret env sdk v s).v = v := by
  unfold handleVaultSecret
  dsimp only
  repeat' split
  all_goals rfl

theorem handleDeployment_v (env : Env) (sdk : Sdk σ) (v : Vault) (s : σ) :
    (handleDeployment env sdk v s).v = v := by
  unfold handleDeployment
  dsimp only
  repeat' split
  all_goals rfl

theorem handleService_v (sdk : Sdk σ) (v : Vault) (s : σ) :
    (handleService sdk v s).v = v := by
  unfold handleService
  dsimp only
  repeat' split
  all_goals rfl

theorem handleConfigurer_v (env : Env) (sdk : Sdk σ) (v : Vault) (s : σ) :
    (handleConfigurer env sdk v s).v = v := by
  unfold handleConfigurer
  dsimp only
  repeat' split
  all_goals rfl

end StatusLemmas

/-! ## Lemmas on the calls of `Handle` -/

section HandleLemmas
variable {σ : Type}

theorem Step.Good.mono {lo hi lo' hi' : Nat} {r : Step σ} (h : r.Good lo hi)
    (h1 : lo' ≤ lo) (h2 : hi ≤ hi') : r.Good lo' hi' :=
  { h with range := fun e he => ⟨le_trans h1 (h.range e he).1, lt_of_lt_of_le (h.range e he).2 h2⟩ }

theorem Step.good_andThen {a m b : Nat} {r : Step σ} {f : Vault → σ → Step σ}
    (h : r.Good a m) (hf : ∀ v s, (f v s).Good m b) (hle : a ≤ m) (hle2 : m ≤ b) :
    (r.andThen f).Good a b := by
  cases hr : r.err with
  | some e =>
    rw [Step.andThen_err hr]
    exact h.mono (le_refl _) hle2
  | none =>
    rw [Step.andThen_ok hr]
    have g := hf r.v r.store
    have hclean := h.okClean hr
    refine ⟨?_, ?_, ?_, ?_, ?_, ?_, g.panicEnds⟩
    · simp only [List.pairwise_append]
      refine ⟨h.ordered, g.ordered, ?_⟩
      intro x hx y hy
      exact lt_of_lt_of_le (h.range x hx).2 (g.range y hy).1
    · intro e he
      simp only [List.mem_append] at he
      rcases he with he | he
      · exact ⟨(h.range e he).1, lt_of_lt_of_le (h.range e he).2 hle2⟩
      · exact ⟨le_trans hle (g.range e he).1, (g.range e he).2⟩
    · intro e he
      simp only [List.mem_append] at he
      rcases he with he | he
      · exact h.kinds e he
      · exact g.kinds e he
    · intro e he
      by_cases hnil : (f r.v r.store).trace = []
      · simp only [hnil, List.append_nil] at he
        exact hclean e (List.mem_of_mem_dropLast he)
      · rw [List.dropLast_append_of_ne_nil _ hnil] at he
        simp only [List.mem_append] at he
        rcases he with he | he
        · exact hclean e he
        · exact g.initOk e he
    · intro e he hfail
      by_cases hnil : (f r.v r.store).trace = []
      · simp only [hnil, List.append_nil] at he
        have := hclean e (List.mem_of_getLast?_eq_some he)
        simp [this] at hfail
      · rw [List.getLast?_append_of_ne_nil _ hnil] at he
        exact g.lastFail e he hfail
    · intro hok e he
      simp only [List.mem_append] at he
      rcases he with he | he
      · exact hclean e he
      · exact g.okClean hok e he

theorem handleEtcd_good (env : Env) (sdk : Sdk σ) (v : Vault) (s : σ) :
    (handleEtcd env sdk v s).Good 69 75 := by
  unfold handleEtcd
  dsimp only
  repeat' split
  all_goals (constructor <;> simp_all [Site.line, Site.kind, Call.kind, Entry.failed])

theorem handleVaultSecret_good (env : Env) (sdk : Sdk σ) (v : Vault) (s : σ) :
    (handleVaultSecret env sdk v s).Good 75 89 := by
  unfold handleVaultSecret
  dsimp only
  repeat' split
  all_goals (constructor <;> simp_all [Site.line, Site.kind, Call.kind, Entry.failed])

theorem handleDeployment_good (env : Env) (sdk : Sdk σ) (v : Vault) (s : σ) :
    (handleDeployment env sdk v s).Good 89 113 := by
  unfold handleDeployment
  dsimp only
  repeat' split
  all_goals (constructor <;> simp_all [Site.line, Site.kind, Call.kind, Entry.failed])

theorem handleStatus_good (sdk : Sdk σ) (v : Vault) (s : σ) :
    (handleStatus sdk v s).Good 113 130 := by
  unfold handleStatus
  dsimp only
  repeat' split
  all_goals (constructor <;> simp_all [Site.line, Site.kind, Call.kind, Entry.failed])

theorem handleService_good (sdk : Sdk σ) (v : Vault) (s : σ) :
    (handleService sdk v s).Good 130 138 := by
  unfold handleService
  dsimp only
  repeat' split
  all_goals (constructor <;> simp_all [Site.line, Site.kind, Call.kind, Entry.failed])

theorem handleConfigurer_good (env : Env) (sdk : Sdk σ) (v : Vault) (s : σ) :
    (handleConfigurer env sdk v s).Good 138 167 := by
  unfold handleConfigurer
  dsimp only
  repeat' split
  all_goals (constructor <;> simp_all [Site.line, Site.kind, Call.kind, Entry.failed])

theorem reconcile_good (env : Env) (sdk : Sdk σ) (v : Vault) (s : σ) :
    (reconcile env sdk v s).Good 69 167 := by
  unfold reconcile
  refine Step.good_andThen (m := 138) ?_ (handleConfigurer_good env sdk) (by decide) (by decide)
  refine Step.good_andThen (m := 130) ?_ (handleService_good sdk) (by decide) (by decide)
  refine Step.good_andThen (m := 113) ?_ (handleStatus_good sdk) (by decide) (by decide)
  refine Step.good_andThen (m := 89) ?_ (handleDeployment_good env sdk) (by decide) (by decide)
  exact Step.good_andThen (m := 75) (handleEtcd_good env sdk v s)
    (handleVaultSecret_good env sdk) (by decide) (by decide)

theorem Handle_vault (env : Env) (sdk : Sdk σ) (v : Vault) (s : σ) :
    Handle env sdk ⟨.vault v, false⟩ s =
      ⟨(reconcile env sdk v s).err, (reconcile env sdk v s).store,
        (reconcile env sdk v s).trace, .vault (reconcile env sdk v s).v,
        (reconcile env sdk v s).panicked⟩ := by
  simp [Handle]

/-- The first two blocks: everything `Handle` does before it fabricates the deployment. -/
theorem secrets_v (env : Env) (sdk : Sdk σ) (v : Vault) (s : σ) :
    ((handleEtcd env sdk v s).andThen (handleVaultSecret env sdk)).v = v := by
  cases h : (handleEtcd env sdk v s).err with
  | some e => rw [Step.andThen_err h]; exact handleEtcd_v env sdk v s
  | none =>
    rw [Step.andThen_ok h]
    show (handleVaultSecret env sdk _ _).v = v
    rw [handleVaultSecret_v, handleEtcd_v]

theorem secrets_good (env : Env) (sdk : Sdk σ) (v : Vault) (s : σ) :
    ((handleEtcd env sdk v s).andThen (handleVaultSecret env sdk)).Good 69 89 :=
  Step.good_andThen (m := 75) (handleEtcd_good env sdk v s)
    (handleVaultSecret_good env sdk) (by decide) (by decide)

theorem handleDeployment_of_error (env : Env) (sdk : Sdk σ) (v : Vault) (s : σ) (msg : String)
    (h : deploymentForVault env v = .error msg) :
    handleDeployment env sdk v s
      = ⟨some ("failed to fabricate deployment: " ++ msg), s, [], v, false⟩ := by
  simp [handleDeployment, h]

/-- When the deployment cannot be fabricated, the pass is the first two blocks followed by
the error return of line 96. -/
theorem reconcile_of_deployment_error (env : Env) (sdk : Sdk σ) (v : Vault) (s : σ)
    (msg : String) (h : deploymentForVault env v = .error msg) :
    (reconcile env sdk v s).trace
        = ((handleEtcd env sdk v s).andThen (handleVaultSecret env sdk)).trace ∧
    (reconcile env sdk v s).store
        = ((handleEtcd env sdk v s).andThen (handleVaultSecret env sdk)).store ∧
    (reconcile env sdk v s).err
        = (match ((handleEtcd env sdk v s).andThen (handleVaultSecret env sdk)).err with
           | some e => some e
           | none => some ("failed to fabricate deployment: " ++ msg)) ∧
    (reconcile env sdk v s).panicked
        = ((handleEtcd env sdk v s).andThen (handleVaultSecret env sdk)).panicked := by
  have hpanic := (secrets_good env sdk v s).panicEnds
  unfold reconcile
  generalize hp : (handleEtcd env sdk v s).andThen (handleVaultSecret env sdk) = p at hpanic
  have hv : p.v = v := by rw [← hp]; exact secrets_v env sdk v s
  cases hperr : p.err with
  | some e =>
    simp [Step.andThen_err hperr, hperr]
  | none =>
    have hno : p.panicked = false := by
      cases hpp : p.panicked with
      | false => rfl
      | true =>
        have := hpanic hpp
        rw [hperr] at this
        cases this
    have h3 : p.andThen (handleDeployment env sdk)
        = ⟨some ("failed to fabricate deployment: " ++ msg), p.store, p.trace, v, false⟩ := by
      rw [Step.andThen_ok hperr, hv, handleDeployment_of_error env sdk v p.store msg h]
      simp
    rw [h3]
    simp [Step.andThen, hno]

theorem deploymentForVault_invalid (env : Env) (v : Vault) (hsize : v.Spec.Size > 1)
    (hha : v.Spec.HasHAStorage = false) :
    deploymentForVault env v = .error haValidationError := by
  simp [deploymentForVault, hsize, hha]

theorem handleEtcd_calls (env : Env) (sdk : Sdk σ) (v : Vault) (s : σ) :
    ∀ e ∈ (handleEtcd env sdk v s).trace,
      (e.site = .createEtcdSecret ∨ e.site = .createEtcdCluster) ∧
      ∃ o, e.call = .Create o ∧ (o.kind = .Secret ∨ o.kind = .EtcdCluster) := by
  unfold handleEtcd
  dsimp only
  repeat' split
  all_goals simp [Object.kind, Object.key]

theorem handleVaultSecret_calls (env : Env) (sdk : Sdk σ) (v : Vault) (s : σ) :
    ∀ e ∈ (handleVaultSecret env sdk v s).trace,
      e.site = .createVaultSecret ∧ ∃ o, e.call = .Create o ∧ o.kind = .Secret := by
  unfold handleVaultSecret
  dsimp only
  repeat' split
  all_goals simp [Object.kind, Object.key]

theorem secrets_calls (env : Env) (sdk : Sdk σ) (v : Vault) (s : σ) :
    ∀ e ∈ ((handleEtcd env sdk v s).andThen (handleVaultSecret env sdk)).trace,
      (e.site = .createEtcdSecret ∨ e.site = .createEtcdCluster ∨ e.site = .createVaultSecret) ∧
      ∃ o, e.call = .Create o ∧ (o.kind = .Secret ∨ o.kind = .EtcdCluster) := by
  intro e he
  cases h : (handleEtcd env sdk v s).err with
  | some err =>
    rw [Step.andThen_err h] at he
    obtain ⟨h1, h2⟩ := handleEtcd_calls env sdk v s e he
    exact ⟨by tauto, h2⟩
  | none =>
    rw [Step.andThen_ok h] at he
    simp only [List.mem_append] at he
    rcases he with he | he
    · obtain ⟨h1, h2⟩ := handleEtcd_calls env sdk v s e he
      exact ⟨by tauto, h2⟩
    · obtain ⟨h1, o, h2, h3⟩ := handleVaultSecret_calls env sdk _ _ e he
      exact ⟨by tauto, o, h2, Or.inl h3⟩

theorem handleEtcd_length (env : Env) (sdk : Sdk σ) (v : Vault) (s : σ) :
    (handleEtcd env sdk v s).trace.length ≤ 2 := by
  unfold handleEtcd
  dsimp only
  repeat' split
  all_goals simp

theorem handleVaultSecret_length (env : Env) (sdk : Sdk σ) (v : Vault) (s : σ) :
    (handleVaultSecret env sdk v s).trace.length ≤ 1 := by
  unfold handleVaultSecret
  dsimp only
  repeat' split
  all_goals simp

theorem secrets_length (env : Env) (sdk : Sdk σ) (v : Vault) (s : σ) :
    ((handleEtcd env sdk v s).andThen (handleVaultSecret env sdk)).trace.length ≤ 3 := by
  have h1 := handleEtcd_length env sdk v s
  cases h : (handleEtcd env sdk v s).err with
  | some err => rw [Step.andThen_err h]; omega
  | none =>
    rw [Step.andThen_ok h]
    have h2 := handleVaultSecret_length env sdk (handleEtcd env sdk v s).v
      (handleEtcd env sdk v s).store
    simp only [List.length_append]
    omega

theorem handleEtcd_error_cause (env : Env) (sdk : Sdk σ) (v : Vault) (s : σ) (msg : String) :
    (handleEtcd env sdk v s).err = some msg → (handleEtcd env sdk v s).panicked = false →
    (∃ e ∈ (handleEtcd env sdk v s).trace, e.failed = true) ∨
    (v.Spec.GetStorageType = "etcd" ∧
      ((∃ m, etcdForVault env v = .error m) ∨
        ∃ c m, etcdForVault env v = .ok c ∧ secretForEtcd env c = .error m)) := by
  unfold handleEtcd
  dsimp only
  repeat' split
  all_goals first
    | (intro h; simp at h; done)
    | (intro _ h; simp at h; done)
    | (intro _ _; left; simp_all [Entry.failed]; done)
    | (intro _ _; right; simp_all)

theorem handleVaultSecret_error_cause (env : Env) (sdk : Sdk σ) (v : Vault) (s : σ)
    (msg : String) :
    (handleVaultSecret env sdk v s).err = some msg →
    (∃ e ∈ (handleVaultSecret env sdk v s).trace, e.failed = true) ∨
    (∃ m, secretForVault env v = .error m) := by
  unfold handleVaultSecret
  dsimp only
  repeat' split
  all_goals first
    | (intro h; simp at h; done)
    | (intro _; left; simp_all [Entry.failed]; done)
    | (intro _; right; simp_all)

/-- An error returned by one of the first two blocks comes from a failed create or from a
fabricator that returned an error. -/
theorem secrets_error_cause (env : Env) (sdk : Sdk σ) (v : Vault) (s : σ) (msg : String)
    (h : ((handleEtcd env sdk v s).andThen (handleVaultSecret env sdk)).err = some msg)
    (hp : ((handleEtcd env sdk v s).andThen (handleVaultSecret env sdk)).panicked = false) :
    (∃ e ∈ ((handleEtcd env sdk v s).andThen (handleVaultSecret env sdk)).trace,
        e.failed = true) ∨
    (v.Spec.GetStorageType = "etcd" ∧
      ((∃ m, etcdForVault env v = .error m) ∨
        ∃ c m, etcdForVault env v = .ok c ∧ secretForEtcd env c = .error m)) ∨
    (∃ m, secretForVault env v = .error m) := by
  cases h1 : (handleEtcd env sdk v s).err with
  | some err =>
    rw [Step.andThen_err h1] at h hp ⊢
    rcases handleEtcd_error_cause env sdk v s err h1 hp with hc | hc
    · exact Or.inl hc
    · exact Or.inr (Or.inl hc)
  | none =>
    rw [Step.andThen_ok h1] at h ⊢
    rw [handleEtcd_v] at h ⊢
    simp only at h ⊢
    rcases handleVaultSecret_error_cause env sdk v _ msg h with ⟨e, he, hf⟩ | hc
    · exact Or.inl ⟨e, List.mem_append_right _ he, hf⟩
    · exact Or.inr (Or.inr hc)

/-- In the trace of a good block, a failed call has no call after it and the block returns
an error. -/
theorem Step.Good.failed_last {a b : Nat} {r : Step σ} (h : r.Good a b)
    (pre : List Entry) (e : Entry) (post : List Entry)
    (ht : r.trace = pre ++ e :: post) (hf : e.failed = true) :
    post = [] ∧ (∃ msg, r.err = some msg) ∧ r.panicked = false := by
  have hpost : post = [] := by
    by_contra hne
    have hmem : e ∈ r.trace.dropLast := by
      rw [ht, List.dropLast_append_of_ne_nil _ (List.cons_ne_nil e post)]
      cases post with
      | nil => exact absurd rfl hne
      | cons p ps => simp [List.dropLast]
    have := h.initOk e hmem
    rw [this] at hf
    cases hf
  refine ⟨hpost, ?_⟩
  subst hpost
  have hlast : r.trace.getLast? = some e := by
    rw [ht]
    simp
  have := h.lastFail e hlast hf
  exact ⟨Option.isSome_iff_exists.mp this.1, this.2⟩

theorem reconcile_of_etcd_error (env : Env) (sdk : Sdk σ) (v : Vault) (s : σ) (msg : String)
    (hetcd : v.Spec.GetStorageType = "etcd") (h : etcdForVault env v = .error msg) :
    (reconcile env sdk v s).err = some ("failed to fabricate etcd cluster: " ++ msg) ∧
    (reconcile env sdk v s).trace = [] ∧ (reconcile env sdk v s).panicked = false := by
  have h1 : handleEtcd env sdk v s
      = ⟨some ("failed to fabricate etcd cluster: " ++ msg), s, [], v, false⟩ := by
    simp [handleEtcd, hetcd, h]
  unfold reconcile
  rw [h1]
  simp [Step.andThen]

theorem reconcile_of_etcd_secret_error (env : Env) (sdk : Sdk σ) (v : Vault) (s : σ)
    (cl : EtcdCluster) (msg : String) (hetcd : v.Spec.GetStorageType = "etcd")
    (h : etcdForVault env v = .ok cl) (h' : secretForEtcd env cl = .error msg) :
    (reconcile env sdk v s).err = some ("failed to fabricate secret for etcd: " ++ msg) ∧
    (reconcile env sdk v s).trace = [] ∧ (reconcile env sdk v s).panicked = false := by
  have h1 : handleEtcd env sdk v s
      = ⟨some ("failed to fabricate secret for etcd: " ++ msg), s, [], v, false⟩ := by
    simp [handleEtcd, hetcd, h, h']
  unfold reconcile
  rw [h1]
  simp [Step.andThen]

theorem reconcile_of_secret_error (env : Env) (sdk : Sdk σ) (v : Vault) (s : σ) (msg : String)
    (h : secretForVault env v = .error msg) :
    (∃ m, (reconcile env sdk v s).err = some m) ∧
    (reconcile env sdk v s).panicked = (handleEtcd env sdk v s).panicked ∧
    ∀ e ∈ (reconcile env sdk v s).trace, e.site.line < 88 := by
  have hgood := handleEtcd_good env sdk v s
  have h2 : ∀ s', handleVaultSecret env sdk v s'
      = ⟨some ("failed to fabricate secret for vault: " ++ msg), s', [], v, false⟩ := by
    intro s'
    simp [handleVaultSecret, h]
  unfold reconcile
  cases h1 : (handleEtcd env sdk v s).err with
  | some m =>
    simp only [Step.andThen_err h1]
    exact ⟨⟨m, h1⟩, trivial, fun e he => lt_trans (hgood.range e he).2 (by decide)⟩
  | none =>
    have hno : (handleEtcd env sdk v s).panicked = false := by
      cases hp : (handleEtcd env sdk v s).panicked with
      | false => rfl
      | true =>
        have := hgood.panicEnds hp
        rw [h1] at this
        cases this
    have h3 : (handleEtcd env sdk v s).andThen (handleVaultSecret env sdk)
        = ⟨some ("failed to fabricate secret for vault: " ++ msg),
            (handleEtcd env sdk v s).store, (handleEtcd env sdk v s).trace, v, false⟩ := by
      rw [Step.andThen_ok h1, handleEtcd_v, h2]
      simp
    rw [h3]
    simp only [Step.andThen]
    exact ⟨⟨_, rfl⟩, hno.symm, fun e he => lt_trans (hgood.range e he).2 (by decide)⟩

end HandleLemmas

/-! ## Lemmas on the unseal loop -/

section UnsealLemmas
variable {σ : Type}

/-- One loop body makes at most one call of each kind and never sleeps; it keeps a cleared
init flag cleared, and calls `Init` only when the flag is set. -/
theorem attempt_counts (v : VaultHelper σ) (p : Bool) (s : σ) :
    (attempt v p s).trace.countP WorkerEvent.isSealed ≤ 1 ∧
    (attempt v p s).trace.countP WorkerEvent.isUnseal ≤ 1 ∧
    (attempt v p s).trace.countP WorkerEvent.isInit ≤ 1 ∧
    (attempt v p s).trace.countP WorkerEvent.isSleep = 0 ∧
    (p = false → (attempt v p s).trace.countP WorkerEvent.isInit = 0 ∧
      (attempt v p s).proceedInit = false) ∧
    ((attempt v p s).exit = none → (attempt v p s).proceedInit = false) := by
  unfold attempt
  dsimp only
  repeat' split
  all_goals simp_all [WorkerEvent.isSealed, WorkerEvent.isUnseal, WorkerEvent.isInit,
    WorkerEvent.isSleep, List.countP_cons, List.countP_nil]

theorem attempt_sleeps (v : VaultHelper σ) (p : Bool) (s : σ) :
    ∀ e ∈ (attempt v p s).trace, e.isSleep = false := by
  unfold attempt
  dsimp only
  repeat' split
  all_goals simp_all [WorkerEvent.isSleep]

/-- The loop with `n` bodies to go: the counts of the calls it makes. -/
theorem unsealLoop_counts (v : VaultHelper σ) (d : Int) (n : Nat) (p : Bool) (s : σ) :
    (unsealLoop v d n p s).attempts ≤ n ∧
    (unsealLoop v d n p s).trace.countP WorkerEvent.isSealed ≤ (unsealLoop v d n p s).attempts ∧
    (unsealLoop v d n p s).trace.countP WorkerEvent.isUnseal ≤ (unsealLoop v d n p s).attempts ∧
    (unsealLoop v d n p s).trace.countP WorkerEvent.isInit ≤ 1 ∧
    (p = false → (unsealLoop v d n p s).trace.countP WorkerEvent.isInit = 0) ∧
    (∀ e ∈ (unsealLoop v d n p s).trace, ∀ x, e = WorkerEvent.Sleep x → x = d) ∧
    (((unsealLoop v d n p s).trace.countP WorkerEvent.isSleep = (unsealLoop v d n p s).attempts ∧
        (unsealLoop v d n p s).attempts = n ∧ (unsealLoop v d n p s).exitCode = 0) ∨
      ((unsealLoop v d n p s).trace.countP WorkerEvent.isSleep + 1
        = (unsealLoop v d n p s).attempts)) := by
  induction n generalizing p s with
  | zero => simp [unsealLoop]
  | succ n ih =>
    obtain ⟨a1, a2, a3, a4, a5, a6⟩ := attempt_counts v p s
    have a7 := attempt_sleeps v p s
    unfold unsealLoop
    dsimp only
    cases hexit : (attempt v p s).exit with
    | some code =>
      simp only
      refine ⟨by omega, by omega, by omega, a3, fun hp => (a5 hp).1, ?_, Or.inr (by omega)⟩
      intro e he x hx
      have := a7 e he
      simp [hx, WorkerEvent.isSleep] at this
    | none =>
      simp only
      have hp' := a6 hexit
      obtain ⟨i1, i2, i3, i4, i5, i6, i7⟩ := ih (attempt v p s).proceedInit (attempt v p s).state
      have i5' := i5 hp'
      simp only [List.countP_append, List.countP_cons, WorkerEvent.isSealed,
        WorkerEvent.isUnseal, WorkerEvent.isInit, WorkerEvent.isSleep, ite_true,
        Bool.false_eq_true, ite_false]
      refine ⟨?_, ?_, ?_, ?_, ?_, ?_, ?_⟩
      · omega
      · omega
      · omega
      · omega
      · intro hp
        have := (a5 hp).1
        omega
      · intro e he x hx
        simp only [List.mem_append, List.mem_cons] at he
        rcases he with he | he | he
        · have := a7 e he
          simp [hx, WorkerEvent.isSleep] at this
        · rw [he] at hx; cases hx; rfl
        · exact i6 e he x hx
      · rcases i7 with ⟨j1, j2, j3⟩ | j
        · left
          exact ⟨by omega, by omega, j3⟩
        · right
          omega

theorem unsealLoop_succ (v : VaultHelper σ) (d : Int) (n : Nat) (p : Bool) (s : σ) :
    unsealLoop v d (n + 1) p s =
      match (attempt v p s).exit with
      | some code => ⟨code, 1, (attempt v p s).trace, (attempt v p s).state⟩
      | none =>
        ⟨(unsealLoop v d n (attempt v p s).proceedInit (attempt v p s).state).exitCode,
          (unsealLoop v d n (attempt v p s).proceedInit (attempt v p s).state).attempts + 1,
          (attempt v p s).trace ++ WorkerEvent.Sleep d ::
            (unsealLoop v d n (attempt v p s).proceedInit (attempt v p s).state).trace,
          (unsealLoop v d n (attempt v p s).proceedInit (attempt v p s).state).state⟩ := by
  rfl

/-- A loop body in which the seal-status query fails ends the process with status 1. -/
theorem attempt_of_sealed_failing (v : VaultHelper σ) (p : Bool) (s : σ)
    (h : ∀ s', ∃ e, (v.Sealed s').1 = .error e) :
    (attempt v p s).exit = some 1 ∧
    (attempt v p s).trace.countP WorkerEvent.isUnseal = 0 ∧
    ((p = false ∨ (v.Init s).1 = none) →
      (attempt v p s).trace.countP WorkerEvent.isSealed = 1) := by
  obtain ⟨e1, h1⟩ := h s
  obtain ⟨e2, h2⟩ := h (v.Init s).2
  unfold attempt
  dsimp only
  repeat' split
  all_goals simp_all [WorkerEvent.isSealed, WorkerEvent.isUnseal, List.countP_cons,
    List.countP_nil]

/-- The first seal-status query of a loop body: a body that returns has seen `sealed = true`,
and a body whose query answered `sealed = false` has ended the process with status 0 without
calling `Unseal`. -/
theorem attempt_first_sealed (v : VaultHelper σ) (p : Bool) (s : σ) :
    ((attempt v p s).exit = none →
      (attempt v p s).trace.find? WorkerEvent.isSealed = some (.Sealed (.ok true))) ∧
    ((attempt v p s).trace.find? WorkerEvent.isSealed = some (.Sealed (.ok false)) →
      (attempt v p s).exit = some 0 ∧
      (attempt v p s).trace.countP WorkerEvent.isUnseal = 0 ∧
      (attempt v p s).trace.countP WorkerEvent.isSealed = 1) := by
  unfold attempt
  dsimp only
  repeat' split
  all_goals simp_all [WorkerEvent.isSealed, WorkerEvent.isUnseal, List.countP_cons,
    List.countP_nil, List.find?_cons]

/-- A loop body entered with the init flag set starts with the `Init` call and makes no
other; when `Init` fails the body ends the process with status 1 right there, and when it
succeeds the flag is cleared. -/
theorem attempt_with_init (v : VaultHelper σ) (s : σ) :
    (∃ rest, (attempt v true s).trace = .Init (v.Init s).1 :: rest ∧
      rest.countP WorkerEvent.isInit = 0) ∧
    (∀ e, (v.Init s).1 = some e →
      (attempt v true s).exit = some 1 ∧ (attempt v true s).trace = [.Init (some e)]) ∧
    ((v.Init s).1 = none → (attempt v true s).proceedInit = false) := by
  unfold attempt
  dsimp only
  repeat' split
  all_goals simp_all [WorkerEvent.isInit, List.countP_cons, List.countP_nil]

end UnsealLemmas

/-! ## The shape of a run of the unseal loop -/

section UnsealShape
variable {σ : Type}

/-- One loop body: it makes at least one call and never sleeps; no call but the last can be
a successful unseal; a body that returns ends with a successful unseal, and a body that ends
the process does so right after a call that exits with that status. -/
theorem attempt_shape (v : VaultHelper σ) (p : Bool) (s : σ) :
    (attempt v p s).trace ≠ [] ∧
    (attempt v p s).trace.Chain' SleepFollowsReturn ∧
    (∀ e ∈ (attempt v p s).trace.head?, e.isSleep = false) ∧
    ((attempt v p s).exit = none →
      (attempt v p s).trace.getLast? = some (.Unseal none)) ∧
    (∀ code, (attempt v p s).exit = some code →
      ∃ e, (attempt v p s).trace.getLast? = some e ∧ e.exits = some code) ∧
    ((attempt v p s).exit = none → (attempt v p s).trace.countP WorkerEvent.returns = 1) ∧
    (∀ code, (attempt v p s).exit = some code →
      (attempt v p s).trace.countP WorkerEvent.returns = 0) := by
  unfold attempt
  dsimp only
  repeat' split
  all_goals simp_all [SleepFollowsReturn, WorkerEvent.isSleep, WorkerEvent.exits,
    WorkerEvent.returns, List.countP_cons, List.countP_nil]

/-- The loop with `n` bodies to go: a sleep of the period follows each successful unseal and
nothing else, the run does not start with a sleep, and it ends either after `n` returned
bodies, each followed by its sleep, with status 0, or inside a body, right after a call that
exits with the run's status. -/
theorem unsealLoop_shape (v : VaultHelper σ) (d : Int) (n : Nat) (p : Bool) (s : σ) :
    (unsealLoop v d n p s).trace.Chain' SleepFollowsReturn ∧
    (∀ e ∈ (unsealLoop v d n p s).trace.head?, e.isSleep = false) ∧
    (unsealLoop v d n p s).trace.countP WorkerEvent.returns
      = (unsealLoop v d n p s).trace.countP WorkerEvent.isSleep ∧
    (((unsealLoop v d n p s).trace.countP WorkerEvent.isSleep = n ∧
        (unsealLoop v d n p s).attempts = n ∧ (unsealLoop v d n p s).exitCode = 0 ∧
        (0 < n → (unsealLoop v d n p s).trace.getLast? = some (.Sleep d))) ∨
      ((unsealLoop v d n p s).trace.countP WorkerEvent.isSleep + 1
          = (unsealLoop v d n p s).attempts ∧
        ∃ e, (unsealLoop v d n p s).trace.getLast? = some e ∧
          e.exits = some (unsealLoop v d n p s).exitCode)) := by
  induction n generalizing p s with
  | zero => simp [unsealLoop]
  | succ n ih =>
    obtain ⟨b1, b2, b3, b4, b5, b6, b7⟩ := attempt_shape v p s
    obtain ⟨_, _, _, a4, _, _⟩ := attempt_counts v p s
    rw [unsealLoop_succ]
    cases hexit : (attempt v p s).exit with
    | some code =>
      simp only
      refine ⟨b2, b3, by rw [b7 code hexit, a4], Or.inr ⟨by omega, b5 code hexit⟩⟩
    | none =>
      simp only
      obtain ⟨i1, i2, i0, i3⟩ := ih (attempt v p s).proceedInit (attempt v p s).state
      have hlast := b4 hexit
      have hone := b6 hexit
      refine ⟨?_, ?_, ?_, ?_⟩
      · rw [List.chain'_append]
        refine ⟨b2, ?_, ?_⟩
        · rw [List.chain'_cons']
          refine ⟨?_, i1⟩
          intro y hy
          have := i2 y hy
          simp [SleepFollowsReturn, this]
        · intro x hx y hy
          rw [hlast] at hx
          simp only [Option.mem_def, Option.some.injEq] at hx
          simp only [List.head?_cons, Option.mem_def, Option.some.injEq] at hy
          subst hx
          subst hy
          simp [SleepFollowsReturn, WorkerEvent.isSleep]
      · intro e he
        apply b3 e
        cases ht : (attempt v p s).trace with
        | nil => exact absurd ht b1
        | cons x xs =>
          rw [ht] at he
          simpa using he
      · simp only [List.countP_append, List.countP_cons, WorkerEvent.isSleep,
          WorkerEvent.returns, ite_true, Bool.false_eq_true, ite_false]
        omega
      · simp only [List.countP_append, List.countP_cons, WorkerEvent.isSleep, ite_true]
        rcases i3 with ⟨j1, j2, j3, j4⟩ | ⟨j1, e, j2, j3⟩
        · left
          refine ⟨by omega, by omega, j3, fun _ => ?_⟩
          rw [List.getLast?_append]
          rcases Nat.eq_zero_or_pos n with hn | hn
          · subst hn
            have hnil : (unsealLoop v d 0 (attempt v p s).proceedInit
                (attempt v p s).state).trace = [] := rfl
            rw [hnil]
            rfl
          · rw [List.getLast?_cons, j4 hn]
            rfl
        · right
          refine ⟨by omega, e, ?_, j3⟩
          rw [List.getLast?_append, List.getLast?_cons, j2]
          rfl

end UnsealShape

/-! ## Lemmas on the object store -/

theorem Cluster.key_of_lookup {c : Cluster} {k : ObjectKind × String × String} {x : Object}
    (h : c.lookup k = some x) : x.key = k := by
  unfold Cluster.lookup at h
  have := List.find?_some h
  simpa using this

@[simp] theorem Cluster.GetDeployment_store (dep : Deployment) (c : Cluster) :
    (Cluster.GetDeployment dep c).2 = c := by
  unfold Cluster.GetDeployment
  split <;> rfl

@[simp] theorem Cluster.GetConfigMap_store (cm : ConfigMap) (c : Cluster) :
    (Cluster.GetConfigMap cm c).2 = c := by
  unfold Cluster.GetConfigMap
  split <;> rfl

@[simp] theorem Cluster.List_store (sel : String → Pod → Bool) (ns l : String) (c : Cluster) :
    (Cluster.List sel ns l c).2 = c := rfl

@[simp] theorem Cluster.Create_pods (o : Object) (c : Cluster) :
    (Cluster.Create o c).2.pods = c.pods := by
  unfold Cluster.Create
  split <;> rfl

@[simp] theorem Cluster.Update_pods (o : Object) (c : Cluster) :
    (Cluster.Update o c).2.pods = c.pods := by
  unfold Cluster.Update
  split <;> rfl

/-- A create never answers an error the handler reports. -/
@[simp] theorem Cluster.Create_createError (o : Object) (c : Cluster) :
    createError (Cluster.Create o c).1 = none := by
  unfold Cluster.Create
  split <;> simp [createError, IsAlreadyExists]

/-- A create on a taken key answers `AlreadyExists` and leaves the store as it is. -/
theorem Cluster.Create_of_taken (o : Object) (c : Cluster)
    (h : (c.lookup o.key).isSome = true) :
    Cluster.Create o c = (some ⟨.AlreadyExists, "already exists"⟩, c) := by
  simp [Cluster.Create, h]

/-- What a create leaves under a key that was taken. -/
theorem Cluster.lookup_Create_of_some (o : Object) (c : Cluster)
    (k : ObjectKind × String × String) (x : Object) (h : c.lookup k = some x) :
    (Cluster.Create o c).2.lookup k = some x := by
  unfold Cluster.Create
  split
  · exact h
  · unfold Cluster.lookup at h ⊢
    simp [List.find?_append, h]

/-- After a create the key of the object is taken. -/
theorem Cluster.lookup_Create_self (o : Object) (c : Cluster) :
    ((Cluster.Create o c).2.lookup o.key).isSome = true := by
  unfold Cluster.Create
  split
  · assumption
  · rename_i h
    unfold Cluster.lookup at h ⊢
    simp only [Bool.not_eq_true, Option.not_isSome, Option.isNone_iff_eq_none] at h
    simp [List.find?_append, h]

theorem List.find?_map_replace (l : List Object) (o : Object)
    (k : ObjectKind × String × String) :
    (l.map (fun o' => if o'.key == o.key then o else o')).find? (fun x => x.key == k)
      = (l.find? (fun x => x.key == k)).map (fun x => if x.key == o.key then o else x) := by
  induction l with
  | nil => rfl
  | cons a l ih =>
    have hkey : (if a.key == o.key then o else a).key = a.key := by
      by_cases ha : a.key = o.key
      · simp [ha]
      · simp [ha]
    simp only [List.map_cons, List.find?_cons, hkey]
    cases hp : a.key == k
    · exact ih
    · rfl

/-- What an update leaves under a key. -/
theorem Cluster.lookup_Update (o : Object) (c : Cluster) (k : ObjectKind × String × String) :
    (Cluster.Update o c).2.lookup k
      = (c.lookup k).map (fun x => if x.key == o.key then o else x) := by
  unfold Cluster.Update
  split
  · unfold Cluster.lookup
    exact List.find?_map_replace c.objects o k
  · rename_i h
    simp only [Bool.not_eq_true, Option.not_isSome, Option.isNone_iff_eq_none] at h
    cases hk : c.lookup k with
    | none => simp
    | some x =>
      have hx := Cluster.key_of_lookup hk
      have : x.key ≠ o.key := by
        intro he
        rw [hx] at he
        rw [he, h] at hk
        cases hk
      simp [this]

theorem Cluster.grows_refl (c : Cluster) : c.Grows c := ⟨rfl, fun _ h => h⟩

theorem Cluster.grows_trans {a b c : Cluster} (h1 : a.Grows b) (h2 : b.Grows c) : a.Grows c :=
  ⟨h2.1.trans h1.1, fun k h => h2.2 k (h1.2 k h)⟩

theorem Cluster.grows_Create (o : Object) (c : Cluster) : c.Grows (Cluster.Create o c).2 := by
  refine ⟨Cluster.Create_pods o c, ?_⟩
  intro k h
  obtain ⟨x, hx⟩ := Option.isSome_iff_exists.mp h
  rw [Cluster.lookup_Create_of_some o c k x hx]
  rfl

theorem Cluster.grows_Update (o : Object) (c : Cluster) : c.Grows (Cluster.Update o c).2 := by
  refine ⟨Cluster.Update_pods o c, ?_⟩
  intro k h
  rw [Cluster.lookup_Update]
  simpa using h

theorem Cluster.keeps_refl (c : Cluster) : c.KeepsDeployments c :=
  fun _ _ _ h => h

theorem Cluster.keeps_trans {a b c : Cluster} (h1 : a.KeepsDeployments b)
    (h2 : b.KeepsDeployments c) : a.KeepsDeployments c :=
  fun ns n x h => h2 ns n x (h1 ns n x h)

theorem Cluster.keeps_Create (o : Object) (c : Cluster) :
    c.KeepsDeployments (Cluster.Create o c).2 :=
  fun ns n x h => Cluster.lookup_Create_of_some o c (.Deployment, ns, n) x h

/-- An update of an object that is not a deployment leaves the deployments alone. -/
theorem Cluster.keeps_Update (o : Object) (c : Cluster) (h : o.key.1 ≠ .Deployment) :
    c.KeepsDeployments (Cluster.Update o c).2 := by
  intro ns n x hx
  rw [Cluster.lookup_Update, hx]
  have hk := Cluster.key_of_lookup hx
  have : x.key ≠ o.key := by
    intro he
    apply h
    rw [← he, hk]
  simp [this]

/-! ## Lemmas on a second pass over the object store -/

theorem Step.fixed_andThen {σ : Type} {c : σ} {v : Vault} {r : Step σ}
    {f : Vault → σ → Step σ} (h : r.Fixed c v) (hf : (f v c).Fixed c v) :
    (r.andThen f).Fixed c v := by
  obtain ⟨h1, h2, h3, h4⟩ := h
  obtain ⟨g1, g2, g3, g4⟩ := hf
  rw [Step.andThen_ok h1, h2, h3]
  refine ⟨g1, g2, g3, ?_⟩
  intro e he
  simp only [List.mem_append] at he
  rcases he with he | he
  · exact h4 e he
  · exact g4 e he

theorem Step.andThen_err_none {σ : Type} {r : Step σ} {f : Vault → σ → Step σ}
    (h : (r.andThen f).err = none) : r.err = none ∧ (f r.v r.store).err = none := by
  cases hr : r.err with
  | some e =>
    rw [Step.andThen_err hr] at h
    rw [hr] at h
    cases h
  | none =>
    rw [Step.andThen_ok hr] at h
    exact ⟨rfl, h⟩

/-! ### The store only grows -/

theorem handleEtcd_grows (env : Env) (sel : String → Pod → Bool) (v : Vault) (c : Cluster) :
    c.Grows (handleEtcd env (kube sel) v c).store := by
  unfold handleEtcd
  simp only [kube]
  repeat' split
  all_goals
    repeat (first
      | exact Cluster.grows_refl _
      | refine Cluster.grows_trans ?_ (Cluster.grows_Create _ _)
      | refine Cluster.grows_trans ?_ (Cluster.grows_Update _ _))

theorem handleVaultSecret_grows (env : Env) (sel : String → Pod → Bool) (v : Vault)
    (c : Cluster) : c.Grows (handleVaultSecret env (kube sel) v c).store := by
  unfold handleVaultSecret
  simp only [kube]
  repeat' split
  all_goals
    repeat (first
      | exact Cluster.grows_refl _
      | refine Cluster.grows_trans ?_ (Cluster.grows_Create _ _)
      | refine Cluster.grows_trans ?_ (Cluster.grows_Update _ _))

theorem handleDeployment_grows (env : Env) (sel : String → Pod → Bool) (v : Vault)
    (c : Cluster) : c.Grows (handleDeployment env (kube sel) v c).store := by
  unfold handleDeployment
  simp only [kube, Cluster.GetDeployment_store]
  repeat' split
  all_goals
    repeat (first
      | exact Cluster.grows_refl _
      | refine Cluster.grows_trans ?_ (Cluster.grows_Create _ _)
      | refine Cluster.grows_trans ?_ (Cluster.grows_Update _ _))

theorem handleStatus_grows (sel : String → Pod → Bool) (v : Vault) (c : Cluster) :
    c.Grows (handleStatus (kube sel) v c).store := by
  unfold handleStatus
  simp only [kube, Cluster.List_store]
  repeat' split
  all_goals
    repeat (first
      | exact Cluster.grows_refl _
      | refine Cluster.grows_trans ?_ (Cluster.grows_Create _ _)
      | refine Cluster.grows_trans ?_ (Cluster.grows_Update _ _))

theorem handleService_grows (sel : String → Pod → Bool) (v : Vault) (c : Cluster) :
    c.Grows (handleService (kube sel) v c).store := by
  unfold handleService
  simp only [kube]
  repeat' split
  all_goals
    repeat (first
      | exact Cluster.grows_refl _
      | refine Cluster.grows_trans ?_ (Cluster.grows_Create _ _)
      | refine Cluster.grows_trans ?_ (Cluster.grows_Update _ _))

theorem handleConfigurer_grows (env : Env) (sel : String → Pod → Bool) (v : Vault)
    (c : Cluster) : c.Grows (handleConfigurer env (kube sel) v c).store := by
  unfold handleConfigurer
  simp only [kube, Cluster.GetConfigMap_store]
  repeat' split
  all_goals
    repeat (first
      | exact Cluster.grows_refl _
      | refine Cluster.grows_trans ?_ (Cluster.grows_Create _ _)
      | refine Cluster.grows_trans ?_ (Cluster.grows_Update _ _))

/-! ### The later blocks leave the deployments alone -/

theorem handleStatus_keeps (sel : String → Pod → Bool) (v : Vault) (c : Cluster) :
    c.KeepsDeployments (handleStatus (kube sel) v c).store := by
  unfold handleStatus
  simp only [kube, Cluster.List_store]
  repeat' split
  all_goals
    repeat (first
      | exact Cluster.keeps_refl _
      | refine Cluster.keeps_trans ?_ (Cluster.keeps_Create _ _)
      | refine Cluster.keeps_trans ?_
          (Cluster.keeps_Update _ _ (by simp [Object.key])))

theorem handleService_keeps (sel : String → Pod → Bool) (v : Vault) (c : Cluster) :
    c.KeepsDeployments (handleService (kube sel) v c).store := by
  unfold handleService
  simp only [kube]
  repeat' split
  all_goals
    repeat (first
      | exact Cluster.keeps_refl _
      | refine Cluster.keeps_trans ?_ (Cluster.keeps_Create _ _))

theorem handleConfigurer_keeps (env : Env) (sel : String → Pod → Bool) (v : Vault)
    (c : Cluster) : c.KeepsDeployments (handleConfigurer env (kube sel) v c).store := by
  unfold handleConfigurer
  simp only [kube, Cluster.GetConfigMap_store]
  repeat' split
  all_goals
    repeat (first
      | exact Cluster.keeps_refl _
      | refine Cluster.keeps_trans ?_ (Cluster.keeps_Create _ _)
      | refine Cluster.keeps_trans ?_
          (Cluster.keeps_Update _ _ (by simp [Object.key])))

/-! ### What a block that returned no error leaves, and what it does when run again -/

theorem StrMap.get_set (m : StrMap) (k v : String) : (StrMap.set m k v).get k = v := by
  induction m with
  | nil => simp [StrMap.set, StrMap.get]
  | cons p rest ih =>
    obtain ⟨k', v'⟩ := p
    by_cases hk : k' = k
    · simp [StrMap.set, StrMap.get, hk]
    · have hne : (k' == k) = false := by simpa using hk
      unfold StrMap.get at ih ⊢
      simp only [StrMap.set, hne, Bool.false_eq_true, ite_false, List.find?_cons]
      exact ih

theorem Cluster.GetDeployment_ok (dep d : Deployment) (c : Cluster)
    (h : (Cluster.GetDeployment dep c).1 = .ok d) :
    c.lookup (Object.deployment dep).key = some (.deployment d) := by
  unfold Cluster.GetDeployment at h
  split at h
  · rename_i d' hd
    simp only [Except.ok.injEq] at h
    rw [hd, h]
  · cases h

theorem Cluster.GetDeployment_of_lookup (dep d : Deployment) (c : Cluster)
    (h : c.lookup (Object.deployment dep).key = some (.deployment d)) :
    Cluster.GetDeployment dep c = (.ok d, c) := by
  simp [Cluster.GetDeployment, h]

theorem Cluster.GetConfigMap_ok (cm d : ConfigMap) (c : Cluster)
    (h : (Cluster.GetConfigMap cm c).1 = .ok d) :
    c.lookup (Object.configMap cm).key = some (.configMap d) := by
  unfold Cluster.GetConfigMap at h
  split at h
  · rename_i d' hd
    simp only [Except.ok.injEq] at h
    rw [hd, h]
  · cases h

theorem Cluster.GetConfigMap_of_lookup (cm d : ConfigMap) (c : Cluster)
    (h : c.lookup (Object.configMap cm).key = some (.configMap d)) :
    Cluster.GetConfigMap cm c = (.ok d, c) := by
  simp [Cluster.GetConfigMap, h]

theorem handleEtcd_post (env : Env) (sel : String → Pod → Bool) (v : Vault) (c : Cluster)
    (h : (handleEtcd env (kube sel) v c).err = none)
    (hetcd : (v.Spec.GetStorageType == "etcd") = true) :
    ∃ cl sec, etcdForVault env v = .ok cl ∧ secretForEtcd env cl = .ok sec ∧
      ((handleEtcd env (kube sel) v c).store.lookup (Object.secret
        { sec with meta := addOwnerRefToObject sec.meta (asOwner v) }).key).isSome = true ∧
      ((handleEtcd env (kube sel) v c).store.lookup (Object.etcdCluster cl).key).isSome
        = true := by
  cases h1 : etcdForVault env v with
  | panic value => simp [handleEtcd, hetcd, h1] at h
  | error m => simp [handleEtcd, hetcd, h1] at h
  | ok cl =>
    cases h2 : secretForEtcd env cl with
    | error m => simp [handleEtcd, hetcd, h1, h2] at h
    | ok sec =>
      refine ⟨cl, sec, rfl, h2, ?_⟩
      have hs : (handleEtcd env (kube sel) v c).store
          = (Cluster.Create (.etcdCluster cl) (Cluster.Create (.secret
              { sec with meta := addOwnerRefToObject sec.meta (asOwner v) }) c).2).2 := by
        simp [handleEtcd, hetcd, h1, h2, kube]
      rw [hs]
      exact ⟨(Cluster.grows_Create _ _).2 _ (Cluster.lookup_Create_self _ _),
        Cluster.lookup_Create_self _ _⟩

theorem handleEtcd_again (env : Env) (sel : String → Pod → Bool) (v : Vault) (c : Cluster)
    (hpost : (v.Spec.GetStorageType == "etcd") = true →
      ∃ cl sec, etcdForVault env v = .ok cl ∧ secretForEtcd env cl = .ok sec ∧
        (c.lookup (Object.secret
          { sec with meta := addOwnerRefToObject sec.meta (asOwner v) }).key).isSome = true ∧
        (c.lookup (Object.etcdCluster cl).key).isSome = true) :
    (handleEtcd env (kube sel) v c).Fixed c v := by
  by_cases hetcd : (v.Spec.GetStorageType == "etcd") = true
  · obtain ⟨cl, sec, h1, h2, k1, k2⟩ := hpost hetcd
    simp [handleEtcd, hetcd, h1, h2, kube, Cluster.Create_of_taken _ _ k1,
      Cluster.Create_of_taken _ _ k2, createError, IsAlreadyExists, Step.Fixed, Entry.quiet]
  · simp [handleEtcd, hetcd, Step.Fixed]

theorem handleVaultSecret_post (env : Env) (sel : String → Pod → Bool) (v : Vault)
    (c : Cluster) (h : (handleVaultSecret env (kube sel) v c).err = none) :
    ∃ sec, secretForVault env v = .ok sec ∧
      ((handleVaultSecret env (kube sel) v c).store.lookup (Object.secret
        { sec with meta := addOwnerRefToObject sec.meta (asOwner v) }).key).isSome = true := by
  cases h1 : secretForVault env v with
  | error m => simp [handleVaultSecret, h1] at h
  | ok sec =>
    refine ⟨sec, rfl, ?_⟩
    have hs : (handleVaultSecret env (kube sel) v c).store
        = (Cluster.Create (.secret
            { sec with meta := addOwnerRefToObject sec.meta (asOwner v) }) c).2 := by
      simp [handleVaultSecret, h1, kube]
    rw [hs]
    exact Cluster.lookup_Create_self _ _

theorem handleVaultSecret_again (env : Env) (sel : String → Pod → Bool) (v : Vault)
    (c : Cluster)
    (hpost : ∃ sec, secretForVault env v = .ok sec ∧
      (c.lookup (Object.secret
        { sec with meta := addOwnerRefToObject sec.meta (asOwner v) }).key).isSome = true) :
    (handleVaultSecret env (kube sel) v c).Fixed c v := by
  obtain ⟨sec, h1, k1⟩ := hpost
  simp [handleVaultSecret, h1, kube, Cluster.Create_of_taken _ _ k1, createError,
    IsAlreadyExists, Step.Fixed, Entry.quiet]

theorem handleService_post (sel : String → Pod → Bool) (v : Vault) (c : Cluster) :
    ((handleService (kube sel) v c).store.lookup
      (Object.service (serviceForVault v)).key).isSome = true := by
  have hs : (handleService (kube sel) v c).store
      = (Cluster.Create (.service (serviceForVault v)) c).2 := by
    simp [handleService, kube]
  rw [hs]
  exact Cluster.lookup_Create_self _ _

theorem handleService_again (sel : String → Pod → Bool) (v : Vault) (c : Cluster)
    (hpost : (c.lookup (Object.service (serviceForVault v)).key).isSome = true) :
    (handleService (kube sel) v c).Fixed c v := by
  simp [handleService, kube, Cluster.Create_of_taken _ _ hpost, createError,
    IsAlreadyExists, Step.Fixed, Entry.quiet]

theorem handleDeployment_post (env : Env) (sel : String → Pod → Bool) (v : Vault)
    (c : Cluster) (h : (handleDeployment env (kube sel) v c).err = none) :
    ∃ dep d, deploymentForVault env v = .ok dep ∧
      (handleDeployment env (kube sel) v c).store.lookup (Object.deployment dep).key
        = some (.deployment d) ∧
      d.Replicas = some v.Spec.Size := by
  cases h1 : deploymentForVault env v with
  | panic value => simp [handleDeployment, h1] at h
  | error m => simp [handleDeployment, h1] at h
  | ok dep =>
    cases h2 : (Cluster.GetDeployment dep (Cluster.Create (.deployment dep) c).2).1 with
    | error m => simp [handleDeployment, h1, kube, h2] at h
    | ok d =>
      have hl := Cluster.GetDeployment_ok dep d _ h2
      cases hrep : d.Replicas with
      | none => simp [handleDeployment, h1, kube, h2, hrep] at h
      | some replicas =>
        by_cases hr : replicas = v.Spec.Size
        · refine ⟨dep, d, rfl, ?_, by rw [hrep, hr]⟩
          have hs : (handleDeployment env (kube sel) v c).store
              = (Cluster.Create (.deployment dep) c).2 := by
            simp [handleDeployment, h1, kube, h2, hrep, hr]
          rw [hs]
          exact hl
        · cases h3 : (Cluster.Update (.deployment { d with Replicas := some v.Spec.Size })
              (Cluster.Create (.deployment dep) c).2).1 with
          | some m => simp [handleDeployment, h1, kube, h2, hrep, hr, h3] at h
          | none =>
            refine ⟨dep, { d with Replicas := some v.Spec.Size }, rfl, ?_, rfl⟩
            have hs : (handleDeployment env (kube sel) v c).store
                = (Cluster.Update (.deployment { d with Replicas := some v.Spec.Size })
                    (Cluster.Create (.deployment dep) c).2).2 := by
              simp [handleDeployment, h1, kube, h2, hrep, hr, h3]
            rw [hs, Cluster.lookup_Update, hl]
            simp [Object.key]

theorem handleDeployment_again (env : Env) (sel : String → Pod → Bool) (v : Vault)
    (c : Cluster)
    (hpost : ∃ dep d, deploymentForVault env v = .ok dep ∧
      c.lookup (Object.deployment dep).key = some (.deployment d) ∧
      d.Replicas = some v.Spec.Size) :
    (handleDeployment env (kube sel) v c).Fixed c v := by
  obtain ⟨dep, d, h1, hl, hr⟩ := hpost
  have hk : (c.lookup (Object.deployment dep).key).isSome = true := by rw [hl]; rfl
  simp [handleDeployment, h1, kube, Cluster.Create_of_taken _ _ hk,
    Cluster.GetDeployment_of_lookup _ _ _ hl, hr, createError, IsAlreadyExists, Step.Fixed,
    Entry.quiet]

theorem handleStatus_post (sel : String → Pod → Bool) (v : Vault) (c : Cluster) :
    (handleStatus (kube sel) v c).v.Status.Nodes
      = getPodNames (c.pods.filter
          (fun p => p.Namespace == v.Namespace && sel (labelSelectorForVault v.Name) p)) ∧
    ∃ st, (handleStatus (kube sel) v c).v = { v with Status := st } := by
  by_cases hn : getPodNames (c.pods.filter
      (fun p => p.Namespace == v.Namespace && sel (labelSelectorForVault v.Name) p))
      = v.Status.Nodes
  · have hv : (handleStatus (kube sel) v c).v = v := by
      simp [handleStatus, kube, Cluster.List, hn]
    rw [hv]
    exact ⟨hn.symm, v.Status, rfl⟩
  · have hv : (handleStatus (kube sel) v c).v
        = { v with Status := { v.Status with Nodes := getPodNames (c.pods.filter
            (fun p => p.Namespace == v.Namespace &&
              sel (labelSelectorForVault v.Name) p)) } } := by
      simp only [handleStatus, kube, Cluster.List]
      rw [if_pos hn]
      generalize (Cluster.Update (Object.vault _) c).1 = u
      cases u <;> rfl
    rw [hv]
    exact ⟨rfl, _, rfl⟩

theorem handleStatus_again (sel : String → Pod → Bool) (v : Vault) (c : Cluster)
    (hn : v.Status.Nodes = getPodNames (c.pods.filter
      (fun p => p.Namespace == v.Namespace && sel (labelSelectorForVault v.Name) p))) :
    (handleStatus (kube sel) v c).Fixed c v := by
  simp [handleStatus, kube, Cluster.List, ← hn, Step.Fixed, Entry.quiet]

theorem handleConfigurer_post (env : Env) (sel : String → Pod → Bool) (v : Vault)
    (c : Cluster) (h : (handleConfigurer env (kube sel) v c).err = none) :
    ((handleConfigurer env (kube sel) v c).store.lookup
      (Object.deployment (deploymentForConfigurer v)).key).isSome = true ∧
    ∃ cm, (handleConfigurer env (kube sel) v c).store.lookup
        (Object.configMap (configMapForConfigurer env v)).key = some (.configMap cm) ∧
      (cm.Data.getD []).get env.DefaultConfigFile = v.Spec.ExternalConfigJSON := by
  have hdep : ((Cluster.Create (.deployment (deploymentForConfigurer v)) c).2.lookup
      (Object.deployment (deploymentForConfigurer v)).key).isSome = true :=
    Cluster.lookup_Create_self _ _
  have hg := handleConfigurer_grows env sel v c
  cases h2 : (Cluster.GetConfigMap (configMapForConfigurer env v)
      (Cluster.Create (.configMap (configMapForConfigurer env v))
        (Cluster.Create (.deployment (deploymentForConfigurer v)) c).2).2).1 with
  | error m => simp [handleConfigurer, kube, h2] at h
  | ok cm =>
    have hl := Cluster.GetConfigMap_ok _ cm _ h2
    by_cases hr : (cm.Data.getD []).get env.DefaultConfigFile = v.Spec.ExternalConfigJSON
    · have hs : (handleConfigurer env (kube sel) v c).store
          = (Cluster.Create (.configMap (configMapForConfigurer env v))
              (Cluster.Create (.deployment (deploymentForConfigurer v)) c).2).2 := by
        simp [handleConfigurer, kube, h2, hr]
      rw [hs]
      exact ⟨(Cluster.grows_Create _ _).2 _ hdep, cm, hl, hr⟩
    · cases hdata : cm.Data with
      | none =>
        rw [hdata] at hr
        simp only [Option.getD_none] at hr
        simp [handleConfigurer, kube, h2, hr, hdata] at h
      | some data =>
        rw [hdata] at hr
        simp only [Option.getD_some] at hr
        obtain ⟨cm', hcm'⟩ : ∃ cm' : ConfigMap, cm' = { cm with
            Data := some (data.set env.DefaultConfigFile v.Spec.ExternalConfigJSON) } :=
          ⟨_, rfl⟩
        cases h3 : (Cluster.Update (.configMap cm')
            (Cluster.Create (.configMap (configMapForConfigurer env v))
              (Cluster.Create (.deployment (deploymentForConfigurer v)) c).2).2).1 with
        | some m => simp [handleConfigurer, kube, h2, hr, hdata, ← hcm', h3] at h
        | none =>
          have hs : (handleConfigurer env (kube sel) v c).store
              = (Cluster.Update (.configMap cm')
                  (Cluster.Create (.configMap (configMapForConfigurer env v))
                    (Cluster.Create (.deployment (deploymentForConfigurer v)) c).2).2).2 := by
            simp [handleConfigurer, kube, h2, hr, hdata, ← hcm', h3]
          rw [hs]
          refine ⟨(Cluster.grows_Update _ _).2 _ ((Cluster.grows_Create _ _).2 _ hdep),
            cm', ?_, ?_⟩
          · rw [Cluster.lookup_Update, hl, hcm']
            simp [Object.key]
          · rw [hcm']
            exact StrMap.get_set _ _ _

theorem handleConfigurer_again (env : Env) (sel : String → Pod → Bool) (v : Vault)
    (c : Cluster)
    (hpost : (c.lookup (Object.deployment (deploymentForConfigurer v)).key).isSome = true ∧
      ∃ cm, c.lookup (Object.configMap (configMapForConfigurer env v)).key
          = some (.configMap cm) ∧
        (cm.Data.getD []).get env.DefaultConfigFile = v.Spec.ExternalConfigJSON) :
    (handleConfigurer env (kube sel) v c).Fixed c v := by
  obtain ⟨k1, cm, hl, hr⟩ := hpost
  have hk : (c.lookup (Object.configMap (configMapForConfigurer env v)).key).isSome = true := by
    rw [hl]; rfl
  simp [handleConfigurer, kube, Cluster.Create_of_taken _ _ k1, Cluster.Create_of_taken _ _ hk,
    Cluster.GetConfigMap_of_lookup _ _ _ hl, hr, createError, IsAlreadyExists, Step.Fixed,
    Entry.quiet]

/-! ### The whole pass, run again -/

/-- The blocks of a pass that returned no error, one after the other. -/
theorem reconcile_ok_blocks (env : Env) (sel : String → Pod → Bool) (v : Vault) (c : Cluster)
    (h : (reconcile env (kube sel) v c).err = none) :
    ∃ c1 c2 c3 c4 c5 v1,
      (handleEtcd env (kube sel) v c).err = none ∧
      (handleEtcd env (kube sel) v c).store = c1 ∧
      (handleVaultSecret env (kube sel) v c1).err = none ∧
      (handleVaultSecret env (kube sel) v c1).store = c2 ∧
      (handleDeployment env (kube sel) v c2).err = none ∧
      (handleDeployment env (kube sel) v c2).store = c3 ∧
      (handleStatus (kube sel) v c3).err = none ∧
      (handleStatus (kube sel) v c3).store = c4 ∧
      (handleStatus (kube sel) v c3).v = v1 ∧
      (handleService (kube sel) v1 c4).err = none ∧
      (handleService (kube sel) v1 c4).store = c5 ∧
      (handleConfigurer env (kube sel) v1 c5).err = none ∧
      (reconcile env (kube sel) v c).store = (handleConfigurer env (kube sel) v1 c5).store ∧
      (reconcile env (kube sel) v c).v = v1 := by
  unfold reconcile at h ⊢
  obtain ⟨h5, g6⟩ := Step.andThen_err_none h
  obtain ⟨h4, g5⟩ := Step.andThen_err_none h5
  obtain ⟨h3, g4⟩ := Step.andThen_err_none h4
  obtain ⟨h2, g3⟩ := Step.andThen_err_none h3
  obtain ⟨h1, g2⟩ := Step.andThen_err_none h2
  rw [Step.andThen_ok h5, Step.andThen_ok h4, Step.andThen_ok h3, Step.andThen_ok h2,
    Step.andThen_ok h1]
  rw [Step.andThen_ok h4, Step.andThen_ok h3, Step.andThen_ok h2, Step.andThen_ok h1] at g6
  rw [Step.andThen_ok h3, Step.andThen_ok h2, Step.andThen_ok h1] at g5
  rw [Step.andThen_ok h2, Step.andThen_ok h1] at g4
  rw [Step.andThen_ok h1] at g3
  simp only [handleEtcd_v, handleVaultSecret_v, handleDeployment_v, handleService_v,
    handleConfigurer_v] at g2 g3 g4 g5 g6 ⊢
  exact ⟨_, _, _, _, _, _, h1, rfl, g2, rfl, g3, rfl, g4, rfl, rfl, g5, rfl, g6, rfl, rfl⟩

theorem Step.Fixed.withStatus {σ : Type} {c : σ} {v v1 : Vault} {r : Step σ}
    (h : r.Fixed c v) : ({ r with v := v1 } : Step σ).Fixed c v1 :=
  ⟨h.1, h.2.1, rfl, h.2.2.2⟩

/-- A pass that returned no error, run again on the descriptor and the store it left,
changes nothing. -/
theorem reconcile_again (env : Env) (sel : String → Pod → Bool) (v : Vault) (c : Cluster)
    (h : (reconcile env (kube sel) v c).err = none) :
    (reconcile env (kube sel) (reconcile env (kube sel) v c).v
      (reconcile env (kube sel) v c).store).Fixed
      (reconcile env (kube sel) v c).store (reconcile env (kube sel) v c).v := by
  obtain ⟨c1, c2, c3, c4, c5, v1, e1, s1, e2, s2, e3, s3, e4, s4, hv1, e5, s5, e6, hs, hv⟩ :=
    reconcile_ok_blocks env sel v c h
  rw [hs, hv]
  obtain ⟨c6, hc6⟩ : ∃ c6, c6 = (handleConfigurer env (kube sel) v1 c5).store := ⟨_, rfl⟩
  rw [← hc6]
  obtain ⟨hnodes, st, hst⟩ := handleStatus_post sel v c3
  rw [hv1] at hnodes hst
  have g12 : c1.Grows c2 := s2 ▸ handleVaultSecret_grows env sel v c1
  have g23 : c2.Grows c3 := s3 ▸ handleDeployment_grows env sel v c2
  have g34 : c3.Grows c4 := s4 ▸ handleStatus_grows sel v c3
  have g45 : c4.Grows c5 := s5 ▸ handleService_grows sel v1 c4
  have g56 : c5.Grows c6 := hc6 ▸ handleConfigurer_grows env sel v1 c5
  have k34 : c3.KeepsDeployments c4 := s4 ▸ handleStatus_keeps sel v c3
  have k45 : c4.KeepsDeployments c5 := s5 ▸ handleService_keeps sel v1 c4
  have k56 : c5.KeepsDeployments c6 := hc6 ▸ handleConfigurer_keeps env sel v1 c5
  have g36 : c3.Grows c6 := Cluster.grows_trans (Cluster.grows_trans g34 g45) g56
  have g26 : c2.Grows c6 := Cluster.grows_trans g23 g36
  have g16 : c1.Grows c6 := Cluster.grows_trans g12 g26
  have k36 : c3.KeepsDeployments c6 := Cluster.keeps_trans (Cluster.keeps_trans k34 k45) k56
  have p5 := handleService_post sel v1 c4
  rw [s5] at p5
  have p6 := handleConfigurer_post env sel v1 c5 e6
  rw [← hc6] at p6
  subst hst
  unfold reconcile
  refine Step.fixed_andThen (Step.fixed_andThen (Step.fixed_andThen (Step.fixed_andThen
    (Step.fixed_andThen ?_ ?_) ?_) ?_) ?_) ?_
  · rw [handleEtcd_status]
    refine Step.Fixed.withStatus (handleEtcd_again env sel v c6 ?_)
    intro hetcd
    obtain ⟨cl, sec, a, b, k1, k2⟩ := handleEtcd_post env sel v c e1 hetcd
    rw [s1] at k1 k2
    exact ⟨cl, sec, a, b, g16.2 _ k1, g16.2 _ k2⟩
  · rw [handleVaultSecret_status]
    refine Step.Fixed.withStatus (handleVaultSecret_again env sel v c6 ?_)
    obtain ⟨sec, a, k1⟩ := handleVaultSecret_post env sel v c1 e2
    rw [s2] at k1
    exact ⟨sec, a, g26.2 _ k1⟩
  · rw [handleDeployment_status]
    refine Step.Fixed.withStatus (handleDeployment_again env sel v c6 ?_)
    obtain ⟨dep, d, a, hl, hr⟩ := handleDeployment_post env sel v c2 e3
    rw [s3] at hl
    exact ⟨dep, d, a, k36 _ _ _ hl, hr⟩
  · refine handleStatus_again sel _ c6 ?_
    rw [hnodes, g36.1]
  · exact handleService_again sel _ c6 (g56.2 _ p5)
  · exact handleConfigurer_again env sel _ c6 p6

/-! ## Lemmas on `AlreadyExists` -/

section ToleranceLemmas
variable {σ : Type}

theorem createError_idem (err : Option ApiError) :
    createError (createError err) = createError err := by
  unfold createError
  cases err with
  | none => rfl
  | some e =>
    by_cases h : IsAlreadyExists e = true
    · simp [h]
    · simp [h]

theorem Step.sameRun_andThen {r r' : Step σ} {f f' : Vault → σ → Step σ}
    (h : r.SameRun r') (hf : ∀ v s, (f v s).SameRun (f' v s)) :
    (r.andThen f).SameRun (r'.andThen f') := by
  obtain ⟨h1, h2, h3, h4, h5⟩ := h
  cases hr : r.err with
  | some e =>
    have hr' : r'.err = some e := by rw [← h1, hr]
    rw [Step.andThen_err hr, Step.andThen_err hr']
    exact ⟨h1, h2, h3, h4, h5⟩
  | none =>
    have hr' : r'.err = none := by rw [← h1, hr]
    rw [Step.andThen_ok hr, Step.andThen_ok hr', ← h2, ← h3]
    obtain ⟨g1, g2, g3, g4, g5⟩ := hf r.v r.store
    exact ⟨g1, g2, g3, by simp only [List.map_append, h4, g4], g5⟩

theorem handleEtcd_forgiving (env : Env) (sdk : Sdk σ) (v : Vault) (s : σ) :
    (handleEtcd env sdk.forgiving v s).SameRun (handleEtcd env sdk v s) := by
  unfold handleEtcd
  simp only [Sdk.forgiving, createError_idem]
  repeat' split
  all_goals simp_all [Step.SameRun]

theorem handleVaultSecret_forgiving (env : Env) (sdk : Sdk σ) (v : Vault) (s : σ) :
    (handleVaultSecret env sdk.forgiving v s).SameRun (handleVaultSecret env sdk v s) := by
  unfold handleVaultSecret
  simp only [Sdk.forgiving, createError_idem]
  repeat' split
  all_goals simp_all [Step.SameRun]

theorem handleDeployment_forgiving (env : Env) (sdk : Sdk σ) (v : Vault) (s : σ) :
    (handleDeployment env sdk.forgiving v s).SameRun (handleDeployment env sdk v s) := by
  unfold handleDeployment
  simp only [Sdk.forgiving, createError_idem]
  repeat' split
  all_goals simp_all [Step.SameRun]

theorem handleStatus_forgiving (sdk : Sdk σ) (v : Vault) (s : σ) :
    (handleStatus sdk.forgiving v s).SameRun (handleStatus sdk v s) := by
  unfold handleStatus
  simp only [Sdk.forgiving]
  repeat' split
  all_goals simp_all [Step.SameRun]

theorem handleService_forgiving (sdk : Sdk σ) (v : Vault) (s : σ) :
    (handleService sdk.forgiving v s).SameRun (handleService sdk v s) := by
  unfold handleService
  simp only [Sdk.forgiving, createError_idem]
  repeat' split
  all_goals simp_all [Step.SameRun]

theorem handleConfigurer_forgiving (env : Env) (sdk : Sdk σ) (v : Vault) (s : σ) :
    (handleConfigurer env sdk.forgiving v s).SameRun (handleConfigurer env sdk v s) := by
  unfold handleConfigurer
  simp only [Sdk.forgiving, createError_idem]
  repeat' split
  all_goals simp_all [Step.SameRun]

/-- The pass runs alike whether a create that finds its object answers `AlreadyExists` or
success. -/
theorem reconcile_forgiving (env : Env) (sdk : Sdk σ) (v : Vault) (s : σ) :
    (reconcile env sdk.forgiving v s).SameRun (reconcile env sdk v s) := by
  unfold reconcile
  exact Step.sameRun_andThen (Step.sameRun_andThen (Step.sameRun_andThen
    (Step.sameRun_andThen (Step.sameRun_andThen (handleEtcd_forgiving env sdk v s)
      (handleVaultSecret_forgiving env sdk)) (handleDeployment_forgiving env sdk))
      (handleStatus_forgiving sdk)) (handleService_forgiving sdk))
      (handleConfigurer_forgiving env sdk)

/-- An error returned by two blocks in sequence has the cause of the block that returned
it. -/
theorem Step.andThen_cause {r : Step σ} {f : Vault → σ → Step σ} {C : Prop}
    (hr : ∀ m, r.err = some m → r.panicked = false →
      (∃ e ∈ r.trace, e.failed = true) ∨ C)
    (hf : ∀ m, (f r.v r.store).err = some m → (f r.v r.store).panicked = false →
      (∃ e ∈ (f r.v r.store).trace, e.failed = true) ∨ C) :
    ∀ m, (r.andThen f).err = some m → (r.andThen f).panicked = false →
      (∃ e ∈ (r.andThen f).trace, e.failed = true) ∨ C := by
  intro m h hp
  cases h1 : r.err with
  | some e =>
    rw [Step.andThen_err h1] at h hp ⊢
    exact hr m h hp
  | none =>
    rw [Step.andThen_ok h1] at h hp ⊢
    rcases hf m h hp with ⟨e, he, hfail⟩ | hc
    · exact Or.inl ⟨e, List.mem_append_right _ he, hfail⟩
    · exact Or.inr hc

theorem handleDeployment_error_cause (env : Env) (sdk : Sdk σ) (v : Vault) (s : σ)
    (msg : String) :
    (handleDeployment env sdk v s).err = some msg →
    (handleDeployment env sdk v s).panicked = false →
    (∃ e ∈ (handleDeployment env sdk v s).trace, e.failed = true) ∨
    (∃ m, deploymentForVault env v = .error m) := by
  unfold handleDeployment
  dsimp only
  repeat' split
  all_goals first
    | (intro h; simp at h; done)
    | (intro _ h; simp at h; done)
    | (intro _ _; left; simp_all [Entry.failed]; done)
    | (intro _ _; right; simp_all)

theorem handleStatus_error_cause (sdk : Sdk σ) (v : Vault) (s : σ) (msg : String) :
    (handleStatus sdk v s).err = some msg →
    ∃ e ∈ (handleStatus sdk v s).trace, e.failed = true := by
  unfold handleStatus
  dsimp only
  repeat' split
  all_goals first
    | (intro h; simp at h; done)
    | (intro _; simp_all [Entry.failed])

theorem handleService_error_cause (sdk : Sdk σ) (v : Vault) (s : σ) (msg : String) :
    (handleService sdk v s).err = some msg →
    ∃ e ∈ (handleService sdk v s).trace, e.failed = true := by
  unfold handleService
  dsimp only
  repeat' split
  all_goals first
    | (intro h; simp at h; done)
    | (intro _; simp_all [Entry.failed])

theorem handleConfigurer_error_cause (env : Env) (sdk : Sdk σ) (v : Vault) (s : σ)
    (msg : String) :
    (handleConfigurer env sdk v s).err = some msg →
    (handleConfigurer env sdk v s).panicked = false →
    ∃ e ∈ (handleConfigurer env sdk v s).trace, e.failed = true := by
  unfold handleConfigurer
  dsimp only
  repeat' split
  all_goals first
    | (intro h; simp at h; done)
    | (intro _ h; simp at h; done)
    | (intro _ _; simp_all [Entry.failed])

/-- An error returned by the pass comes from a call that failed or from a fabricator that
returned an error; a create answered `AlreadyExists` is neither. -/
theorem reconcile_error_cause (env : Env) (sdk : Sdk σ) (v : Vault) (s : σ) :
    ∀ msg, (reconcile env sdk v s).err = some msg → (reconcile env sdk v s).panicked = false →
      (∃ e ∈ (reconcile env sdk v s).trace, e.failed = true) ∨ FabricationFails env v := by
  unfold reconcile
  refine Step.andThen_cause (Step.andThen_cause (Step.andThen_cause (Step.andThen_cause ?_ ?_)
    ?_) ?_) ?_
  · intro m h hp
    rcases secrets_error_cause env sdk v s m h hp with h1 | h1 | h1
    · exact Or.inl h1
    · exact Or.inr (Or.inl h1)
    · exact Or.inr (Or.inr (Or.inl h1))
  · intro m h hp
    rw [secrets_v] at h hp ⊢
    rcases handleDeployment_error_cause env sdk v _ m h hp with h1 | h1
    · exact Or.inl h1
    · exact Or.inr (Or.inr (Or.inr h1))
  · intro m h _
    exact Or.inl (handleStatus_error_cause sdk _ _ m h)
  · intro m h _
    exact Or.inl (handleService_error_cause sdk _ _ m h)
  · intro m h hp
    exact Or.inl (handleConfigurer_error_cause env sdk _ _ m h hp)

end ToleranceLemmas

/-! ## Lemmas on the calls a pass cannot skip -/

section PrefixLemmas
variable {σ : Type}

theorem Step.complete_andThen {etcd : Bool} {a m b : Nat} {r : Step σ}
    {f : Vault → σ → Step σ} (h : r.Complete etcd a m)
    (hf : ∀ v s, (f v s).Complete etcd m b) :
    (r.andThen f).Complete etcd a b := by
  cases hr : r.err with
  | some e =>
    rw [Step.andThen_err hr]
    obtain ⟨h1, _, h3⟩ := h
    refine ⟨h1, ?_, h3⟩
    intro hnone
    rw [hr] at hnone
    cases hnone
  | none =>
    rw [Step.andThen_ok hr]
    obtain ⟨h1, h2, h3⟩ := h
    obtain ⟨g1, g2, g3⟩ := hf r.v r.store
    have hfull := h2 (by rw [hr]; rfl)
    refine ⟨?_, ?_, ?_⟩
    · intro y hy x hx hlo hlt
      simp only [List.map_append, List.mem_append] at hy ⊢
      rcases hy with hy | hy
      · exact Or.inl (h1 y hy x hx hlo hlt)
      · by_cases hxm : x.line < m
        · exact Or.inl (hfull x hx hlo hxm)
        · exact Or.inr (g1 y hy x hx (by omega) hlt)
    · intro hok x hx hlo hhi
      simp only [List.map_append, List.mem_append]
      by_cases hxm : x.line < m
      · exact Or.inl (hfull x hx hlo hxm)
      · exact Or.inr (g2 hok x hx (by omega) hhi)
    · intro y hy hs
      simp only [List.map_append, List.mem_append] at hy
      rcases hy with hy | hy
      · exact h3 y hy hs
      · exact g3 y hy hs

theorem handleEtcd_shape (env : Env) (sdk : Sdk σ) (v : Vault) (s : σ) :
    (v.Spec.GetStorageType == "etcd", (handleEtcd env sdk v s).err.isSome,
      (handleEtcd env sdk v s).trace.map (fun e => e.site)) ∈
      [(false, false, []), (true, true, []), (true, true, [Site.createEtcdSecret]),
        (true, true, [Site.createEtcdSecret, Site.createEtcdCluster]),
        (true, false, [Site.createEtcdSecret, Site.createEtcdCluster])] := by
  unfold handleEtcd
  dsimp only
  repeat' split
  all_goals simp_all

theorem handleVaultSecret_shape (env : Env) (sdk : Sdk σ) (v : Vault) (s : σ) :
    ((handleVaultSecret env sdk v s).err.isSome,
      (handleVaultSecret env sdk v s).trace.map (fun e => e.site)) ∈
      [(true, []), (true, [Site.createVaultSecret]), (false, [Site.createVaultSecret])] := by
  unfold handleVaultSecret
  dsimp only
  repeat' split
  all_goals simp_all

theorem handleDeployment_shape (env : Env) (sdk : Sdk σ) (v : Vault) (s : σ) :
    ((handleDeployment env sdk v s).err.isSome,
      (handleDeployment env sdk v s).trace.map (fun e => e.site)) ∈
      [(true, []), (true, [Site.createDeployment]),
        (true, [Site.createDeployment, Site.getDeployment]),
        (true, [Site.createDeployment, Site.getDeployment, Site.updateDeployment]),
        (false, [Site.createDeployment, Site.getDeployment, Site.updateDeployment]),
        (false, [Site.createDeployment, Site.getDeployment])] := by
  unfold handleDeployment
  dsimp only
  repeat' split
  all_goals simp_all

theorem handleStatus_shape (sdk : Sdk σ) (v : Vault) (s : σ) :
    ((handleStatus sdk v s).err.isSome,
      (handleStatus sdk v s).trace.map (fun e => e.site)) ∈
      [(true, [Site.listPods]), (true, [Site.listPods, Site.updateStatus]),
        (false, [Site.listPods, Site.updateStatus]), (false, [Site.listPods])] := by
  unfold handleStatus
  dsimp only
  repeat' split
  all_goals simp_all

theorem handleService_shape (sdk : Sdk σ) (v : Vault) (s : σ) :
    ((handleService sdk v s).err.isSome,
      (handleService sdk v s).trace.map (fun e => e.site)) ∈
      [(true, [Site.createService]), (false, [Site.createService])] := by
  unfold handleService
  dsimp only
  repeat' split
  all_goals simp_all

theorem handleConfigurer_shape (env : Env) (sdk : Sdk σ) (v : Vault) (s : σ) :
    ((handleConfigurer env sdk v s).err.isSome,
      (handleConfigurer env sdk v s).trace.map (fun e => e.site)) ∈
      [(true, [Site.createConfigurerDeployment]),
        (true, [Site.createConfigurerDeployment, Site.createConfigMap]),
        (true, [Site.createConfigurerDeployment, Site.createConfigMap, Site.getConfigMap]),
        (true, [Site.createConfigurerDeployment, Site.createConfigMap, Site.getConfigMap,
          Site.updateConfigMap]),
        (false, [Site.createConfigurerDeployment, Site.createConfigMap, Site.getConfigMap,
          Site.updateConfigMap]),
        (false, [Site.createConfigurerDeployment, Site.createConfigMap,
          Site.getConfigMap])] := by
  unfold handleConfigurer
  dsimp only
  repeat' split
  all_goals simp_all

theorem handleEtcd_complete (env : Env) (sdk : Sdk σ) (v : Vault) (s : σ) :
    (handleEtcd env sdk v s).Complete (v.Spec.GetStorageType == "etcd") 69 75 := by
  have key : ∀ t ∈ [(false, false, []), (true, true, []), (true, true, [Site.createEtcdSecret]),
      (true, true, [Site.createEtcdSecret, Site.createEtcdCluster]),
      (true, false, [Site.createEtcdSecret, Site.createEtcdCluster])],
      SitesComplete t.1 69 75 t.2.1 t.2.2 := by decide
  exact key _ (handleEtcd_shape env sdk v s)

theorem handleVaultSecret_complete (etcd : Bool) (env : Env) (sdk : Sdk σ) (v : Vault)
    (s : σ) : (handleVaultSecret env sdk v s).Complete etcd 75 89 := by
  have key : ∀ b : Bool, ∀ t ∈ [(true, []), (true, [Site.createVaultSecret]),
      (false, [Site.createVaultSecret])], SitesComplete b 75 89 t.1 t.2 := by decide
  exact key etcd _ (handleVaultSecret_shape env sdk v s)

theorem handleDeployment_complete (etcd : Bool) (env : Env) (sdk : Sdk σ) (v : Vault)
    (s : σ) : (handleDeployment env sdk v s).Complete etcd 89 113 := by
  have key : ∀ b : Bool, ∀ t ∈ [(true, []), (true, [Site.createDeployment]),
      (true, [Site.createDeployment, Site.getDeployment]),
      (true, [Site.createDeployment, Site.getDeployment, Site.updateDeployment]),
      (false, [Site.createDeployment, Site.getDeployment, Site.updateDeployment]),
      (false, [Site.createDeployment, Site.getDeployment])],
      SitesComplete b 89 113 t.1 t.2 := by decide
  exact key etcd _ (handleDeployment_shape env sdk v s)

theorem handleStatus_complete (etcd : Bool) (sdk : Sdk σ) (v : Vault) (s : σ) :
    (handleStatus sdk v s).Complete etcd 113 130 := by
  have key : ∀ b : Bool, ∀ t ∈ [(true, [Site.listPods]),
      (true, [Site.listPods, Site.updateStatus]),
      (false, [Site.listPods, Site.updateStatus]), (false, [Site.listPods])],
      SitesComplete b 113 130 t.1 t.2 := by decide
  exact key etcd _ (handleStatus_shape sdk v s)

theorem handleService_complete (etcd : Bool) (sdk : Sdk σ) (v : Vault) (s : σ) :
    (handleService sdk v s).Complete etcd 130 138 := by
  have key : ∀ b : Bool, ∀ t ∈ [(true, [Site.createService]), (false, [Site.createService])],
      SitesComplete b 130 138 t.1 t.2 := by decide
  exact key etcd _ (handleService_shape sdk v s)

theorem handleConfigurer_complete (etcd : Bool) (env : Env) (sdk : Sdk σ) (v : Vault)
    (s : σ) : (handleConfigurer env sdk v s).Complete etcd 138 167 := by
  have key : ∀ b : Bool, ∀ t ∈ [(true, [Site.createConfigurerDeployment]),
      (true, [Site.createConfigurerDeployment, Site.createConfigMap]),
      (true, [Site.createConfigurerDeployment, Site.createConfigMap, Site.getConfigMap]),
      (true, [Site.createConfigurerDeployment, Site.createConfigMap, Site.getConfigMap,
        Site.updateConfigMap]),
      (false, [Site.createConfigurerDeployment, Site.createConfigMap, Site.getConfigMap,
        Site.updateConfigMap]),
      (false, [Site.createConfigurerDeployment, Site.createConfigMap, Site.getConfigMap])],
      SitesComplete b 138 167 t.1 t.2 := by decide
  exact key etcd _ (handleConfigurer_shape env sdk v s)

/-- The pass skips no required site. -/
theorem reconcile_complete (env : Env) (sdk : Sdk σ) (v : Vault) (s : σ) :
    (reconcile env sdk v s).Complete (v.Spec.GetStorageType == "etcd") 69 167 := by
  unfold reconcile
  exact Step.complete_andThen (m := 138) (Step.complete_andThen (m := 130)
    (Step.complete_andThen (m := 113) (Step.complete_andThen (m := 89)
      (Step.complete_andThen (m := 75) (handleEtcd_complete env sdk v s)
        (handleVaultSecret_complete _ env sdk))
      (handleDeployment_complete _ env sdk)) (handleStatus_complete _ sdk))
    (handleService_complete _ sdk)) (handleConfigurer_complete _ env sdk)

end PrefixLemmas

/-! ## Lemmas on owner references -/

section OwnerLemmas
variable {σ : Type}

theorem Step.owned_andThen {w : OwnerReference} {r : Step σ} {f : Vault → σ → Step σ}
    (h : r.Owned w) (hf : ∀ v s, asOwner v = w → (f v s).Owned w) :
    (r.andThen f).Owned w := by
  cases hr : r.err with
  | some e =>
    rw [Step.andThen_err hr]
    exact h
  | none =>
    rw [Step.andThen_ok hr]
    obtain ⟨g1, g2⟩ := hf r.v r.store h.1
    refine ⟨g1, ?_⟩
    intro e he o ho
    simp only [List.mem_append] at he
    rcases he with he | he
    · exact h.2 e he o ho
    · exact g2 e he o ho

theorem secretForEtcd_owners (env : Env) (e : EtcdCluster) (sec : Secret)
    (h : secretForEtcd env e = .ok sec) : sec.meta.OwnerReferences = [] := by
  unfold secretForEtcd at h
  dsimp only at h
  split at h
  · cases h
  · simp only [Except.ok.injEq] at h
    rw [← h]

theorem secretForVault_owners (env : Env) (v : Vault) (sec : Secret)
    (h : secretForVault env v = .ok sec) : sec.meta.OwnerReferences = [] := by
  unfold secretForVault at h
  dsimp only at h
  split at h
  · cases h
  · simp only [Except.ok.injEq] at h
    rw [← h]

theorem etcdForVault_owners (env : Env) (v : Vault) (cl : EtcdCluster)
    (h : etcdForVault env v = .ok cl) : cl.meta.OwnerReferences = [asOwner v] := by
  unfold etcdForVault at h
  dsimp only at h
  repeat' split at h
  all_goals (cases h <;> rfl)

theorem deploymentForVault_owners (env : Env) (v : Vault) (dep : Deployment)
    (h : deploymentForVault env v = .ok dep) : dep.meta.OwnerReferences = [asOwner v] := by
  unfold deploymentForVault at h
  dsimp only at h
  repeat' split at h
  all_goals (cases h <;> rfl)

theorem handleEtcd_owned (env : Env) (sdk : Sdk σ) (v : Vault) (s : σ) :
    (handleEtcd env sdk v s).Owned (asOwner v) := by
  refine ⟨by rw [handleEtcd_v], ?_⟩
  unfold handleEtcd
  dsimp only
  split
  · split
    · simp
    · simp
    · rename_i cl hcl
      have h1 := etcdForVault_owners env v cl hcl
      split
      · simp
      · rename_i sec hsec
        have h2 := secretForEtcd_owners env cl sec hsec
        repeat' split
        all_goals simp [Object.GetOwnerReferences, addOwnerRefToObject, h1, h2]
  · simp

theorem handleVaultSecret_owned (env : Env) (sdk : Sdk σ) (v : Vault) (s : σ) :
    (handleVaultSecret env sdk v s).Owned (asOwner v) := by
  refine ⟨by rw [handleVaultSecret_v], ?_⟩
  unfold handleVaultSecret
  dsimp only
  split
  · simp
  · rename_i sec hsec
    have h2 := secretForVault_owners env v sec hsec
    repeat' split
    all_goals simp [Object.GetOwnerReferences, addOwnerRefToObject, h2]

theorem handleDeployment_owned (env : Env) (sdk : Sdk σ) (v : Vault) (s : σ) :
    (handleDeployment env sdk v s).Owned (asOwner v) := by
  refine ⟨by rw [handleDeployment_v], ?_⟩
  unfold handleDeployment
  dsimp only
  split
  · simp
  · simp
  · rename_i dep hdep
    have h1 := deploymentForVault_owners env v dep hdep
    repeat' split
    all_goals simp [Object.GetOwnerReferences, h1]

theorem handleStatus_owned (sdk : Sdk σ) (v : Vault) (s : σ) :
    (handleStatus sdk v s).Owned (asOwner v) := by
  unfold handleStatus
  dsimp only
  repeat' split
  all_goals
    refine ⟨rfl, ?_⟩
    simp

theorem handleService_owned (sdk : Sdk σ) (v : Vault) (s : σ) :
    (handleService sdk v s).Owned (asOwner v) := by
  refine ⟨by rw [handleService_v], ?_⟩
  unfold handleService
  dsimp only
  repeat' split
  all_goals simp [Object.GetOwnerReferences, serviceForVault, addOwnerRefToObject]

theorem handleConfigurer_owned (env : Env) (sdk : Sdk σ) (v : Vault) (s : σ) :
    (handleConfigurer env sdk v s).Owned (asOwner v) := by
  refine ⟨by rw [handleConfigurer_v], ?_⟩
  unfold handleConfigurer
  dsimp only
  repeat' split
  all_goals simp [Object.GetOwnerReferences, deploymentForConfigurer, configMapForConfigurer,
    addOwnerRefToObject]

/-- Every object the pass creates is owned by the descriptor alone. -/
theorem reconcile_owned (env : Env) (sdk : Sdk σ) (v : Vault) (s : σ) :
    (reconcile env sdk v s).Owned (asOwner v) := by
  unfold reconcile
  refine Step.owned_andThen (Step.owned_andThen (Step.owned_andThen (Step.owned_andThen
    (Step.owned_andThen (handleEtcd_owned env sdk v s) ?_) ?_) ?_) ?_) ?_
  · intro v' s' hv
    rw [← hv]
    exact handleVaultSecret_owned env sdk v' s'
  · intro v' s' hv
    rw [← hv]
    exact handleDeployment_owned env sdk v' s'
  · intro v' s' hv
    rw [← hv]
    exact handleStatus_owned sdk v' s'
  · intro v' s' hv
    rw [← hv]
    exact handleService_owned sdk v' s'
  · intro v' s' hv
    rw [← hv]
    exact handleConfigurer_owned env sdk v' s'

end OwnerLemmas

/-! ## Lemmas on the status block -/

section StatusBlockLemmas
variable {σ : Type}

theorem getPodNames_foldl (pods : List Pod) (acc : GoSlice String) :
    pods.foldl (fun podNames pod => GoSlice.append podNames pod.Name) acc
      = if pods = [] then acc else some (acc.getD [] ++ pods.map (fun p => p.Name)) := by
  induction pods generalizing acc with
  | nil => simp
  | cons p rest ih =>
    rw [List.foldl_cons, ih]
    by_cases hr : rest = []
    · simp [hr, GoSlice.append]
    · simp [hr, GoSlice.append]

/-- The pod names are the nil slice when no pod is listed, and otherwise the names of the
listed pods in list order. -/
theorem getPodNames_eq (pods : List Pod) :
    getPodNames pods = if pods = [] then none else some (pods.map (fun p => p.Name)) := by
  unfold getPodNames
  rw [getPodNames_foldl]
  simp

/-- The status block after a successful list: the update is issued exactly when the names
are not deeply equal to the recorded nodes, and carries the names. -/
theorem handleStatus_of_list (sdk : Sdk σ) (v : Vault) (s : σ) (items : List Pod)
    (h : (sdk.List v.Namespace (labelSelectorForVault v.Name) s).1 = .ok items) :
    ((∃ e ∈ (handleStatus sdk v s).trace, e.site = .updateStatus) ↔
      getPodNames items ≠ v.Status.Nodes) ∧
    (handleStatus sdk v s).v.Status.Nodes = getPodNames items ∧
    (∀ e ∈ (handleStatus sdk v s).trace, e.site = .updateStatus →
      ∃ v', e.call = .Update (.vault v') ∧ v'.Status.Nodes = getPodNames items) := by
  unfold handleStatus
  simp only [h]
  by_cases hn : getPodNames items = v.Status.Nodes
  · simp [hn]
  · rw [if_pos hn]
    generalize (sdk.Update (Object.vault _) _).1 = u
    cases u <;> simp [hn]

theorem beforeStatus_v (env : Env) (sdk : Sdk σ) (v : Vault) (s : σ) :
    (beforeStatus env sdk v s).v = v := by
  unfold beforeStatus
  cases h : ((handleEtcd env sdk v s).andThen (handleVaultSecret env sdk)).err with
  | some e => rw [Step.andThen_err h]; exact secrets_v env sdk v s
  | none =>
    rw [Step.andThen_ok h]
    show (handleDeployment env sdk _ _).v = v
    rw [handleDeployment_v, secrets_v]

theorem beforeStatus_good (env : Env) (sdk : Sdk σ) (v : Vault) (s : σ) :
    (beforeStatus env sdk v s).Good 69 113 :=
  Step.good_andThen (m := 89) (secrets_good env sdk v s) (handleDeployment_good env sdk)
    (by decide) (by decide)

/-- A block that keeps the descriptor, run after `r`, leaves the trace of `r` in front and
adds only calls of its own. -/
theorem Step.andThen_tail {r : Step σ} {f : Vault → σ → Step σ} {P : Entry → Prop}
    (hv : ∀ v s, (f v s).v = v) (hP : ∀ v s, ∀ e ∈ (f v s).trace, P e) :
    (r.andThen f).v = r.v ∧
    ∃ t, (r.andThen f).trace = r.trace ++ t ∧ ∀ e ∈ t, P e := by
  cases hr : r.err with
  | some e =>
    rw [Step.andThen_err hr]
    exact ⟨rfl, [], by simp, by simp⟩
  | none =>
    rw [Step.andThen_ok hr]
    exact ⟨hv _ _, _, rfl, hP _ _⟩

/-- When the pass reaches the status block, its update of the status is the one of that
block, and the descriptor it hands back is the one that block left. -/
theorem reconcile_status (env : Env) (sdk : Sdk σ) (v : Vault) (s : σ)
    (hp : (beforeStatus env sdk v s).err = none) :
    (reconcile env sdk v s).v = (handleStatus sdk v (beforeStatus env sdk v s).store).v ∧
    ∀ e, e.site = .updateStatus →
      (e ∈ (reconcile env sdk v s).trace ↔
        e ∈ (handleStatus sdk v (beforeStatus env sdk v s).store).trace) := by
  have hgood := beforeStatus_good env sdk v s
  have hq : (beforeStatus env sdk v s).andThen (handleStatus sdk)
      = { err := (handleStatus sdk v (beforeStatus env sdk v s).store).err,
          store := (handleStatus sdk v (beforeStatus env sdk v s).store).store,
          trace := (beforeStatus env sdk v s).trace
            ++ (handleStatus sdk v (beforeStatus env sdk v s).store).trace,
          v := (handleStatus sdk v (beforeStatus env sdk v s).store).v,
          panicked := (handleStatus sdk v (beforeStatus env sdk v s).store).panicked } := by
    rw [Step.andThen_ok hp, beforeStatus_v]
  obtain ⟨v5, t5, ht5, hP5⟩ := Step.andThen_tail
    (r := (beforeStatus env sdk v s).andThen (handleStatus sdk)) (f := handleService sdk)
    (P := fun e => 130 ≤ e.site.line) (handleService_v sdk)
    (fun v' s' e he => ((handleService_good sdk v' s').range e he).1)
  obtain ⟨v6, t6, ht6, hP6⟩ := Step.andThen_tail
    (r := ((beforeStatus env sdk v s).andThen (handleStatus sdk)).andThen (handleService sdk))
    (f := handleConfigurer env sdk)
    (P := fun e => 138 ≤ e.site.line) (handleConfigurer_v env sdk)
    (fun v' s' e he => ((handleConfigurer_good env sdk v' s').range e he).1)
  have hrec : reconcile env sdk v s
      = (((beforeStatus env sdk v s).andThen (handleStatus sdk)).andThen
          (handleService sdk)).andThen (handleConfigurer env sdk) := rfl
  rw [hrec]
  refine ⟨by rw [v6, v5, hq], ?_⟩
  intro e he
  rw [ht6, ht5, hq]
  simp only [List.mem_append]
  constructor
  · rintro (((h | h) | h) | h)
    · have := (hgood.range e h).2
      rw [he] at this
      simp [Site.line] at this
    · exact h
    · have := hP5 e h
      rw [he] at this
      simp [Site.line] at this
    · have := hP6 e h
      rw [he] at this
      simp [Site.line] at this
  · intro h
    exact Or.inl (Or.inl (Or.inr h))

end StatusBlockLemmas

/-! ## Lemmas on what follows a create, and on panics -/

section ContinueLemmas
variable {σ : Type}

theorem Step.continues_andThen {X : Site → Option String → Bool → Prop} {a m b : Nat}
    {r : Step σ} {f : Vault → σ → Step σ} (y0 : Site)
    (hgood : r.Good a m) (h : r.Continues X m) (hf : (f r.v r.store).Continues X b)
    (hX : ∀ x p, ¬ X x none p)
    (hstart : ∀ e, (f r.v r.store).trace.head? = some e → e.site = y0)
    (hempty : (f r.v r.store).trace = [] → ∀ x : Site, x.afterCreate = some y0 →
      X x (f r.v r.store).err (f r.v r.store).panicked)
    (hy0 : ∀ x y : Site, x.afterCreate = some y → x.line < m → m ≤ y.line → y = y0) :
    (r.andThen f).Continues X b := by
  cases hr : r.err with
  | some e =>
    rw [Step.andThen_err hr]
    refine ⟨h.1, ?_⟩
    intro e' hl hf' y hy
    rcases h.2 e' hl hf' y hy with ⟨h1, _⟩ | h1
    · rw [hr] at h1
      cases h1
    · exact Or.inr h1
  | none =>
    rw [Step.andThen_ok hr]
    have hclean := hgood.okClean hr
    have hlink : ∀ e, r.trace.getLast? = some e → ∀ y, e.site.afterCreate = some y →
        y = y0 := by
      intro e hl y hy
      have hmem := List.mem_of_getLast?_eq_some hl
      rcases h.2 e hl (hclean e hmem) y hy with ⟨_, h2⟩ | h2
      · exact hy0 e.site y hy (hgood.range e hmem).2 h2
      · rw [hr] at h2
        exact absurd h2 (hX _ _)
    refine ⟨?_, ?_⟩
    · show (r.trace ++ (f r.v r.store).trace).Chain' NextSite
      rw [List.chain'_append]
      refine ⟨h.1, hf.1, ?_⟩
      intro x hx y hy z hz
      rw [hstart y hy]
      exact (hlink x hx z hz).symm
    · intro e hl hfail y hy
      simp only at hl ⊢
      by_cases hnil : (f r.v r.store).trace = []
      · rw [hnil, List.append_nil] at hl
        have hy0' := hlink e hl y hy
        subst hy0'
        exact Or.inr (hempty hnil e.site hy)
      · rw [List.getLast?_append_of_ne_nil _ hnil] at hl
        exact hf.2 e hl hfail y hy

theorem handleEtcd_continues (X : Site → Option String → Bool → Prop) (env : Env)
    (sdk : Sdk σ) (v : Vault) (s : σ) : (handleEtcd env sdk v s).Continues X 75 := by
  unfold handleEtcd
  dsimp only
  repeat' split
  all_goals simp_all [Step.Continues, NextSite, Site.afterCreate, Entry.failed, Site.line]

theorem handleVaultSecret_continues (X : Site → Option String → Bool → Prop) (env : Env)
    (sdk : Sdk σ) (v : Vault) (s : σ) : (handleVaultSecret env sdk v s).Continues X 89 := by
  unfold handleVaultSecret
  dsimp only
  repeat' split
  all_goals simp_all [Step.Continues, NextSite, Site.afterCreate, Entry.failed, Site.line]

theorem handleDeployment_continues (X : Site → Option String → Bool → Prop) (env : Env)
    (sdk : Sdk σ) (v : Vault) (s : σ) : (handleDeployment env sdk v s).Continues X 113 := by
  unfold handleDeployment
  dsimp only
  repeat' split
  all_goals simp_all [Step.Continues, NextSite, Site.afterCreate, Entry.failed, Site.line]

theorem handleStatus_continues (X : Site → Option String → Bool → Prop)
    (sdk : Sdk σ) (v : Vault) (s : σ) : (handleStatus sdk v s).Continues X 130 := by
  unfold handleStatus
  dsimp only
  repeat' split
  all_goals simp_all [Step.Continues, NextSite, Site.afterCreate, Entry.failed, Site.line]

theorem handleService_continues (X : Site → Option String → Bool → Prop)
    (sdk : Sdk σ) (v : Vault) (s : σ) : (handleService sdk v s).Continues X 138 := by
  unfold handleService
  dsimp only
  repeat' split
  all_goals simp_all [Step.Continues, NextSite, Site.afterCreate, Entry.failed, Site.line]

theorem handleConfigurer_continues (X : Site → Option String → Bool → Prop) (env : Env)
    (sdk : Sdk σ) (v : Vault) (s : σ) : (handleConfigurer env sdk v s).Continues X 167 := by
  unfold handleConfigurer
  dsimp only
  repeat' split
  all_goals simp_all [Step.Continues, NextSite, Site.afterCreate, Entry.failed, Site.line]

/-! ### How each block starts -/

theorem handleVaultSecret_start (env : Env) (sdk : Sdk σ) (v : Vault) (s : σ) :
    (∀ e, (handleVaultSecret env sdk v s).trace.head? = some e →
      e.site = .createVaultSecret) ∧
    ((handleVaultSecret env sdk v s).trace = [] →
      (handleVaultSecret env sdk v s).panicked = false ∧
      ∃ m, secretForVault env v = .error m ∧
        (handleVaultSecret env sdk v s).err
          = some ("failed to fabricate secret for vault: " ++ m)) := by
  unfold handleVaultSecret
  dsimp only
  repeat' split
  all_goals simp_all

theorem handleDeployment_start (env : Env) (sdk : Sdk σ) (v : Vault) (s : σ) :
    (∀ e, (handleDeployment env sdk v s).trace.head? = some e →
      e.site = .createDeployment) ∧
    ((handleDeployment env sdk v s).trace = [] →
      ((handleDeployment env sdk v s).panicked = false ∧
        ∃ m, deploymentForVault env v = .error m ∧
          (handleDeployment env sdk v s).err
            = some ("failed to fabricate deployment: " ++ m)) ∨
      ((handleDeployment env sdk v s).panicked = true ∧
        ∃ value, deploymentForVault env v = .panic value ∧
          (handleDeployment env sdk v s).err = some value)) := by
  unfold handleDeployment
  dsimp only
  repeat' split
  all_goals simp_all

theorem handleStatus_start (sdk : Sdk σ) (v : Vault) (s : σ) :
    (∀ e, (handleStatus sdk v s).trace.head? = some e → e.site = .listPods) ∧
    (handleStatus sdk v s).trace ≠ [] := by
  unfold handleStatus
  dsimp only
  repeat' split
  all_goals simp_all

theorem handleService_start (sdk : Sdk σ) (v : Vault) (s : σ) :
    (∀ e, (handleService sdk v s).trace.head? = some e → e.site = .createService) ∧
    (handleService sdk v s).trace ≠ [] := by
  unfold handleService
  dsimp only
  repeat' split
  all_goals simp_all

theorem handleConfigurer_start (env : Env) (sdk : Sdk σ) (v : Vault) (s : σ) :
    (∀ e, (handleConfigurer env sdk v s).trace.head? = some e →
      e.site = .createConfigurerDeployment) ∧
    (handleConfigurer env sdk v s).trace ≠ [] := by
  unfold handleConfigurer
  dsimp only
  repeat' split
  all_goals simp_all

/-- After each create that did not fail, the pass goes on with the call at the next site,
unless the fabricator of the next step ended it. -/
theorem reconcile_continues (env : Env) (sdk : Sdk σ) (v : Vault) (s : σ) :
    (reconcile env sdk v s).Continues (FabricatorEnds env v) 167 := by
  have hX : ∀ x p, ¬ FabricatorEnds env v x none p := by
    intro x p h
    rcases h with ⟨_, _, m, _, h⟩ | ⟨_, _, m, _, h⟩ | ⟨_, _, value, _, h⟩ <;> cases h
  have h2 : ((handleEtcd env sdk v s).andThen (handleVaultSecret env sdk)).Continues
      (FabricatorEnds env v) 89 := by
    refine Step.continues_andThen Site.createVaultSecret (handleEtcd_good env sdk v s)
      (handleEtcd_continues _ env sdk v s) (handleVaultSecret_continues _ env sdk _ _) hX
      (handleVaultSecret_start env sdk _ _).1 ?_ (by decide)
    intro hnil x hx
    rw [handleEtcd_v] at hnil ⊢
    obtain ⟨hp, m, hm, herr⟩ := (handleVaultSecret_start env sdk v _).2 hnil
    have hx' : x = .createEtcdCluster := by
      revert hx
      cases x <;> simp [Site.afterCreate]
    exact Or.inl ⟨hx', hp, m, hm, herr⟩
  have h3 : (((handleEtcd env sdk v s).andThen (handleVaultSecret env sdk)).andThen
      (handleDeployment env sdk)).Continues (FabricatorEnds env v) 113 := by
    refine Step.continues_andThen Site.createDeployment (secrets_good env sdk v s) h2
      (handleDeployment_continues _ env sdk _ _) hX
      (handleDeployment_start env sdk _ _).1 ?_ (by decide)
    intro hnil x hx
    rw [secrets_v] at hnil ⊢
    have hx' : x = .createVaultSecret := by
      revert hx
      cases x <;> simp [Site.afterCreate]
    rcases (handleDeployment_start env sdk v _).2 hnil with ⟨hp, m, hm, herr⟩ | ⟨hp, w, hw, herr⟩
    · exact Or.inr (Or.inl ⟨hx', hp, m, hm, herr⟩)
    · exact Or.inr (Or.inr ⟨hx', hp, w, hw, herr⟩)
  have g3 : (((handleEtcd env sdk v s).andThen (handleVaultSecret env sdk)).andThen
      (handleDeployment env sdk)).Good 69 113 :=
    Step.good_andThen (m := 89) (secrets_good env sdk v s) (handleDeployment_good env sdk)
      (by decide) (by decide)
  have h4 := Step.continues_andThen Site.listPods g3 h3
    (handleStatus_continues (FabricatorEnds env v) sdk _ _) hX
    (handleStatus_start sdk _ _).1
    (fun hnil => absurd hnil (handleStatus_start sdk _ _).2) (by decide)
  have g4 := Step.good_andThen (m := 113) g3 (handleStatus_good sdk) (by decide) (by decide)
  have h5 := Step.continues_andThen Site.createService g4 h4
    (handleService_continues (FabricatorEnds env v) sdk _ _) hX
    (handleService_start sdk _ _).1
    (fun hnil => absurd hnil (handleService_start sdk _ _).2) (by decide)
  have g5 := Step.good_andThen (m := 130) g4 (handleService_good sdk) (by decide) (by decide)
  exact Step.continues_andThen Site.createConfigurerDeployment g5 h5
    (handleConfigurer_continues (FabricatorEnds env v) env sdk _ _) hX
    (handleConfigurer_start env sdk _ _).1
    (fun hnil => absurd hnil (handleConfigurer_start env sdk _ _).2) (by decide)

/-! ### Panics -/

theorem deploymentForVault_panic (env : Env) (v : Vault) (value : String)
    (h : deploymentForVault env v = .panic value) :
    v.Spec.GetStorageType = "etcd" ∧ v.Spec.StorageAddress.assertString = .error value := by
  unfold deploymentForVault at h
  by_cases hval : (v.Spec.Size > 1 && !v.Spec.HasHAStorage) = true
  · simp [hval] at h
  · by_cases hetcd : v.Spec.GetStorageType = "etcd"
    · cases hassert : v.Spec.StorageAddress.assertString with
      | error w =>
        simp [hval, hetcd, hassert] at h
        exact ⟨hetcd, by rw [h]⟩
      | ok a =>
        cases hP : env.ParseHostname a <;> cases hM : env.MarshalOwner (asOwner v) <;>
          simp [hval, hetcd, hassert, hP, hM] at h
    · cases hM : env.MarshalOwner (asOwner v) <;> simp [hval, hetcd, hM] at h

theorem etcdForVault_panic_iff (env : Env) (v : Vault) :
    (∃ value, etcdForVault env v = .panic value) ↔ ¬ v.hasAddress := by
  unfold etcdForVault Vault.hasAddress
  cases h : v.Spec.StorageAddress with
  | string a =>
    simp only [Value.assertString]
    constructor
    · rintro ⟨value, hv⟩
      split at hv <;> cases hv
    · intro hno
      exact absurd ⟨a, rfl⟩ hno
  | other t =>
    simp [Value.assertString]

theorem etcdForVault_of_assert (env : Env) (v : Vault) (value : String)
    (h : v.Spec.StorageAddress.assertString = .error value) :
    etcdForVault env v = .panic value := by
  simp [etcdForVault, h]

theorem reconcile_of_etcd_panic (env : Env) (sdk : Sdk σ) (v : Vault) (s : σ)
    (value : String) (hetcd : v.Spec.GetStorageType = "etcd")
    (h : etcdForVault env v = .panic value) :
    reconcile env sdk v s = ⟨some value, s, [], v, true⟩ := by
  have h1 : handleEtcd env sdk v s = ⟨some value, s, [], v, true⟩ := by
    simp [handleEtcd, hetcd, h]
  unfold reconcile
  rw [h1]
  simp [Step.andThen]

/-- The first block panics exactly on etcd storage without a string address. -/
theorem handleEtcd_panicked (env : Env) (sdk : Sdk σ) (v : Vault) (s : σ) :
    (handleEtcd env sdk v s).panicked = true ↔
      v.Spec.GetStorageType = "etcd" ∧ ¬ v.hasAddress := by
  rw [← etcdForVault_panic_iff env v]
  unfold handleEtcd
  dsimp only
  repeat' split
  all_goals simp_all

theorem handleVaultSecret_panicked (env : Env) (sdk : Sdk σ) (v : Vault) (s : σ) :
    (handleVaultSecret env sdk v s).panicked = false := by
  unfold handleVaultSecret
  dsimp only
  repeat' split
  all_goals rfl

/-- The first two blocks panic exactly on etcd storage without a string address. -/
theorem secrets_panicked (env : Env) (sdk : Sdk σ) (v : Vault) (s : σ) :
    ((handleEtcd env sdk v s).andThen (handleVaultSecret env sdk)).panicked = true ↔
      v.Spec.GetStorageType = "etcd" ∧ ¬ v.hasAddress := by
  rw [← handleEtcd_panicked env sdk v s]
  cases h : (handleEtcd env sdk v s).err with
  | some e => rw [Step.andThen_err h]
  | none =>
    rw [Step.andThen_ok h]
    have hno : (handleEtcd env sdk v s).panicked = false := by
      cases hp : (handleEtcd env sdk v s).panicked with
      | false => rfl
      | true =>
        have := (handleEtcd_good env sdk v s).panicEnds hp
        rw [h] at this
        cases this
    simp [handleVaultSecret_panicked, hno]

/-- The calls of a pass that panics in its first block: none. -/
theorem reconcile_of_no_address (env : Env) (sdk : Sdk σ) (v : Vault) (s : σ)
    (hetcd : v.Spec.GetStorageType = "etcd") (hno : ¬ v.hasAddress) :
    (reconcile env sdk v s).panicked = true ∧ (reconcile env sdk v s).trace = [] ∧
    (reconcile env sdk v s).store = s ∧
    ∃ value, (reconcile env sdk v s).err = some value := by
  obtain ⟨value, hv⟩ := (etcdForVault_panic_iff env v).mpr hno
  rw [reconcile_of_etcd_panic env sdk v s value hetcd hv]
  exact ⟨rfl, rfl, rfl, value, rfl⟩

/-- The first two blocks go on when no call of theirs failed and their fabricators
succeeded. -/
theorem secrets_err_none (env : Env) (sdk : Sdk σ) (v : Vault) (s : σ)
    (hclean : ∀ e ∈ ((handleEtcd env sdk v s).andThen (handleVaultSecret env sdk)).trace,
      e.failed = false)
    (hetcd : v.Spec.GetStorageType = "etcd" →
      ∃ c sec, etcdForVault env v = .ok c ∧ secretForEtcd env c = .ok sec)
    (hsec : ∃ sec, secretForVault env v = .ok sec) :
    ((handleEtcd env sdk v s).andThen (handleVaultSecret env sdk)).err = none ∧
    ((handleEtcd env sdk v s).andThen (handleVaultSecret env sdk)).panicked = false := by
  have hp : ((handleEtcd env sdk v s).andThen (handleVaultSecret env sdk)).panicked
      = false := by
    cases hpp : ((handleEtcd env sdk v s).andThen (handleVaultSecret env sdk)).panicked with
    | false => rfl
    | true =>
      exfalso
      obtain ⟨h1, h2⟩ := (secrets_panicked env sdk v s).mp hpp
      obtain ⟨value, hv⟩ := (etcdForVault_panic_iff env v).mpr h2
      obtain ⟨c, sec, hc, _⟩ := hetcd h1
      rw [hc] at hv
      cases hv
  refine ⟨?_, hp⟩
  cases hperr : ((handleEtcd env sdk v s).andThen (handleVaultSecret env sdk)).err with
  | none => rfl
  | some e =>
    exfalso
    rcases secrets_error_cause env sdk v s e hperr hp with
      ⟨x, hx, hf⟩ | ⟨h1, ⟨m, hm⟩ | ⟨c, m, hc, hm⟩⟩ | ⟨m, hm⟩
    · rw [hclean x hx] at hf
      cases hf
    · obtain ⟨c, sec, hc, _⟩ := hetcd h1
      rw [hc] at hm
      cases hm
    · obtain ⟨c', sec, hc', hs'⟩ := hetcd h1
      rw [hc] at hc'
      cases hc'
      rw [hs'] at hm
      cases hm
    · obtain ⟨sec, hs⟩ := hsec
      rw [hs] at hm
      cases hm

/-- The first block goes on when no call of its own failed and its fabricators succeeded. -/
theorem handleEtcd_err_none (env : Env) (sdk : Sdk σ) (v : Vault) (s : σ)
    (hclean : ∀ e ∈ (handleEtcd env sdk v s).trace, e.failed = false)
    (hetcd : v.Spec.GetStorageType = "etcd" →
      ∃ c sec, etcdForVault env v = .ok c ∧ secretForEtcd env c = .ok sec) :
    (handleEtcd env sdk v s).err = none := by
  cases herr : (handleEtcd env sdk v s).err with
  | none => rfl
  | some e =>
    exfalso
    have hp : (handleEtcd env sdk v s).panicked = false := by
      cases hpp : (handleEtcd env sdk v s).panicked with
      | false => rfl
      | true =>
        exfalso
        obtain ⟨h1, h2⟩ := (handleEtcd_panicked env sdk v s).mp hpp
        obtain ⟨value, hv⟩ := (etcdForVault_panic_iff env v).mpr h2
        obtain ⟨c, sec, hc, _⟩ := hetcd h1
        rw [hc] at hv
        cases hv
    rcases handleEtcd_error_cause env sdk v s e herr hp with
      ⟨x, hx, hf⟩ | ⟨h1, ⟨m, hm⟩ | ⟨c, m, hc, hm⟩⟩
    · rw [hclean x hx] at hf
      cases hf
    · obtain ⟨c, sec, hc, _⟩ := hetcd h1
      rw [hc] at hm
      cases hm
    · obtain ⟨c', sec, hc', hs'⟩ := hetcd h1
      rw [hc] at hc'
      cases hc'
      rw [hs'] at hm
      cases hm

/-- When the Vault TLS secret cannot be fabricated and the etcd step went through, the pass
returns the error of line 83. -/
theorem reconcile_secret_error_exact (env : Env) (sdk : Sdk σ) (v : Vault) (s : σ)
    (msg : String) (h : secretForVault env v = .error msg)
    (hclean : ∀ e ∈ (reconcile env sdk v s).trace, e.failed = false)
    (hetcd : v.Spec.GetStorageType = "etcd" →
      ∃ c sec, etcdForVault env v = .ok c ∧ secretForEtcd env c = .ok sec) :
    (reconcile env sdk v s).err = some ("failed to fabricate secret for vault: " ++ msg) ∧
    (reconcile env sdk v s).panicked = false := by
  have h2 : ∀ s', handleVaultSecret env sdk v s'
      = ⟨some ("failed to fabricate secret for vault: " ++ msg), s', [], v, false⟩ := by
    intro s'
    simp [handleVaultSecret, h]
  have h1 : (handleEtcd env sdk v s).err = none := by
    apply handleEtcd_err_none env sdk v s _ hetcd
    intro e he
    apply hclean
    cases herr : (handleEtcd env sdk v s).err with
    | some x =>
      unfold reconcile
      simp only [Step.andThen_err herr]
      exact he
    | none =>
      have h3 : (handleEtcd env sdk v s).andThen (handleVaultSecret env sdk)
          = ⟨some ("failed to fabricate secret for vault: " ++ msg),
              (handleEtcd env sdk v s).store, (handleEtcd env sdk v s).trace, v, false⟩ := by
        rw [Step.andThen_ok herr, handleEtcd_v, h2]
        simp
      unfold reconcile
      rw [h3]
      simp only [Step.andThen]
      exact he
  have h3 : (handleEtcd env sdk v s).andThen (handleVaultSecret env sdk)
      = ⟨some ("failed to fabricate secret for vault: " ++ msg),
          (handleEtcd env sdk v s).store, (handleEtcd env sdk v s).trace, v, false⟩ := by
    rw [Step.andThen_ok h1, handleEtcd_v, h2]
    simp
  unfold reconcile
  rw [h3]
  simp [Step.andThen]

/-- When the Vault deployment cannot be fabricated and the steps before went through, the
pass returns the error of line 96. -/
theorem reconcile_deployment_error_exact (env : Env) (sdk : Sdk σ) (v : Vault) (s : σ)
    (msg : String) (h : deploymentForVault env v = .error msg)
    (hclean : ∀ e ∈ (reconcile env sdk v s).trace, e.failed = false)
    (hetcd : v.Spec.GetStorageType = "etcd" →
      ∃ c sec, etcdForVault env v = .ok c ∧ secretForEtcd env c = .ok sec)
    (hsec : ∃ sec, secretForVault env v = .ok sec) :
    (reconcile env sdk v s).err = some ("failed to fabricate deployment: " ++ msg) ∧
    (reconcile env sdk v s).panicked = false := by
  obtain ⟨ht, _, herr, hpan⟩ := reconcile_of_deployment_error env sdk v s msg h
  rw [ht] at hclean
  obtain ⟨h1, h2⟩ := secrets_err_none env sdk v s hclean hetcd hsec
  exact ⟨by rw [herr, h1], by rw [hpan, h2]⟩

/-- What follows a create that did not fail, entry by entry: the call at the next site, or
the error return of the fabricator of the next step. -/
theorem reconcile_next (env : Env) (sdk : Sdk σ) (v : Vault) (s : σ)
    (pre : List Entry) (e : Entry) (post : List Entry) (y : Site)
    (ht : (reconcile env sdk v s).trace = pre ++ e :: post) (hf : e.failed = false)
    (hy : e.site.afterCreate = some y) :
    (∃ e' rest, post = e' :: rest ∧ e'.site = y) ∨
    (post = [] ∧ (reconcile env sdk v s).panicked = false ∧
      ((e.site = .createEtcdCluster ∧ ∃ m, secretForVault env v = .error m ∧
          (reconcile env sdk v s).err
            = some ("failed to fabricate secret for vault: " ++ m)) ∨
        (e.site = .createVaultSecret ∧ ∃ m, deploymentForVault env v = .error m ∧
          (reconcile env sdk v s).err
            = some ("failed to fabricate deployment: " ++ m)))) := by
  obtain ⟨hchain, hlast⟩ := reconcile_continues env sdk v s
  cases post with
  | cons e' rest =>
    left
    rw [ht] at hchain
    exact ⟨e', rest, rfl, chain_next hchain y hy⟩
  | nil =>
    right
    have hl : (reconcile env sdk v s).trace.getLast? = some e := by
      rw [ht]
      simp
    rcases hlast e hl hf y hy with ⟨_, h2⟩ | h2
    · exfalso
      revert h2
      revert hy
      cases e.site <;> cases y <;> simp [Site.afterCreate, Site.line]
    · rcases h2 with ⟨h1, hp, m, hm, herr⟩ | ⟨h1, hp, m, hm, herr⟩ | ⟨_, _, w, hw, _⟩
      · exact ⟨rfl, hp, Or.inl ⟨h1, m, hm, herr⟩⟩
      · exact ⟨rfl, hp, Or.inr ⟨h1, m, hm, herr⟩⟩
      · exfalso
        obtain ⟨hetcd, hassert⟩ := deploymentForVault_panic env v w hw
        have := reconcile_of_etcd_panic env sdk v s w hetcd
          (etcdForVault_of_assert env v w hassert)
        rw [this] at ht
        simp at ht

end ContinueLemmas

/-! ## Claims on the reconcile handler -/

section OperatorClaims
variable {σ : Type}

/-- C1, at an input on which the code breaks it. The descriptor `etcdWithoutAddress` asks for
three replicas on etcd storage without the HA flag, and its storage stanza holds no address.
`deploymentForVault` returns the validation error for it, as the claim says. But `Handle` on
a non-delete event for it returns no error: the unchecked assertion
`storage["address"].(string)` of `etcdForVault` (line 484) panics on the nil interface, before
`deploymentForVault` is reached and before any call is issued, so the store is left as it
was. -/
theorem Handle_panics_before_validation :
    etcdWithoutAddress.Spec.Size > 1 ∧ etcdWithoutAddress.Spec.HasHAStorage = false ∧
    deploymentForVault sampleEnv etcdWithoutAddress = .error haValidationError ∧
    (Handle sampleEnv (kube selectAll) ⟨.vault etcdWithoutAddress, false⟩
      emptyCluster).panicked = true ∧
    (Handle sampleEnv (kube selectAll) ⟨.vault etcdWithoutAddress, false⟩ emptyCluster).err
      = some "interface conversion: interface {} is nil, not string" ∧
    (Handle sampleEnv (kube selectAll) ⟨.vault etcdWithoutAddress, false⟩
      emptyCluster).trace.map (fun e => e.site) = [] ∧
    (Handle sampleEnv (kube selectAll) ⟨.vault etcdWithoutAddress, false⟩
      emptyCluster).store.objects.map Object.key = [] := by
  refine ⟨by decide, rfl, ?_, ?_, ?_, ?_, ?_⟩ <;> decide

/-- C2 fails as stated: for two replicas on file storage against the empty store, `Handle`
returns the validation error, yet before returning it has issued one create, that of the
Vault TLS secret, which succeeded and left a new object in the store. -/
theorem validation_error_after_secret_created :
    twoReplicasOnFile.Spec.Size > 1 ∧ twoReplicasOnFile.Spec.HasHAStorage = false ∧
    (Handle sampleEnv (kube selectAll) ⟨.vault twoReplicasOnFile, false⟩ emptyCluster).err
      = some "failed to fabricate deployment: More than 1 replicas are not supported without HA storage backend" ∧
    (Handle sampleEnv (kube selectAll) ⟨.vault twoReplicasOnFile, false⟩
      emptyCluster).panicked = false ∧
    (Handle sampleEnv (kube selectAll) ⟨.vault twoReplicasOnFile, false⟩ emptyCluster).trace.map
      (fun e => (e.site, e.call.kind, e.err)) = [(.createVaultSecret, .Create, none)] ∧
    (Handle sampleEnv (kube selectAll) ⟨.vault twoReplicasOnFile, false⟩
      emptyCluster).store.objects.map Object.key = [(.Secret, "default", "vault-tls")] ∧
    emptyCluster.objects.map Object.key = [] := by
  refine ⟨by decide, rfl, ?_, ?_, ?_, ?_, rfl⟩
  · decide
  · decide
  · decide
  · decide

/-- C2, amended. For every descriptor with replica count > 1 and no HA storage whose storage
stanza, for etcd storage, holds a string address, `Handle` on a non-delete event returns an
error (it does not panic), and that error is the validation error whenever no call failed
and the secrets (and the etcd cluster, for etcd storage) could be fabricated; the calls then
are exactly the creates of the etcd TLS secret and the etcd cluster (etcd storage only) and
of the Vault TLS secret. In any case `Handle` issues at most three calls before returning, in
source order, each a create of the etcd TLS secret, of the etcd cluster or of the Vault TLS
secret, the first two for etcd storage only; no deployment, service or config map is
created. -/
theorem validation_error_after_at_most_three_creates (env : Env) (sdk : Sdk σ) (v : Vault)
    (s : σ) (hsize : v.Spec.Size > 1) (hha : v.Spec.HasHAStorage = false)
    (haddr : v.Spec.GetStorageType = "etcd" → v.hasAddress) :
    (Handle env sdk ⟨.vault v, false⟩ s).panicked = false ∧
    (∃ msg, (Handle env sdk ⟨.vault v, false⟩ s).err = some msg) ∧
    ((∀ e ∈ (Handle env sdk ⟨.vault v, false⟩ s).trace, e.failed = false) →
      (v.Spec.GetStorageType = "etcd" →
        ∃ c sec, etcdForVault env v = .ok c ∧ secretForEtcd env c = .ok sec) →
      (∃ sec, secretForVault env v = .ok sec) →
      (Handle env sdk ⟨.vault v, false⟩ s).err
        = some ("failed to fabricate deployment: " ++ haValidationError) ∧
      (Handle env sdk ⟨.vault v, false⟩ s).trace.map (fun e => e.site)
        = (if v.Spec.GetStorageType = "etcd" then
            [.createEtcdSecret, .createEtcdCluster, .createVaultSecret]
          else [.createVaultSecret])) ∧
    (Handle env sdk ⟨.vault v, false⟩ s).trace.length ≤ 3 ∧
    (Handle env sdk ⟨.vault v, false⟩ s).trace.Pairwise
      (fun x y => x.site.line < y.site.line) ∧
    (∀ e ∈ (Handle env sdk ⟨.vault v, false⟩ s).trace,
      (e.site = .createEtcdSecret ∨ e.site = .createEtcdCluster ∨
        e.site = .createVaultSecret) ∧
      ∃ o, e.call = .Create o ∧ (o.kind = .Secret ∨ o.kind = .EtcdCluster)) ∧
    (∀ e ∈ (Handle env sdk ⟨.vault v, false⟩ s).trace,
      e.site = .createEtcdSecret ∨ e.site = .createEtcdCluster →
        v.Spec.GetStorageType = "etcd") := by
  have hdep := deploymentForVault_invalid env v hsize hha
  obtain ⟨ht, _, herr, hpan⟩ := reconcile_of_deployment_error env sdk v s _ hdep
  have hp : ((handleEtcd env sdk v s).andThen (handleVaultSecret env sdk)).panicked
      = false := by
    cases hpp : ((handleEtcd env sdk v s).andThen (handleVaultSecret env sdk)).panicked with
    | false => rfl
    | true =>
      obtain ⟨h1, h2⟩ := (secrets_panicked env sdk v s).mp hpp
      exact absurd (haddr h1) h2
  obtain ⟨_, _, honly⟩ := reconcile_complete env sdk v s
  rw [Handle_vault]
  simp only [ht]
  refine ⟨by rw [hpan, hp], ?_, ?_, secrets_length env sdk v s,
    (secrets_good env sdk v s).ordered, secrets_calls env sdk v s, ?_⟩
  · rw [herr]
    split
    · exact ⟨_, rfl⟩
    · exact ⟨_, rfl⟩
  · intro hclean hetcd hsec
    obtain ⟨hnone, _⟩ := secrets_err_none env sdk v s hclean hetcd hsec
    refine ⟨by rw [herr, hnone], ?_⟩
    obtain ⟨h1, h2⟩ := Step.andThen_err_none hnone
    rw [Step.andThen_ok h1]
    have hE := handleEtcd_shape env sdk v s
    have hS := handleVaultSecret_shape env sdk (handleEtcd env sdk v s).v
      (handleEtcd env sdk v s).store
    rw [h1] at hE
    rw [h2] at hS
    simp only [List.map_append]
    by_cases hs : v.Spec.GetStorageType = "etcd"
    · simp [hs] at hE hS ⊢
      rw [hE, hS]
      rfl
    · simp [hs] at hE hS ⊢
      rw [hE, hS]
      rfl
  · intro e he hs
    have := honly e.site (by rw [ht]; exact List.mem_map_of_mem _ he) hs
    simpa using this

/-- C2 amended, instantiated: three replicas on etcd storage at `https://etcd-cluster:2379`
without the HA flag, against the empty store. -/
theorem validation_error_after_at_most_three_creates_witness :
    (Handle sampleEnv (kube selectAll) ⟨.vault threeReplicasOnEtcd, false⟩
      emptyCluster).panicked = false ∧
    (∃ msg, (Handle sampleEnv (kube selectAll) ⟨.vault threeReplicasOnEtcd, false⟩
      emptyCluster).err = some msg) ∧
    ((∀ e ∈ (Handle sampleEnv (kube selectAll) ⟨.vault threeReplicasOnEtcd, false⟩
        emptyCluster).trace, e.failed = false) →
      (threeReplicasOnEtcd.Spec.GetStorageType = "etcd" →
        ∃ c sec, etcdForVault sampleEnv threeReplicasOnEtcd = .ok c ∧
          secretForEtcd sampleEnv c = .ok sec) →
      (∃ sec, secretForVault sampleEnv threeReplicasOnEtcd = .ok sec) →
      (Handle sampleEnv (kube selectAll) ⟨.vault threeReplicasOnEtcd, false⟩ emptyCluster).err
        = some ("failed to fabricate deployment: " ++ haValidationError) ∧
      (Handle sampleEnv (kube selectAll) ⟨.vault threeReplicasOnEtcd, false⟩
          emptyCluster).trace.map (fun e => e.site)
        = (if threeReplicasOnEtcd.Spec.GetStorageType = "etcd" then
            [.createEtcdSecret, .createEtcdCluster, .createVaultSecret]
          else [.createVaultSecret])) ∧
    (Handle sampleEnv (kube selectAll) ⟨.vault threeReplicasOnEtcd, false⟩
      emptyCluster).trace.length ≤ 3 ∧
    (Handle sampleEnv (kube selectAll) ⟨.vault threeReplicasOnEtcd, false⟩
      emptyCluster).trace.Pairwise (fun x y => x.site.line < y.site.line) ∧
    (∀ e ∈ (Handle sampleEnv (kube selectAll) ⟨.vault threeReplicasOnEtcd, false⟩
        emptyCluster).trace,
      (e.site = .createEtcdSecret ∨ e.site = .createEtcdCluster ∨
        e.site = .createVaultSecret) ∧
      ∃ o, e.call = .Create o ∧ (o.kind = .Secret ∨ o.kind = .EtcdCluster)) ∧
    (∀ e ∈ (Handle sampleEnv (kube selectAll) ⟨.vault threeReplicasOnEtcd, false⟩
        emptyCluster).trace,
      e.site = .createEtcdSecret ∨ e.site = .createEtcdCluster →
        threeReplicasOnEtcd.Spec.GetStorageType = "etcd") :=
  validation_error_after_at_most_three_creates sampleEnv (kube selectAll) threeReplicasOnEtcd
    emptyCluster (by decide) rfl (fun _ => ⟨"https://etcd-cluster:2379", rfl⟩)

/-- C7. Over the object store: when `Handle` has returned nil on a non-delete event and is
run again on the descriptor as the first pass left it (with the status it recorded) against
the store the first pass left (same pods), the second pass returns nil, leaves the store and
the descriptor unchanged, issues no update, and every create it issues is answered
`AlreadyExists`. -/
theorem Handle_twice_changes_nothing (env : Env) (selects : String → Pod → Bool) (v : Vault)
    (c : Cluster) (h : (Handle env (kube selects) ⟨.vault v, false⟩ c).err = none) :
    (Handle env (kube selects)
      ⟨(Handle env (kube selects) ⟨.vault v, false⟩ c).Object, false⟩
      (Handle env (kube selects) ⟨.vault v, false⟩ c).store).err = none ∧
    (Handle env (kube selects)
      ⟨(Handle env (kube selects) ⟨.vault v, false⟩ c).Object, false⟩
      (Handle env (kube selects) ⟨.vault v, false⟩ c).store).store
      = (Handle env (kube selects) ⟨.vault v, false⟩ c).store ∧
    (Handle env (kube selects)
      ⟨(Handle env (kube selects) ⟨.vault v, false⟩ c).Object, false⟩
      (Handle env (kube selects) ⟨.vault v, false⟩ c).store).Object
      = (Handle env (kube selects) ⟨.vault v, false⟩ c).Object ∧
    ∀ e ∈ (Handle env (kube selects)
        ⟨(Handle env (kube selects) ⟨.vault v, false⟩ c).Object, false⟩
        (Handle env (kube selects) ⟨.vault v, false⟩ c).store).trace,
      (∀ o, e.call ≠ .Update o) ∧
      (∀ o, e.call = .Create o → ∃ a, e.err = some a ∧ IsAlreadyExists a = true) := by
  rw [Handle_vault] at h ⊢
  simp only at h ⊢
  rw [Handle_vault]
  simp only
  obtain ⟨f1, f2, f3, f4⟩ := reconcile_again env selects v c h
  exact ⟨f1, f2, by rw [f3], f4⟩

/-- C7, instantiated at a store that has drifted: the first pass rescales the deployment and
records the pod, the second changes nothing. -/
theorem Handle_twice_changes_nothing_witness :
    (Handle sampleEnv (kube selectAll)
      ⟨(Handle sampleEnv (kube selectAll) ⟨.vault oneReplicaOnFile, false⟩
        driftedCluster).Object, false⟩
      (Handle sampleEnv (kube selectAll) ⟨.vault oneReplicaOnFile, false⟩
        driftedCluster).store).err = none ∧
    (Handle sampleEnv (kube selectAll)
      ⟨(Handle sampleEnv (kube selectAll) ⟨.vault oneReplicaOnFile, false⟩
        driftedCluster).Object, false⟩
      (Handle sampleEnv (kube selectAll) ⟨.vault oneReplicaOnFile, false⟩
        driftedCluster).store).store
      = (Handle sampleEnv (kube selectAll) ⟨.vault oneReplicaOnFile, false⟩
          driftedCluster).store ∧
    (Handle sampleEnv (kube selectAll)
      ⟨(Handle sampleEnv (kube selectAll) ⟨.vault oneReplicaOnFile, false⟩
        driftedCluster).Object, false⟩
      (Handle sampleEnv (kube selectAll) ⟨.vault oneReplicaOnFile, false⟩
        driftedCluster).store).Object
      = (Handle sampleEnv (kube selectAll) ⟨.vault oneReplicaOnFile, false⟩
          driftedCluster).Object ∧
    ∀ e ∈ (Handle sampleEnv (kube selectAll)
        ⟨(Handle sampleEnv (kube selectAll) ⟨.vault oneReplicaOnFile, false⟩
          driftedCluster).Object, false⟩
        (Handle sampleEnv (kube selectAll) ⟨.vault oneReplicaOnFile, false⟩
          driftedCluster).store).trace,
      (∀ o, e.call ≠ .Update o) ∧
      (∀ o, e.call = .Create o → ∃ a, e.err = some a ∧ IsAlreadyExists a = true) :=
  Handle_twice_changes_nothing sampleEnv selectAll oneReplicaOnFile driftedCluster
    (by decide)

/-- C9. On every non-delete event the calls of `Handle` stand in the fixed source order, each
being the operation of its call site (create, get, update or list: there is no delete and no
call outside the thirteen sites), and none is skipped: a call is preceded by the calls at all
earlier sites other than the three conditional updates (the two etcd sites counting for etcd
storage only, and being called for etcd storage only), so the calls issued are a prefix of
the fixed order. A call that failed (a get, list or update that answered an error, a create
that answered an error other than `AlreadyExists`) is the last call of the pass and `Handle`
returns an error. A fabricator of the etcd step that returned an error makes `Handle` return
that error with no call issued. When the fabricator of the Vault TLS secret, or of the Vault
deployment, returns an error, `Handle` issues no call of that step or of a later one and
does not return nil: it returns an error, except that on etcd storage without a string
address it has panicked on the assertion of line 484 (and only then); and when the steps
before went through (no call failed, their fabricators succeeded), the error `Handle`
returns is the one of that fabricator. On etcd storage without a string address `Handle`
panics with no call issued. -/
theorem failing_step_aborts_without_rollback (env : Env) (sdk : Sdk σ) (v : Vault) (s : σ) :
    (Handle env sdk ⟨.vault v, false⟩ s).trace.Pairwise
      (fun x y => x.site.line < y.site.line) ∧
    (∀ e ∈ (Handle env sdk ⟨.vault v, false⟩ s).trace, e.call.kind = e.site.kind) ∧
    (∀ y ∈ (Handle env sdk ⟨.vault v, false⟩ s).trace.map (fun e => e.site), ∀ x : Site,
      x.required (v.Spec.GetStorageType == "etcd") = true → x.line < y.line →
      x ∈ (Handle env sdk ⟨.vault v, false⟩ s).trace.map (fun e => e.site)) ∧
    (∀ y ∈ (Handle env sdk ⟨.vault v, false⟩ s).trace.map (fun e => e.site),
      y = .createEtcdSecret ∨ y = .createEtcdCluster → v.Spec.GetStorageType = "etcd") ∧
    (∀ pre e post, (Handle env sdk ⟨.vault v, false⟩ s).trace = pre ++ e :: post →
      e.failed = true →
      post = [] ∧ (∃ msg, (Handle env sdk ⟨.vault v, false⟩ s).err = some msg) ∧
      (Handle env sdk ⟨.vault v, false⟩ s).panicked = false) ∧
    (v.Spec.GetStorageType = "etcd" → ∀ m, etcdForVault env v = .error m →
      (Handle env sdk ⟨.vault v, false⟩ s).err
        = some ("failed to fabricate etcd cluster: " ++ m) ∧
      (Handle env sdk ⟨.vault v, false⟩ s).trace = [] ∧
      (Handle env sdk ⟨.vault v, false⟩ s).panicked = false) ∧
    (v.Spec.GetStorageType = "etcd" → ∀ cl m, etcdForVault env v = .ok cl →
      secretForEtcd env cl = .error m →
      (Handle env sdk ⟨.vault v, false⟩ s).err
        = some ("failed to fabricate secret for etcd: " ++ m) ∧
      (Handle env sdk ⟨.vault v, false⟩ s).trace = [] ∧
      (Handle env sdk ⟨.vault v, false⟩ s).panicked = false) ∧
    (∀ m, secretForVault env v = .error m →
      (∃ msg, (Handle env sdk ⟨.vault v, false⟩ s).err = some msg) ∧
      ((Handle env sdk ⟨.vault v, false⟩ s).panicked = true ↔
        v.Spec.GetStorageType = "etcd" ∧ ¬ v.hasAddress) ∧
      (∀ e ∈ (Handle env sdk ⟨.vault v, false⟩ s).trace, e.site.line < 88) ∧
      ((∀ e ∈ (Handle env sdk ⟨.vault v, false⟩ s).trace, e.failed = false) →
        (v.Spec.GetStorageType = "etcd" →
          ∃ c sec, etcdForVault env v = .ok c ∧ secretForEtcd env c = .ok sec) →
        (Handle env sdk ⟨.vault v, false⟩ s).err
          = some ("failed to fabricate secret for vault: " ++ m) ∧
        (Handle env sdk ⟨.vault v, false⟩ s).panicked = false)) ∧
    (∀ m, deploymentForVault env v = .error m →
      (∃ msg, (Handle env sdk ⟨.vault v, false⟩ s).err = some msg) ∧
      ((Handle env sdk ⟨.vault v, false⟩ s).panicked = true ↔
        v.Spec.GetStorageType = "etcd" ∧ ¬ v.hasAddress) ∧
      (∀ e ∈ (Handle env sdk ⟨.vault v, false⟩ s).trace, e.site.line < 98) ∧
      ((∀ e ∈ (Handle env sdk ⟨.vault v, false⟩ s).trace, e.failed = false) →
        (v.Spec.GetStorageType = "etcd" →
          ∃ c sec, etcdForVault env v = .ok c ∧ secretForEtcd env c = .ok sec) →
        (∃ sec, secretForVault env v = .ok sec) →
        (Handle env sdk ⟨.vault v, false⟩ s).err
          = some ("failed to fabricate deployment: " ++ m) ∧
        (Handle env sdk ⟨.vault v, false⟩ s).panicked = false)) ∧
    (v.Spec.GetStorageType = "etcd" → ¬ v.hasAddress →
      (Handle env sdk ⟨.vault v, false⟩ s).panicked = true ∧
      (Handle env sdk ⟨.vault v, false⟩ s).trace = []) := by
  rw [Handle_vault]
  simp only
  have hgood := reconcile_good env sdk v s
  obtain ⟨hclosed, _, honly⟩ := reconcile_complete env sdk v s
  refine ⟨hgood.ordered, hgood.kinds, ?_, ?_, hgood.failed_last, ?_, ?_, ?_, ?_, ?_⟩
  · intro y hy x hx hlt
    exact hclosed y hy x hx (by cases x <;> decide) hlt
  · intro y hy hs
    simpa using honly y hy hs
  · intro hetcd m hm
    exact reconcile_of_etcd_error env sdk v s m hetcd hm
  · intro hetcd cl m hcl hm
    exact reconcile_of_etcd_secret_error env sdk v s cl m hetcd hcl hm
  · intro m hm
    obtain ⟨h1, h2, h3⟩ := reconcile_of_secret_error env sdk v s m hm
    exact ⟨h1, by rw [h2]; exact handleEtcd_panicked env sdk v s, h3,
      reconcile_secret_error_exact env sdk v s m hm⟩
  · intro m hm
    obtain ⟨ht, _, herr, hpan⟩ := reconcile_of_deployment_error env sdk v s m hm
    refine ⟨?_, ?_, ?_, reconcile_deployment_error_exact env sdk v s m hm⟩
    · rw [herr]
      split
      · exact ⟨_, rfl⟩
      · exact ⟨_, rfl⟩
    · rw [hpan]
      exact secrets_panicked env sdk v s
    · rw [ht]
      intro e he
      exact lt_trans ((secrets_good env sdk v s).range e he).2 (by decide)
  · intro hetcd hno
    obtain ⟨h1, h2, _⟩ := reconcile_of_no_address env sdk v s hetcd hno
    exact ⟨h1, h2⟩

/-- C8. `Handle` treats `AlreadyExists` as success at each of its seven creates. The creates
in its trace are exactly the calls at the seven create sites. A pass runs alike (same end,
same store, same descriptor, same calls at the same sites) whether the SDK answers a create
with `AlreadyExists` or with success. When `Handle` returns an error, some call failed (for a
create: with an error other than `AlreadyExists`) or a fabricator returned an error. A create
answered `AlreadyExists` did not fail, and a create answered any other error is the last
call of the pass, `Handle` returning an error. After a create that did not fail (answered
success or `AlreadyExists`) the pass continues with the next step: the very next call is the
one at the site that follows in the text, the only exception being that the fabricator of
the next step (of the Vault TLS secret after the etcd cluster, of the Vault deployment after
the Vault TLS secret) returned an error, which `Handle` then returns. And a pass in which no
call fails, no fabricator returns an error and nothing panics returns nil after issuing all
its creates: those of the Vault TLS secret, the Vault deployment, the service, the configurer
deployment and the configurer config map, and for etcd storage those of the etcd TLS secret
and the etcd cluster. -/
theorem already_exists_counts_as_success (env : Env) (sdk : Sdk σ) (v : Vault) (s : σ) :
    (∀ e ∈ (Handle env sdk ⟨.vault v, false⟩ s).trace,
      (∃ o, e.call = .Create o) ↔
        (e.site = .createEtcdSecret ∨ e.site = .createEtcdCluster ∨
          e.site = .createVaultSecret ∨ e.site = .createDeployment ∨
          e.site = .createService ∨ e.site = .createConfigurerDeployment ∨
          e.site = .createConfigMap)) ∧
    ((Handle env sdk.forgiving ⟨.vault v, false⟩ s).err
        = (Handle env sdk ⟨.vault v, false⟩ s).err ∧
      (Handle env sdk.forgiving ⟨.vault v, false⟩ s).panicked
        = (Handle env sdk ⟨.vault v, false⟩ s).panicked ∧
      (Handle env sdk.forgiving ⟨.vault v, false⟩ s).store
        = (Handle env sdk ⟨.vault v, false⟩ s).store ∧
      (Handle env sdk.forgiving ⟨.vault v, false⟩ s).Object
        = (Handle env sdk ⟨.vault v, false⟩ s).Object ∧
      (Handle env sdk.forgiving ⟨.vault v, false⟩ s).trace.map (fun e => (e.site, e.call))
        = (Handle env sdk ⟨.vault v, false⟩ s).trace.map (fun e => (e.site, e.call))) ∧
    (∀ msg, (Handle env sdk ⟨.vault v, false⟩ s).err = some msg →
      (Handle env sdk ⟨.vault v, false⟩ s).panicked = false →
      (∃ e ∈ (Handle env sdk ⟨.vault v, false⟩ s).trace, e.failed = true) ∨
        FabricationFails env v) ∧
    (∀ pre e post o a, (Handle env sdk ⟨.vault v, false⟩ s).trace = pre ++ e :: post →
      e.call = .Create o → e.err = some a →
      (IsAlreadyExists a = true → e.failed = false) ∧
      (IsAlreadyExists a = false →
        post = [] ∧ (∃ msg, (Handle env sdk ⟨.vault v, false⟩ s).err = some msg) ∧
        (Handle env sdk ⟨.vault v, false⟩ s).panicked = false)) ∧
    (∀ pre e post y, (Handle env sdk ⟨.vault v, false⟩ s).trace = pre ++ e :: post →
      e.failed = false → e.site.afterCreate = some y →
      (∃ e' rest, post = e' :: rest ∧ e'.site = y) ∨
      (post = [] ∧ (Handle env sdk ⟨.vault v, false⟩ s).panicked = false ∧
        ((e.site = .createEtcdCluster ∧ ∃ m, secretForVault env v = .error m ∧
            (Handle env sdk ⟨.vault v, false⟩ s).err
              = some ("failed to fabricate secret for vault: " ++ m)) ∨
          (e.site = .createVaultSecret ∧ ∃ m, deploymentForVault env v = .error m ∧
            (Handle env sdk ⟨.vault v, false⟩ s).err
              = some ("failed to fabricate deployment: " ++ m))))) ∧
    ((∀ e ∈ (Handle env sdk ⟨.vault v, false⟩ s).trace, e.failed = false) →
      ¬ FabricationFails env v → (Handle env sdk ⟨.vault v, false⟩ s).panicked = false →
      (Handle env sdk ⟨.vault v, false⟩ s).err = none ∧
      (∀ x ∈ [Site.createVaultSecret, Site.createDeployment, Site.createService,
          Site.createConfigurerDeployment, Site.createConfigMap],
        x ∈ (Handle env sdk ⟨.vault v, false⟩ s).trace.map (fun e => e.site)) ∧
      (v.Spec.GetStorageType = "etcd" →
        ∀ x ∈ [Site.createEtcdSecret, Site.createEtcdCluster],
          x ∈ (Handle env sdk ⟨.vault v, false⟩ s).trace.map (fun e => e.site))) := by
  rw [Handle_vault, Handle_vault]
  simp only
  have hgood := reconcile_good env sdk v s
  refine ⟨?_, ?_, reconcile_error_cause env sdk v s, ?_, reconcile_next env sdk v s, ?_⟩
  · intro e he
    have hk := hgood.kinds e he
    cases hcall : e.call <;> cases hsite : e.site <;>
      simp_all [Call.kind, Site.kind]
  · obtain ⟨f1, f2, f3, f4, f5⟩ := reconcile_forgiving env sdk v s
    exact ⟨f1, f5, f2, by rw [f3], f4⟩
  · intro pre e post o a ht hcall herr
    refine ⟨?_, ?_⟩
    · intro hae
      simp [Entry.failed, hcall, herr, createError, hae]
    · intro hae
      exact hgood.failed_last pre e post ht
        (by simp [Entry.failed, hcall, herr, createError, hae])
  · obtain ⟨_, hfull, _⟩ := reconcile_complete env sdk v s
    intro hclean hfab hp
    have hnone : (reconcile env sdk v s).err = none := by
      cases herr : (reconcile env sdk v s).err with
      | none => rfl
      | some msg =>
        exfalso
        rcases reconcile_error_cause env sdk v s msg herr hp with ⟨e, he, hf⟩ | h
        · rw [hclean e he] at hf
          cases hf
        · exact hfab h
    have hall := hfull (by rw [hnone]; rfl)
    refine ⟨hnone, ?_, ?_⟩
    · intro x hx
      simp only [List.mem_cons, List.mem_singleton, List.not_mem_nil, or_false] at hx
      rcases hx with h | h | h | h | h <;> subst h <;>
        exact hall _ rfl (by decide) (by decide)
    · intro hetcd x hx
      have hb : (v.Spec.GetStorageType == "etcd") = true := by simpa using hetcd
      simp only [List.mem_cons, List.mem_singleton, List.not_mem_nil, or_false] at hx
      rcases hx with h | h <;> subst h <;>
        exact hall _ (by rw [hb]; rfl) (by decide) (by decide)

end OperatorClaims

/-! ## Claims on the unseal command -/

section UnsealClaims
variable {σ : Type}

/-- C3 fails as stated: with a seal-status query that fails whenever it is made, the run
enters one loop body only (not four), never sleeps, and exits with status 1. -/
theorem sealed_failure_stops_after_one_attempt :
    (∀ s, ∃ e, (sealedAlwaysFails.Sealed s).1 = .error e) ∧
    (unsealRun sealedAlwaysFails defaultUnsealCfg ()).attempts = 1 ∧
    (unsealRun sealedAlwaysFails defaultUnsealCfg ()).attempts ≠ 4 ∧
    (unsealRun sealedAlwaysFails defaultUnsealCfg ()).trace.countP WorkerEvent.isSealed = 1 ∧
    (unsealRun sealedAlwaysFails defaultUnsealCfg ()).trace.countP WorkerEvent.isSleep = 0 ∧
    (unsealRun sealedAlwaysFails defaultUnsealCfg ()).exitCode = 1 := by
  refine ⟨fun s => ⟨"connection refused", rfl⟩, ?_, ?_, ?_, ?_, ?_⟩ <;> decide

/-- C3, amended. In every run in which the seal-status query fails whenever it is made, the
first failure ends the process: the run enters exactly one loop body, makes at most one
seal-status query (exactly one unless a failing `Init` came first), never calls `Unseal`,
never sleeps, and exits with status 1. -/
theorem sealed_failure_exits_nonzero_at_once (v : VaultHelper σ) (cfg : unsealCfg) (s : σ)
    (h : ∀ s', ∃ e, (v.Sealed s').1 = .error e) :
    (unsealRun v cfg s).exitCode = 1 ∧
    (unsealRun v cfg s).attempts = 1 ∧
    (unsealRun v cfg s).trace.countP WorkerEvent.isSealed ≤ 1 ∧
    ((cfg.proceedInit = false ∨ (v.Init s).1 = none) →
      (unsealRun v cfg s).trace.countP WorkerEvent.isSealed = 1) ∧
    (unsealRun v cfg s).trace.countP WorkerEvent.isUnseal = 0 ∧
    (unsealRun v cfg s).trace.countP WorkerEvent.isSleep = 0 := by
  obtain ⟨h1, h2, h3⟩ := attempt_of_sealed_failing v cfg.proceedInit s h
  obtain ⟨c1, _, _, c4, _, _⟩ := attempt_counts v cfg.proceedInit s
  unfold unsealRun
  rw [unsealLoop_succ]
  simp only [h1]
  exact ⟨trivial, trivial, c1, h3, h2, c4⟩

/-- C3 amended, instantiated at the helper whose query always fails. -/
theorem sealed_failure_exits_nonzero_at_once_witness :
    (unsealRun sealedAlwaysFails defaultUnsealCfg ()).exitCode = 1 ∧
    (unsealRun sealedAlwaysFails defaultUnsealCfg ()).attempts = 1 ∧
    (unsealRun sealedAlwaysFails defaultUnsealCfg ()).trace.countP WorkerEvent.isSealed ≤ 1 ∧
    ((defaultUnsealCfg.proceedInit = false ∨ (sealedAlwaysFails.Init ()).1 = none) →
      (unsealRun sealedAlwaysFails defaultUnsealCfg ()).trace.countP WorkerEvent.isSealed = 1) ∧
    (unsealRun sealedAlwaysFails defaultUnsealCfg ()).trace.countP WorkerEvent.isUnseal = 0 ∧
    (unsealRun sealedAlwaysFails defaultUnsealCfg ()).trace.countP WorkerEvent.isSleep = 0 :=
  sealed_failure_exits_nonzero_at_once sealedAlwaysFails defaultUnsealCfg ()
    (fun _ => ⟨"connection refused", rfl⟩)

/-- C4. In every run whose first seal-status query succeeds and reports `sealed = false`,
`Unseal` is never called, the worker never sleeps, and the process exits with status 0 in its
first loop body, after that single query. -/
theorem unsealed_server_exits_zero_at_once (v : VaultHelper σ) (cfg : unsealCfg) (s : σ)
    (h : (unsealRun v cfg s).trace.find? WorkerEvent.isSealed = some (.Sealed (.ok false))) :
    (unsealRun v cfg s).trace.countP WorkerEvent.isUnseal = 0 ∧
    (unsealRun v cfg s).trace.countP WorkerEvent.isSleep = 0 ∧
    (unsealRun v cfg s).exitCode = 0 ∧
    (unsealRun v cfg s).attempts = 1 ∧
    (unsealRun v cfg s).trace.countP WorkerEvent.isSealed = 1 := by
  obtain ⟨f1, f2⟩ := attempt_first_sealed v cfg.proceedInit s
  obtain ⟨_, _, _, c4, _, _⟩ := attempt_counts v cfg.proceedInit s
  unfold unsealRun at h ⊢
  rw [unsealLoop_succ] at h ⊢
  cases hexit : (attempt v cfg.proceedInit s).exit with
  | none =>
    exfalso
    simp only [hexit] at h
    rw [List.find?_append, f1 hexit] at h
    simp at h
  | some code =>
    simp only [hexit] at h
    obtain ⟨g1, g2, g3⟩ := f2 h
    rw [hexit] at g1
    cases g1
    refine ⟨?_, ?_, ?_, ?_, ?_⟩ <;> simp only [hexit] <;>
      first | exact g2 | exact c4 | exact g3

/-- C4, instantiated at a server that is already unsealed. -/
theorem unsealed_server_exits_zero_at_once_witness :
    (unsealRun alreadyUnsealed defaultUnsealCfg ()).trace.countP WorkerEvent.isUnseal = 0 ∧
    (unsealRun alreadyUnsealed defaultUnsealCfg ()).trace.countP WorkerEvent.isSleep = 0 ∧
    (unsealRun alreadyUnsealed defaultUnsealCfg ()).exitCode = 0 ∧
    (unsealRun alreadyUnsealed defaultUnsealCfg ()).attempts = 1 ∧
    (unsealRun alreadyUnsealed defaultUnsealCfg ()).trace.countP WorkerEvent.isSealed = 1 :=
  unsealed_server_exits_zero_at_once alreadyUnsealed defaultUnsealCfg () rfl

/-- C5. In every run `Init` is called at most once: never when the run starts with the init
flag unset, and exactly once, as the very first call (so before any seal-status query), when
it starts with the flag set. A successful `Init` clears the flag, and no later loop body of
the run calls `Init` again; a failed `Init` ends the process with status 1 with no other call
made. -/
theorem init_at_most_once_and_first (v : VaultHelper σ) (cfg : unsealCfg) (s : σ) :
    (unsealRun v cfg s).trace.countP WorkerEvent.isInit ≤ 1 ∧
    (cfg.proceedInit = false → (unsealRun v cfg s).trace.countP WorkerEvent.isInit = 0) ∧
    (cfg.proceedInit = true →
      (∃ rest, (unsealRun v cfg s).trace = .Init (v.Init s).1 :: rest ∧
        rest.countP WorkerEvent.isInit = 0) ∧
      ((v.Init s).1 = none → (attempt v true s).proceedInit = false) ∧
      (∀ e, (v.Init s).1 = some e →
        (unsealRun v cfg s).exitCode = 1 ∧ (unsealRun v cfg s).trace = [.Init (some e)])) := by
  obtain ⟨_, _, _, k4, k5, _, _⟩ := unsealLoop_counts v cfg.unsealPeriod 4 cfg.proceedInit s
  refine ⟨k4, k5, ?_⟩
  intro hp
  obtain ⟨⟨rest, hr1, hr2⟩, a2, a3⟩ := attempt_with_init v s
  obtain ⟨_, _, _, _, _, a6⟩ := attempt_counts v true s
  unfold unsealRun
  rw [hp, unsealLoop_succ]
  refine ⟨?_, a3, ?_⟩
  · cases hexit : (attempt v true s).exit with
    | some code => exact ⟨rest, hr1, hr2⟩
    | none =>
      simp only
      obtain ⟨_, _, _, _, l5, _, _⟩ := unsealLoop_counts v cfg.unsealPeriod 3
        (attempt v true s).proceedInit (attempt v true s).state
      refine ⟨rest ++ WorkerEvent.Sleep cfg.unsealPeriod ::
        (unsealLoop v cfg.unsealPeriod 3 (attempt v true s).proceedInit
          (attempt v true s).state).trace, by rw [hr1]; rfl, ?_⟩
      have := l5 (a6 hexit)
      simp only [List.countP_append, List.countP_cons, WorkerEvent.isInit]
      simp only [Bool.false_eq_true, ite_false]
      omega
  · intro e he
    obtain ⟨b1, b2⟩ := a2 e he
    simp only [b1, b2]
    exact ⟨trivial, trivial⟩

/-- C6. Every run ends after at least one and at most four loop bodies, whatever the helper
answers: it makes at most four seal-status queries and at most four unseal calls. A loop
body returns exactly when its unseal call succeeded, and the worker sleeps after each such
body and at no other time: every successful unseal in the run is immediately followed by a
sleep of the configured period, and every sleep lasts that period and immediately follows a
successful unseal. The run ends in one of two ways: either four bodies were entered and all
returned, the worker slept four times, the last thing it did was the sleep after the fourth
body, and the process exits with status 0; or the process exited inside the last body
entered, right after a call whose answer exits with the run's status (a failed `Init`,
`Sealed` or `Unseal` with 1, a `Sealed` that answered `false` with 0), having slept once per
body before that one. -/
theorem unseal_loop_bounded (v : VaultHelper σ) (cfg : unsealCfg) (s : σ) :
    1 ≤ (unsealRun v cfg s).attempts ∧
    (unsealRun v cfg s).attempts ≤ 4 ∧
    (unsealRun v cfg s).trace.countP WorkerEvent.isSealed ≤ 4 ∧
    (unsealRun v cfg s).trace.countP WorkerEvent.isUnseal ≤ 4 ∧
    (∀ pre e post, (unsealRun v cfg s).trace = pre ++ e :: post → e = .Unseal none →
      ∃ rest, post = .Sleep cfg.unsealPeriod :: rest) ∧
    (∀ pre e post, (unsealRun v cfg s).trace = pre ++ e :: post → e.isSleep = true →
      e = .Sleep cfg.unsealPeriod ∧ ∃ before, pre = before ++ [.Unseal none]) ∧
    (((unsealRun v cfg s).attempts = 4 ∧
        (unsealRun v cfg s).trace.countP WorkerEvent.isSleep = 4 ∧
        (unsealRun v cfg s).trace.countP WorkerEvent.returns = 4 ∧
        (unsealRun v cfg s).trace.getLast? = some (.Sleep cfg.unsealPeriod) ∧
        (unsealRun v cfg s).exitCode = 0) ∨
      ((unsealRun v cfg s).trace.countP WorkerEvent.isSleep + 1
          = (unsealRun v cfg s).attempts ∧
        ∃ e, (unsealRun v cfg s).trace.getLast? = some e ∧
          e.exits = some (unsealRun v cfg s).exitCode)) := by
  obtain ⟨k1, k2, k3, _, _, k6, _⟩ := unsealLoop_counts v cfg.unsealPeriod 4 cfg.proceedInit s
  obtain ⟨c1, c2, c3, c4⟩ := unsealLoop_shape v cfg.unsealPeriod 4 cfg.proceedInit s
  unfold unsealRun
  have hend : ∀ pre e, (unsealLoop v cfg.unsealPeriod 4 cfg.proceedInit s).trace = pre ++ [e] →
      e ≠ .Unseal none := by
    intro pre e ht he
    have hl : (unsealLoop v cfg.unsealPeriod 4 cfg.proceedInit s).trace.getLast? = some e := by
      rw [ht]
      simp
    rcases c4 with ⟨_, _, _, j4⟩ | ⟨_, x, j2, j3⟩
    · rw [j4 (by decide), he] at hl
      cases hl
    · rw [hl] at j2
      cases j2
      rw [he] at j3
      cases j3
  refine ⟨?_, k1, by omega, by omega, ?_, ?_, ?_⟩
  · rcases c4 with ⟨_, j2, _, _⟩ | ⟨j1, _⟩ <;> omega
  · intro pre e post ht he
    cases post with
    | nil => exact absurd he (hend pre e ht)
    | cons b rest =>
      rw [ht] at c1
      have hr := (chain_next c1).mp he
      cases b with
      | Sleep x =>
        have hx := k6 (.Sleep x) (by rw [ht]; simp) x rfl
        rw [hx]
        exact ⟨rest, rfl⟩
      | Init _ => cases hr
      | Sealed _ => cases hr
      | Unseal _ => cases hr
  · intro pre e post ht he
    have hper : e = .Sleep cfg.unsealPeriod := by
      cases e with
      | Sleep x =>
        have hx := k6 (.Sleep x) (by rw [ht]; simp) x rfl
        rw [hx]
      | Init _ => cases he
      | Sealed _ => cases he
      | Unseal _ => cases he
    refine ⟨hper, ?_⟩
    rcases List.eq_nil_or_concat pre with hp | ⟨before, a, hp⟩
    · subst hp
      rw [ht] at c2
      have := c2 e (by simp)
      rw [he] at this
      cases this
    · rw [hp] at ht ⊢
      rw [List.concat_eq_append, List.append_assoc] at ht
      rw [ht] at c1
      have hr := (chain_next c1).mpr he
      rw [List.concat_eq_append, hr]
      exact ⟨before, rfl⟩
  · rcases c4 with ⟨j1, j2, j3, j4⟩ | j
    · exact Or.inl ⟨j2, j1, by rw [c3, j1], j4 (by decide), j3⟩
    · exact Or.inr j

end UnsealClaims

/-! ## Claims on the OSS key store -/

/-- C10. Over the service whose buckets are maps from object name to bytes: once `Set k val`
has succeeded on one client, `Get k` on any client with the same bucket and the same key
prefix returns exactly `val` and no error; both address the object `prefix + k`, which now
holds `val`. -/
theorem oss_get_after_set (validName : String → Bool) (w1 w2 : String → String → Bool)
    (o1 o2 : ossStorage OssService) (k : String) (val : Bytes) (st : OssService)
    (hc1 : o1.client = mapClient validName w1) (hc2 : o2.client = mapClient validName w2)
    (hbucket : o2.bucket = o1.bucket) (hpfx : o2.keyPrefix = o1.keyPrefix)
    (hset : (o1.Set k val st).1 = none) :
    (o2.Get k (o1.Set k val st).2).1 = .ok val ∧
    (o1.Set k val st).2 o1.bucket (o1.keyPrefix ++ k) = some val ∧
    objectNameWithPrefix o1.keyPrefix k = o1.keyPrefix ++ k ∧
    objectNameWithPrefix o2.keyPrefix k = o1.keyPrefix ++ k := by
  obtain ⟨c1, b1, p1⟩ := o1
  obtain ⟨c2, b2, p2⟩ := o2
  simp only at hc1 hc2 hbucket hpfx
  subst hc1 hc2 hbucket hpfx
  simp only [ossStorage.Set, ossStorage.Get, mapClient, objectNameWithPrefix] at hset ⊢
  by_cases hv : validName b2 = true
  · by_cases hw : w1 b2 (p2 ++ k) = true
    · simp [hv, hw, ReadAll]
    · simp [hv, hw] at hset
  · simp [hv] at hset

/-- C10, instantiated: a value written by the writing client is read back by the read-only
client of the same bucket and prefix. -/
theorem oss_get_after_set_witness :
    (readerStorage.Get "vault-root" (writerStorage.Set "vault-root" [1, 2, 3] emptyService).2).1
      = .ok [1, 2, 3] ∧
    (writerStorage.Set "vault-root" [1, 2, 3] emptyService).2 writerStorage.bucket
      (writerStorage.keyPrefix ++ "vault-root") = some [1, 2, 3] ∧
    objectNameWithPrefix writerStorage.keyPrefix "vault-root"
      = writerStorage.keyPrefix ++ "vault-root" ∧
    objectNameWithPrefix readerStorage.keyPrefix "vault-root"
      = writerStorage.keyPrefix ++ "vault-root" :=
  oss_get_after_set nonEmptyName writeAll writeNone writerStorage readerStorage "vault-root"
    [1, 2, 3] emptyService rfl rfl rfl rfl (by decide)

/-- C11. `Get` of the OSS backend returns the not-found kind exactly when the bucket answers
the object read with the service error of status 404 and code `NoSuchKey`: that answer
yields a `NotFound` error, a `NotFound` error comes from that answer only, and every other
failure (of `client.Bucket`, of the object read, of reading the body) yields an error that
is not of the not-found kind. Over buckets that are maps, a key that was never written is
answered that way, so `Get` of it returns `NotFound` once `client.Bucket` accepts the bucket
name. -/
theorem oss_get_not_found_exactly_on_no_such_key {σ : Type} (o : ossStorage σ) (key : String)
    (s : σ) :
    (∀ text, o.client.Bucket o.bucket = none →
      (o.client.GetObject o.bucket (objectNameWithPrefix o.keyPrefix key) s).1
        = .error (.ServiceError 404 "NoSuchKey" text) →
      ∃ t, (o.Get key s).1 = .error (.NotFound t)) ∧
    (∀ t, (o.Get key s).1 = .error (.NotFound t) →
      o.client.Bucket o.bucket = none ∧
      ∃ text, (o.client.GetObject o.bucket (objectNameWithPrefix o.keyPrefix key) s).1
        = .error (.ServiceError 404 "NoSuchKey" text)) ∧
    (∀ err, o.client.Bucket o.bucket = some err → (o.Get key s).1 = .error (.Sdk err)) ∧
    (∀ err, o.client.Bucket o.bucket = none →
      (o.client.GetObject o.bucket (objectNameWithPrefix o.keyPrefix key) s).1 = .error err →
      (∀ text, err ≠ .ServiceError 404 "NoSuchKey" text) →
      ∃ t, (o.Get key s).1 = .error (.Errorf t)) ∧
    (∀ body err, o.client.Bucket o.bucket = none →
      (o.client.GetObject o.bucket (objectNameWithPrefix o.keyPrefix key) s).1 = .ok body →
      ReadAll body = .error err →
      ∃ t, (o.Get key s).1 = .error (.Errorf t)) ∧
    (∀ (validName : String → Bool) (w : String → String → Bool) (bucket pfx k : String)
      (st : OssService), validName bucket = true → st bucket (pfx ++ k) = none →
      ∃ t, ((⟨mapClient validName w, bucket, pfx⟩ : ossStorage OssService).Get k st).1
        = .error (.NotFound t)) := by
  refine ⟨?_, ?_, ?_, ?_, ?_, ?_⟩
  · intro text hb hg
    simp [ossStorage.Get, hb, hg]
  · intro t ht
    unfold ossStorage.Get at ht
    dsimp only at ht
    cases hb : o.client.Bucket o.bucket with
    | some err => simp [hb] at ht
    | none =>
      refine ⟨rfl, ?_⟩
      simp only [hb] at ht
      cases hg : (o.client.GetObject o.bucket (objectNameWithPrefix o.keyPrefix key) s).1 with
      | ok body =>
        simp only [hg] at ht
        cases hr : ReadAll body <;> simp [hr] at ht
      | error err =>
        simp only [hg] at ht
        cases err with
        | Other text => simp at ht
        | ServiceError code name text =>
          by_cases hc : code = 404 ∧ name = "NoSuchKey"
          · obtain ⟨h1, h2⟩ := hc
            exact ⟨text, by rw [h1, h2]⟩
          · exfalso
            simp only [beq_iff_eq, Bool.and_eq_true, hc, ite_false] at ht
            simp at ht
  · intro err hb
    simp [ossStorage.Get, hb]
  · intro err hb hg hne
    cases err with
    | Other text => simp [ossStorage.Get, hb, hg]
    | ServiceError code name text =>
      have hc : ¬ (code = 404 ∧ name = "NoSuchKey") := by
        rintro ⟨h1, h2⟩
        exact hne text (by rw [h1, h2])
      simp only [ossStorage.Get, hb, hg, beq_iff_eq, Bool.and_eq_true, hc, ite_false]
      exact ⟨_, rfl⟩
  · intro body err hb hg hr
    simp [ossStorage.Get, hb, hg, hr]
  · intro validName w bucket pfx k st hv hst
    simp [ossStorage.Get, mapClient, objectNameWithPrefix, hv, hst]

/-! ## Claims on owner references and on the status -/

section OwnerStatusClaims
variable {σ : Type}

/-- C12. Every object that `Handle` passes to a create for a descriptor `v` carries exactly
one owner reference, `asOwner v`, which is the descriptor's APIVersion, Kind, Name and UID
with `Controller` set to true. -/
theorem created_objects_owned_by_descriptor (env : Env) (sdk : Sdk σ) (v : Vault) (s : σ) :
    asOwner v = { APIVersion := v.APIVersion, Kind := v.Kind, Name := v.Name, UID := v.UID,
                  Controller := some true } ∧
    ∀ e ∈ (Handle env sdk ⟨.vault v, false⟩ s).trace, ∀ o, e.call = .Create o →
      o.GetOwnerReferences = [asOwner v] ∧ o.GetOwnerReferences.length = 1 := by
  refine ⟨rfl, ?_⟩
  rw [Handle_vault]
  intro e he o ho
  have h := (reconcile_owned env sdk v s).2 e he o ho
  exact ⟨h, by rw [h]; rfl⟩

/-- C13 fails as stated: with an empty, non-nil list of nodes recorded and no pod listed, the
names (the nil slice) and the recorded nodes have the same elements, none, and yet `Handle`
issues the status update. -/
theorem status_updated_though_both_empty :
    emptyNodesRecorded.Status.Nodes = some [] ∧
    getPodNames holdsEmptyNodes.pods = none ∧
    (getPodNames holdsEmptyNodes.pods).getD [] = emptyNodesRecorded.Status.Nodes.getD [] ∧
    (Handle sampleEnv (kube selectAll) ⟨.vault emptyNodesRecorded, false⟩
      holdsEmptyNodes).trace.map (fun e => (e.site, e.call.kind, e.err))
      = [(.createVaultSecret, .Create, none), (.createDeployment, .Create, none),
         (.getDeployment, .Get, none), (.listPods, .List, none),
         (.updateStatus, .Update, none), (.createService, .Create, none),
         (.createConfigurerDeployment, .Create, none), (.createConfigMap, .Create, none),
         (.getConfigMap, .Get, none)] := by
  refine ⟨rfl, rfl, rfl, ?_⟩
  decide

/-- C13, amended. When `Handle` reaches the status block and the list succeeds with `items`:
the names are the nil slice if no pod is listed and the listed pods' names in list order
otherwise; the status update is issued exactly when the names are not deeply equal to the
recorded `v.Status.Nodes` (nil and an empty non-nil slice being unequal); the update carries
the names, and the descriptor ends with exactly the names recorded; no update is issued when
both are nil, or when the recorded nodes are the non-nil list of the listed names. -/
theorem status_updated_iff_not_deep_equal (env : Env) (sdk : Sdk σ) (v : Vault) (s : σ)
    (items : List Pod) (hreach : (beforeStatus env sdk v s).err = none)
    (hlist : (sdk.List v.Namespace (labelSelectorForVault v.Name)
      (beforeStatus env sdk v s).store).1 = .ok items) :
    getPodNames items = (if items = [] then none else some (items.map (fun p => p.Name))) ∧
    ((∃ e ∈ (Handle env sdk ⟨.vault v, false⟩ s).trace, e.site = .updateStatus) ↔
      getPodNames items ≠ v.Status.Nodes) ∧
    (∀ e ∈ (Handle env sdk ⟨.vault v, false⟩ s).trace, e.site = .updateStatus →
      ∃ v', e.call = .Update (.vault v') ∧ v'.Status.Nodes = getPodNames items) ∧
    (∃ v', (Handle env sdk ⟨.vault v, false⟩ s).Object = .vault v' ∧
      v'.Status.Nodes = getPodNames items) ∧
    (items = [] → v.Status.Nodes = none →
      ¬ ∃ e ∈ (Handle env sdk ⟨.vault v, false⟩ s).trace, e.site = .updateStatus) ∧
    (items ≠ [] → v.Status.Nodes = some (items.map (fun p => p.Name)) →
      ¬ ∃ e ∈ (Handle env sdk ⟨.vault v, false⟩ s).trace, e.site = .updateStatus) := by
  obtain ⟨hv, hmem⟩ := reconcile_status env sdk v s hreach
  obtain ⟨h1, h2, h3⟩ := handleStatus_of_list sdk v (beforeStatus env sdk v s).store items hlist
  have hnames := getPodNames_eq items
  have hiff : (∃ e ∈ (Handle env sdk ⟨.vault v, false⟩ s).trace, e.site = .updateStatus) ↔
      getPodNames items ≠ v.Status.Nodes := by
    rw [Handle_vault, ← h1]
    constructor
    · rintro ⟨e, he, hs⟩
      exact ⟨e, (hmem e hs).mp he, hs⟩
    · rintro ⟨e, he, hs⟩
      exact ⟨e, (hmem e hs).mpr he, hs⟩
  refine ⟨hnames, hiff, ?_, ?_, ?_, ?_⟩
  · rw [Handle_vault]
    intro e he hs
    exact h3 e ((hmem e hs).mp he) hs
  · rw [Handle_vault]
    exact ⟨_, rfl, by rw [hv]; exact h2⟩
  · intro hi hn hex
    apply hiff.mp hex
    rw [hnames, hn, if_pos hi]
  · intro hi hn hex
    apply hiff.mp hex
    rw [hnames, hn, if_neg hi]

/-- C13 amended, instantiated: one pod is listed and nothing is recorded, so the pass records
the pod's name. -/
theorem status_updated_iff_not_deep_equal_witness :
    getPodNames [({ Name := "vault-0", Namespace := "default" } : Pod)]
      = (if [({ Name := "vault-0", Namespace := "default" } : Pod)] = [] then none
         else some ([({ Name := "vault-0", Namespace := "default" } : Pod)].map
           (fun p => p.Name))) ∧
    ((∃ e ∈ (Handle sampleEnv (kube selectAll) ⟨.vault oneReplicaOnFile, false⟩
        driftedCluster).trace, e.site = .updateStatus) ↔
      getPodNames [({ Name := "vault-0", Namespace := "default" } : Pod)]
        ≠ oneReplicaOnFile.Status.Nodes) ∧
    (∀ e ∈ (Handle sampleEnv (kube selectAll) ⟨.vault oneReplicaOnFile, false⟩
        driftedCluster).trace, e.site = .updateStatus →
      ∃ v', e.call = .Update (.vault v') ∧
        v'.Status.Nodes
          = getPodNames [({ Name := "vault-0", Namespace := "default" } : Pod)]) ∧
    (∃ v', (Handle sampleEnv (kube selectAll) ⟨.vault oneReplicaOnFile, false⟩
        driftedCluster).Object = .vault v' ∧
      v'.Status.Nodes = getPodNames [({ Name := "vault-0", Namespace := "default" } : Pod)]) ∧
    ([({ Name := "vault-0", Namespace := "default" } : Pod)] = [] →
      oneReplicaOnFile.Status.Nodes = none →
      ¬ ∃ e ∈ (Handle sampleEnv (kube selectAll) ⟨.vault oneReplicaOnFile, false⟩
        driftedCluster).trace, e.site = .updateStatus) ∧
    ([({ Name := "vault-0", Namespace := "default" } : Pod)] ≠ [] →
      oneReplicaOnFile.Status.Nodes
        = some ([({ Name := "vault-0", Namespace := "default" } : Pod)].map
            (fun p => p.Name)) →
      ¬ ∃ e ∈ (Handle sampleEnv (kube selectAll) ⟨.vault oneReplicaOnFile, false⟩
        driftedCluster).trace, e.site = .updateStatus) :=
  status_updated_iff_not_deep_equal sampleEnv (kube selectAll) oneReplicaOnFile driftedCluster
    [{ Name := "vault-0", Namespace := "default" }] (by decide) rfl

end OwnerStatusClaims

end BankVaults
